import Mathlib

/-!
MIG partitioning: plan generator and node geometry search

A shallow embedding of

* `pkg/controllers/migagent/types/plan.go`  (`NewMigConfigPlan`, `IsEmpty`,
  `getResourcesNotIncludedInSpec`),
* `pkg/gpu/mig/node.go`  (`NewNode`, `Node.UpdateGeometryFor`, `Node.GetGeometry`,
  `Node.HasFreeMigResources`, `Node.AddPod`),
* `pkg/gpu/mig/annotations.go`  (`SpecMatchesStatus`, `SpecMatchesResources`,
  `ComputeStatusAnnotations`),

together with theorems about them.

Conventions of the embedding:

* A Go `map[K]V` is an association list `List (K × V)`; reading a missing key
  gives the zero value, `len` is the number of entries.  Go leaves the order
  of `range` over a map unspecified; the embedding fixes one order and every
  statement below is about membership and counts only.
* Go `int` is `Int`; an addition or subtraction on annotation quantities is
  followed by `wrapInt64`, the reduction to the 64-bit range.  The counts of
  MIG devices held by a GPU are `Nat`, differences of counts are taken in
  `Int`.
* `uint8(x)` is `x % 256`.
* A Go method that mutates its receiver and returns an `error` becomes a
  function returning the new receiver together with `Option String`
  (`none` is a `nil` error).
-/

namespace Mig

/-! ## Go maps as association lists -/

/-- Reading `m[k]` from a Go map with integer-like values: the stored value, or zero when
the key is absent. -/
def GoMap.get {κ : Type} [DecidableEq κ] : List (κ × Nat) → κ → Nat
  | [], _ => 0
  | (k', v) :: rest, k => if k' = k then v else GoMap.get rest k

/-- The assignment `m[k] = v` on a Go map: overwrite the entry when the key is present,
add an entry otherwise. -/
def GoMap.set {κ : Type} [DecidableEq κ] : List (κ × Nat) → κ → Nat → List (κ × Nat)
  | [], k, v => [(k, v)]
  | (k', v') :: rest, k, v =>
    if k' = k then (k, v) :: rest else (k', v') :: GoMap.set rest k v

/-- Reading `m[k]` from a Go map whose values are slices: the stored slice, or `nil`
(the empty slice) when the key is absent. -/
def GoMap.getList {κ α : Type} [DecidableEq κ] : List (κ × List α) → κ → List α
  | [], _ => []
  | (k', v) :: rest, k => if k' = k then v else GoMap.getList rest k

/-- Group the elements of a slice by a key: one entry per distinct key, holding the
elements with that key in their original order. -/
def groupByKey {κ α : Type} [DecidableEq κ] (key : α → κ) (xs : List α) : List (κ × List α) :=
  (xs.map key).dedup.map (fun k => (k, xs.filter (fun x => decide (key x = k))))

/-- The conversion `uint8(x)` of a Go `int`. -/
def uint8 (x : Int) : Nat := (x % 256).toNat

/-- The value that a Go `int` (64 bits, two's complement) holds after an operation whose
exact result is `x`. -/
def wrapInt64 (x : Int) : Int :=
  (x + 9223372036854775808) % 18446744073709551616 - 9223372036854775808

/-- Modelled from the spec: `util.Abs` on a Go `int` (the quantity `|diff|` of spec section
4.1), which is not part of the sources at hand: the negation, in 64 bits, of a negative
value. -/
def absInt64 (x : Int) : Int := if x < 0 then wrapInt64 (-x) else x

/-! ## Resource state model -/

/-- Modelled from the spec: the type `migtypes.MigProfile` is not part of the sources at
hand.  It is the key by which `GroupByMigProfile` groups, distinct from the string that
`GetMigProfileName` returns, and it is all that a create operation holds besides a
quantity, while a device is created from a profile name and a GPU index
(`CreateMigDevice`): the key is the GPU index together with the name of the partition shape
(spec, section 3). -/
structure MigProfile where
  GpuIndex : Int
  Name : String
  deriving DecidableEq

/-- Modelled from the spec: `migtypes.MigDeviceResource`, one concrete partition instance
tagged with GPU index, profile and externally exposed resource name (spec, section 3).
`MigProfileName` is what `GetMigProfileName` returns. -/
structure MigDeviceResource where
  GpuIndex : Int
  MigProfileName : String
  ResourceName : String
  deriving DecidableEq

/-- Modelled from the spec: `GPUSpecAnnotation`, a desired record made of GPU index,
profile and quantity (spec, section 3).  `Quantity` is a Go `int`. -/
structure GPUSpecAnnotation where
  GpuIndex : Int
  MigProfileName : String
  Quantity : Int
  deriving DecidableEq

/-- Modelled from the spec: the key of a resource, its GPU index with its profile name. -/
def MigDeviceResource.GetMigProfile (r : MigDeviceResource) : MigProfile :=
  { GpuIndex := r.GpuIndex, Name := r.MigProfileName }

/-- Modelled from the spec: the key of a spec annotation, its GPU index with its profile
name. -/
def GPUSpecAnnotation.GetMigProfile (a : GPUSpecAnnotation) : MigProfile :=
  { GpuIndex := a.GpuIndex, Name := a.MigProfileName }

abbrev MigDeviceResourceList := List MigDeviceResource

abbrev GPUSpecAnnotationList := List GPUSpecAnnotation

/-- Modelled from the spec: `MigState`, the full observed collection of resources of a
node (spec, section 3); the grouped views are derived from the flat list. -/
structure MigState where
  resources : MigDeviceResourceList
  deriving DecidableEq

/-- Modelled from the spec: `MigState.Flatten`, the flat list of all observed
resources. -/
def MigState.Flatten (s : MigState) : MigDeviceResourceList := s.resources

/-- Modelled from the spec: `MigState.WithoutMigProfiles`, the state without the resources
of GPU `gpuIndex` whose profile name is one of `migProfiles`; resources of other GPUs are
kept, and the receiver is not changed (value semantics, spec section 3). -/
def MigState.WithoutMigProfiles (s : MigState) (gpuIndex : Int) (migProfiles : List String) :
    MigState :=
  ⟨s.resources.filter (fun r => !(decide (r.GpuIndex = gpuIndex) && decide (r.MigProfileName ∈ migProfiles)))⟩

/-- Modelled from the spec: `MigDeviceResourceList.GroupByMigProfile`, the resources
grouped by their key. -/
def MigDeviceResourceList.GroupByMigProfile (l : MigDeviceResourceList) :
    List (MigProfile × MigDeviceResourceList) :=
  groupByKey (fun r => r.GetMigProfile) l

/-- Modelled from the spec: `GPUSpecAnnotationList.GroupByMigProfile`, the annotations
grouped by their key. -/
def GPUSpecAnnotationList.GroupByMigProfile (l : GPUSpecAnnotationList) :
    List (MigProfile × GPUSpecAnnotationList) :=
  groupByKey (fun a => a.GetMigProfile) l

/-- Modelled from the spec: `GPUSpecAnnotationList.GroupByGpuIndex`. -/
def GPUSpecAnnotationList.GroupByGpuIndex (l : GPUSpecAnnotationList) :
    List (Int × GPUSpecAnnotationList) :=
  groupByKey (fun a => a.GpuIndex) l

/-! ## Plan generator (`plan.go`) -/

structure CreateOperation where
  MigProfile : MigProfile
  Quantity : Nat
  deriving DecidableEq

structure DeleteOperation where
  MigProfile : MigProfile
  Resources : MigDeviceResourceList
  Quantity : Nat
  deriving DecidableEq

structure MigConfigPlan where
  DeleteOperations : List DeleteOperation
  CreateOperations : List CreateOperation
  deriving DecidableEq

def MigConfigPlan.addDeleteOp (p : MigConfigPlan) (op : DeleteOperation) : MigConfigPlan :=
  { p with DeleteOperations := p.DeleteOperations ++ [op] }

def MigConfigPlan.addCreateOp (p : MigConfigPlan) (op : CreateOperation) : MigConfigPlan :=
  { p with CreateOperations := p.CreateOperations ++ [op] }

def MigConfigPlan.IsEmpty (p : MigConfigPlan) : Bool :=
  p.DeleteOperations.length == 0 && p.CreateOperations.length == 0

/-- One iteration of the loop of `getResourcesNotIncludedInSpec`. -/
def withoutSpecOfGpu (updatedState : MigState) (entry : Int × GPUSpecAnnotationList) : MigState :=
  updatedState.WithoutMigProfiles entry.1 (entry.2.map (fun a => a.MigProfileName))

def getResourcesNotIncludedInSpec (state : MigState) (specAnnotations : GPUSpecAnnotationList) :
    MigDeviceResourceList :=
  let lookup := specAnnotations.GroupByGpuIndex
  let updatedState := lookup.foldl withoutSpecOfGpu state
  updatedState.Flatten

/-- One iteration of the first loop of `NewMigConfigPlan`: the delete operation for the
resources of one profile that the spec does not include. -/
def orphanStep (plan : MigConfigPlan) (entry : MigProfile × MigDeviceResourceList) :
    MigConfigPlan :=
  plan.addDeleteOp
    { MigProfile := entry.1, Resources := entry.2, Quantity := uint8 (entry.2.length : Int) }

/-- The accumulation `totalDesiredQuantity += a.Quantity` over the annotations of one
profile. -/
def totalDesiredQuantity (annotations : GPUSpecAnnotationList) : Int :=
  annotations.foldl (fun acc a => wrapInt64 (acc + a.Quantity)) 0

/-- One iteration of the second loop of `NewMigConfigPlan`. -/
def reconcileStep (stateResources : List (MigProfile × MigDeviceResourceList))
    (plan : MigConfigPlan) (entry : MigProfile × GPUSpecAnnotationList) : MigConfigPlan :=
  let actualResources := GoMap.getList stateResources entry.1
  let diff : Int := wrapInt64 (totalDesiredQuantity entry.2 - (actualResources.length : Int))
  let plan :=
    if diff > 0 then
      plan.addCreateOp { MigProfile := entry.1, Quantity := uint8 diff }
    else plan
  if diff < 0 then
    plan.addDeleteOp
      { MigProfile := entry.1, Quantity := uint8 (absInt64 diff), Resources := actualResources }
  else plan

/-- The first loop of `NewMigConfigPlan`, run on the empty plan: one delete operation per
profile of the resources that the spec does not include. -/
def orphanPhase (state : MigState) (desired : GPUSpecAnnotationList) : MigConfigPlan :=
  (MigDeviceResourceList.GroupByMigProfile (getResourcesNotIncludedInSpec state desired)).foldl
    orphanStep { DeleteOperations := [], CreateOperations := [] }

/-- The second loop of `NewMigConfigPlan`, continuing from `plan`. -/
def reconcilePhase (state : MigState) (desired : GPUSpecAnnotationList) (plan : MigConfigPlan) :
    MigConfigPlan :=
  let stateResources := MigDeviceResourceList.GroupByMigProfile state.Flatten
  (GPUSpecAnnotationList.GroupByMigProfile desired).foldl (reconcileStep stateResources) plan

def NewMigConfigPlan (state : MigState) (desired : GPUSpecAnnotationList) : MigConfigPlan :=
  reconcilePhase state desired (orphanPhase state desired)

/-! ## GPU geometry model -/

abbrev ProfileName := String

abbrev GPUModel := String

/-- A geometry maps each profile to the number of slices of that profile. -/
abbrev Geometry := List (ProfileName × Nat)

/-- Modelled from the spec: the type `GPU` of `gpu.go`, which is not part of the sources at
hand: index, hardware model, and the `used` and `free` maps from profile to count (spec,
section 3). -/
structure GPU where
  index : Int
  model : GPUModel
  usedMigDevices : List (ProfileName × Nat)
  freeMigDevices : List (ProfileName × Nat)
  deriving DecidableEq

/-- The static table of allowed geometries per GPU model.  The table itself is not part of
the sources at hand and is a parameter of everything below. -/
abbrev GeometryTable := GPUModel → List Geometry

/-- Modelled from the spec: `GPU.GetAllowedGeometries`, the allowed geometries of the
model of the GPU, in the order of the table (spec, section 4.2). -/
def GPU.GetAllowedGeometries (table : GeometryTable) (g : GPU) : List Geometry :=
  table g.model

/-- Modelled from the spec: `GPU.ApplyGeometry` (spec, section 4.2).  It fails, changing
nothing, if some profile has fewer slices in `geometry` than are in use; on success
`free[p] = geometry[p] - used[p]` for every profile of `geometry`, and no other profile
keeps a free entry. -/
def GPU.ApplyGeometry (g : GPU) (geometry : Geometry) : GPU × Option String :=
  if g.usedMigDevices.any
      (fun e => decide (GoMap.get geometry e.1 < GoMap.get g.usedMigDevices e.1)) then
    (g, some "cannot apply MIG geometry: cannot delete MIG devices being used")
  else
    ({ g with
        freeMigDevices :=
          geometry.map
            (fun e => (e.1, GoMap.get geometry e.1 - GoMap.get g.usedMigDevices e.1)) },
      none)

/-- Modelled from the spec: `GPU.GetGeometry`, `used + free` merged per profile (spec,
section 4.2). -/
def GPU.GetGeometry (g : GPU) : Geometry :=
  ((g.usedMigDevices ++ g.freeMigDevices).map Prod.fst).dedup.map
    (fun p => (p, GoMap.get g.usedMigDevices p + GoMap.get g.freeMigDevices p))

/-- Modelled from the spec: a pod, reduced to what the node model reads from it, the
combined request of MIG profiles with their quantities (`GetRequestedProfiles(pod)`, which
is not part of the sources at hand; spec, section 4.2). -/
structure Pod where
  requestedProfiles : List (ProfileName × Nat)
  deriving DecidableEq

/-- Modelled from the spec: `GPU.AddPod` (spec, section 4.2, `Node.AddWorkload`).  When
the free capacity of the GPU covers every profile and quantity of the request, the GPU is
debited: free decremented and used incremented by the requested quantities.  Otherwise
it fails and changes nothing. -/
def GPU.AddPod (g : GPU) (pod : Pod) : GPU × Option String :=
  let req := pod.requestedProfiles
  if req.all (fun e => decide (GoMap.get req e.1 ≤ GoMap.get g.freeMigDevices e.1)) then
    ({ g with
        freeMigDevices :=
          g.freeMigDevices.map (fun e => (e.1, GoMap.get g.freeMigDevices e.1 - GoMap.get req e.1))
        usedMigDevices :=
          req.foldl
            (fun used e => GoMap.set used e.1 (GoMap.get g.usedMigDevices e.1 + GoMap.get req e.1))
            g.usedMigDevices },
      none)
  else
    (g, some "not enough free MIG devices")

/-! ## Node aggregate and geometry search (`node.go`) -/

structure Node where
  Name : String
  GPUs : List GPU
  deriving DecidableEq

/-- The inner loop of `Node.UpdateGeometryFor` over the allowed geometries of one GPU.
The result is the GPU after the loop and whether a geometry was applied (in which case
the method returns `nil`). -/
def applyCandidates (profile : ProfileName) : List Geometry → GPU → GPU × Bool
  | [], gpu => (gpu, false)
  | allowedGeometry :: rest, gpu =>
    let nFreeProfilesWithGeometry : Int :=
      (GoMap.get allowedGeometry profile : Int) - (GoMap.get gpu.usedMigDevices profile : Int)
    if nFreeProfilesWithGeometry > 0 then
      match gpu.ApplyGeometry allowedGeometry with
      | (gpu', none) => (gpu', true)
      | (gpu', some _) => applyCandidates profile rest gpu'
    else applyCandidates profile rest gpu

/-- The outer loop of `Node.UpdateGeometryFor` over the GPUs of the node.  The loop
variable shares its used and free maps with the element of `n.GPUs`, so what
`ApplyGeometry` writes is seen by the node: the result is the list of GPUs after the loop
and whether the loop returned `nil`. -/
def updateGPUs (table : GeometryTable) (profile : ProfileName) : List GPU → List GPU × Bool
  | [] => ([], false)
  | gpu :: rest =>
    if GoMap.get gpu.freeMigDevices profile > 0 then (gpu :: rest, true)
    else
      match applyCandidates profile (gpu.GetAllowedGeometries table) gpu with
      | (gpu', true) => (gpu' :: rest, true)
      | (gpu', false) =>
        let r := updateGPUs table profile rest
        (gpu' :: r.1, r.2)

def Node.UpdateGeometryFor (table : GeometryTable) (n : Node) (profile : ProfileName) :
    Node × Option String :=
  if n.GPUs.length = 0 then
    (n, some "cannot update geometry because node does not have any MIG GPU")
  else
    match updateGPUs table profile n.GPUs with
    | (gpus, true) => ({ n with GPUs := gpus }, none)
    | (gpus, false) =>
      ({ n with GPUs := gpus }, some ("cannot update MIG geometry for creating MIG device " ++ profile))

def Node.HasFreeMigResources (n : Node) : Bool :=
  if n.GPUs.length = 0 then false
  else n.GPUs.any (fun gpu => decide (gpu.freeMigDevices.length > 0))

/-- The loop of `Node.AddPod`: the GPUs after the loop and whether some GPU took the
pod. -/
def addPodGPUs (pod : Pod) : List GPU → List GPU × Bool
  | [] => ([], false)
  | g :: rest =>
    match g.AddPod pod with
    | (g', none) => (g' :: rest, true)
    | (g', some _) =>
      let r := addPodGPUs pod rest
      (g' :: r.1, r.2)

def Node.AddPod (n : Node) (pod : Pod) : Node × Option String :=
  match addPodGPUs pod n.GPUs with
  | (gpus, true) => ({ n with GPUs := gpus }, none)
  | (gpus, false) => ({ n with GPUs := gpus }, some "not enough free MIG devices")

/-! ## Notions used to state the properties -/

/-- A resource is an orphan when no desired annotation requests its profile for its own
GPU index. -/
def isOrphan (desired : GPUSpecAnnotationList) (r : MigDeviceResource) : Bool :=
  !desired.any
    (fun a => decide (a.GpuIndex = r.GpuIndex) && decide (a.MigProfileName = r.MigProfileName))

/-- The total desired quantity of a profile (a GPU index with a profile name): the exact
sum of the quantities of the annotations with that key. -/
def desiredTotal (desired : GPUSpecAnnotationList) (p : MigProfile) : Int :=
  ((desired.filter (fun a => decide (a.GetMigProfile = p))).map (fun a => a.Quantity)).sum

/-- The number of observed resources of a profile (a GPU index with a profile name). -/
def observedCount (state : MigState) (p : MigProfile) : Nat :=
  (state.resources.filter (fun r => decide (r.GetMigProfile = p))).length

/-- The number of observed resources of a profile that are not orphans. -/
def nonOrphanCount (state : MigState) (desired : GPUSpecAnnotationList) (p : MigProfile) : Nat :=
  (state.resources.filter (fun r => decide (r.GetMigProfile = p) && !isOrphan desired r)).length

/-- The largest value of a Go `int`. -/
def maxInt64 : Int := 9223372036854775807

/-- The invariant of a GPU: `used + free`, per profile, is one of the allowed
geometries. -/
def GPU.GeometryAllowed (table : GeometryTable) (g : GPU) : Prop :=
  ∃ geometry ∈ g.GetAllowedGeometries table,
    ∀ p, GoMap.get g.usedMigDevices p + GoMap.get g.freeMigDevices p = GoMap.get geometry p

/-- The delete operation that the first loop emits for one group of orphans. -/
def orphanOp (entry : MigProfile × MigDeviceResourceList) : DeleteOperation :=
  { MigProfile := entry.1, Resources := entry.2, Quantity := uint8 (entry.2.length : Int) }

/-- The difference that the second loop computes for one group of annotations. -/
def entryDiff (stateResources : List (MigProfile × MigDeviceResourceList))
    (entry : MigProfile × GPUSpecAnnotationList) : Int :=
  wrapInt64 (totalDesiredQuantity entry.2 - ((GoMap.getList stateResources entry.1).length : Int))

/-- The create operations that one iteration of the second loop emits. -/
def entryCreates (stateResources : List (MigProfile × MigDeviceResourceList))
    (entry : MigProfile × GPUSpecAnnotationList) : List CreateOperation :=
  if entryDiff stateResources entry > 0 then
    [{ MigProfile := entry.1, Quantity := uint8 (entryDiff stateResources entry) }]
  else []

/-- The delete operations that one iteration of the second loop emits. -/
def entryDeletes (stateResources : List (MigProfile × MigDeviceResourceList))
    (entry : MigProfile × GPUSpecAnnotationList) : List DeleteOperation :=
  if entryDiff stateResources entry < 0 then
    [{ MigProfile := entry.1,
       Quantity := uint8 (absInt64 (entryDiff stateResources entry)),
       Resources := GoMap.getList stateResources entry.1 }]
  else []

/-- Of a geometry and a GPU: the geometry admits the profile on the GPU when it has more slices of the profile than
are in use and no fewer slices of any profile than are in use. -/
def admits (gpu : GPU) (profile : ProfileName) (geometry : Geometry) : Prop :=
  GoMap.get geometry profile > GoMap.get gpu.usedMigDevices profile ∧
    ∀ q, GoMap.get geometry q ≥ GoMap.get gpu.usedMigDevices q

/-- The table of scenario C: two allowed geometries, whatever the model. -/
def scenarioTable : GeometryTable :=
  fun _ => [[("1g.5gb", 7)], [("3g.20gb", 1), ("1g.5gb", 1)]]

/-! ## Node geometry and node construction (`node.go`) -/

/-- The inner loop of `Node.GetGeometry`: `res[p] += q` for every entry of the geometry of
one GPU. -/
def addGeometry (res : Geometry) (geometry : Geometry) : Geometry :=
  geometry.foldl (fun res e => GoMap.set res e.1 (GoMap.get res e.1 + e.2)) res

def Node.GetGeometry (n : Node) : Geometry :=
  n.GPUs.foldl (fun res g => addGeometry res g.GetGeometry) []

/-- Modelled from the spec: `GPUStatusAnnotation`, an observed record made of GPU index,
profile, quantity and the used/free flag (spec, section 3).  `Quantity` is a Go `int`. -/
structure GPUStatusAnnotation where
  GpuIndex : Int
  MigProfileName : String
  Used : Bool
  Quantity : Int
  deriving DecidableEq

def GPUStatusAnnotation.IsUsed (a : GPUStatusAnnotation) : Bool := a.Used

def GPUStatusAnnotation.IsFree (a : GPUStatusAnnotation) : Bool := !a.Used

/-- The zero value of the struct, with which `make([]T, n)` fills a slice. -/
def GPUStatusAnnotation.zero : GPUStatusAnnotation :=
  { GpuIndex := 0, MigProfileName := "", Used := false, Quantity := 0 }

/-- The part of a Kubernetes node that `NewNode` reads: name, labels and annotations. -/
structure K8sNode where
  Name : String
  Labels : List (String × String)
  Annotations : List (String × String)
  deriving DecidableEq

/-- Reading `m[k]` with the comma-ok form from a Go map of strings. -/
def GoMap.lookupStr : List (String × String) → String → Option String
  | [], _ => none
  | (k', v) :: rest, k => if k' = k then some v else GoMap.lookupStr rest k

/-- What `node.go` uses and the sources at hand do not contain: the label constant
`constant.LabelNvidiaProduct`, the decoder `GetGPUAnnotationsFromNode` and the constructor
`NewGPU`.  They are parameters of `NewNode`. -/
structure NodeEnv where
  LabelNvidiaProduct : String
  GetGPUAnnotationsFromNode : K8sNode → List GPUStatusAnnotation
  NewGPU : GPUModel → Int → List (ProfileName × Int) → List (ProfileName × Int) →
    GPU × Option String

def getGPUsModel (env : NodeEnv) (node : K8sNode) : GPUModel × Option String :=
  match GoMap.lookupStr node.Labels env.LabelNvidiaProduct with
  | some val => (val, none)
  | none => ("", some "cannot get NVIDIA GPU model: node does not have label")

/-- The assignment `m[k] = v` on a Go map of integers. -/
def GoMap.setInt {κ : Type} [DecidableEq κ] : List (κ × Int) → κ → Int → List (κ × Int)
  | [], k, v => [(k, v)]
  | (k', v') :: rest, k, v =>
    if k' = k then (k, v) :: rest else (k', v') :: GoMap.setInt rest k v

/-- The inner loop of `extractGPUs`: the used and free maps of one GPU, filled from its
annotations with the quantities as they are. -/
def fillDevices (gpuAnnotations : List GPUStatusAnnotation) :
    List (ProfileName × Int) × List (ProfileName × Int) :=
  gpuAnnotations.foldl
    (fun maps a =>
      let used := if a.IsUsed then GoMap.setInt maps.1 a.MigProfileName a.Quantity else maps.1
      let free := if a.IsFree then GoMap.setInt maps.2 a.MigProfileName a.Quantity else maps.2
      (used, free))
    ([], [])

/-- The outer loop of `extractGPUs` over the annotations grouped by GPU index; `result` is
the slice built so far. -/
def extractLoop (env : NodeEnv) (gpusModel : GPUModel) :
    List (Int × List GPUStatusAnnotation) → List GPU → List GPU × Option String
  | [], result => (result, none)
  | (gpuIndex, gpuAnnotations) :: rest, result =>
    let maps := fillDevices gpuAnnotations
    match env.NewGPU gpusModel gpuIndex maps.1 maps.2 with
    | (_, some err) => ([], some err)
    | (gpu, none) => extractLoop env gpusModel rest (result ++ [gpu])

def extractGPUs (env : NodeEnv) (node : K8sNode) (gpusModel : GPUModel) :
    List GPU × Option String :=
  let statusAnnotations := env.GetGPUAnnotationsFromNode node
  extractLoop env gpusModel (groupByKey (fun a => a.GpuIndex) statusAnnotations) []

def NewNode (env : NodeEnv) (n : K8sNode) : Node × Option String :=
  match getGPUsModel env n with
  | (_, some _) => ({ Name := n.Name, GPUs := [] }, none)
  | (gpusModel, none) =>
    match extractGPUs env n gpusModel with
    | (_, some err) => ({ Name := "", GPUs := [] }, some err)
    | (gpus, none) => ({ Name := n.Name, GPUs := gpus }, none)

/-! ## Annotations (`annotations.go`) -/

/-- Reading `m[k]` with the comma-ok form from a Go map of integers. -/
def GoMap.lookupInt {κ : Type} [DecidableEq κ] : List (κ × Int) → κ → Option Int
  | [], _ => none
  | (k', v) :: rest, k => if k' = k then some v else GoMap.lookupInt rest k

/-- The statement `m[k] += q` on a Go map of integers: the sum is reduced to the 64-bit
range. -/
def GoMap.addInt {κ : Type} [DecidableEq κ] : List (κ × Int) → κ → Int → List (κ × Int)
  | [], k, q => [(k, wrapInt64 (0 + q))]
  | (k', v) :: rest, k, q =>
    if k' = k then (k, wrapInt64 (v + q)) :: rest else (k', v) :: GoMap.addInt rest k q

/-- The library function `reflect.DeepEqual` on two non-nil maps of integers: they have
the same length and every key of the first is a key of the second with an equal value. -/
def reflectDeepEqual {κ : Type} [DecidableEq κ] (m1 m2 : List (κ × Int)) : Bool :=
  decide (m1.length = m2.length) &&
    m1.all (fun e => decide (GoMap.lookupInt m2 e.1 = some e.2))

/-- The methods `GetGPUIndexWithMigProfile` of the two annotation types are not part of the
sources at hand; they are the parameters `specKey` and `statusKey`. -/
def SpecMatchesStatus (specKey : GPUSpecAnnotation → String)
    (statusKey : GPUStatusAnnotation → String)
    (specAnnotations : List GPUSpecAnnotation) (statusAnnotations : List GPUStatusAnnotation) :
    Bool :=
  let specMigProfilesWithQuantity : List (String × Int) :=
    specAnnotations.foldl (fun m a => GoMap.addInt m (specKey a) a.Quantity) []
  let statusMigProfilesWithQuantity : List (String × Int) :=
    statusAnnotations.foldl (fun m a => GoMap.addInt m (statusKey a) a.Quantity) []
  reflectDeepEqual specMigProfilesWithQuantity statusMigProfilesWithQuantity

/-- The map `resourceNameWithQuantity` that `SpecMatchesResources` builds. -/
def countResourceNames (resources : List MigDeviceResource) : List (String × Nat) :=
  resources.foldl (fun m r => GoMap.set m r.ResourceName (GoMap.get m r.ResourceName + 1)) []

def SpecMatchesResources (_specAnnotations : List GPUSpecAnnotation)
    (resources : List MigDeviceResource) : Bool :=
  let _resourceNameWithQuantity := countResourceNames resources
  false

/-- What `ComputeStatusAnnotations` uses and the sources at hand do not contain: the
method `FullResourceName`, the annotation keys that `fmt.Sprintf` builds from the formats
`AnnotationUsedMigStatusFormat` and `AnnotationFreeMigStatusFormat`, and the decoder
`NewGPUStatusAnnotation`, which receives the key and the quantity (in the source, printed
in decimal) and may fail. -/
structure StatusCodec where
  FullResourceName : MigDeviceResource → String
  usedKey : Int → String → String
  freeKey : Int → String → String
  NewGPUStatusAnnotation : String → Nat → Except String GPUStatusAnnotation

/-- The counting loops of `ComputeStatusAnnotations`: `m[u.FullResourceName()]++`. -/
def countFullNames (codec : StatusCodec) (l : List MigDeviceResource) : List (String × Nat) :=
  l.foldl
    (fun m u => GoMap.set m (codec.FullResourceName u) (GoMap.get m (codec.FullResourceName u) + 1))
    []

/-- The loops of `ComputeStatusAnnotations` that fill `annotationToQuantity`, for the used
and then for the free resources. -/
def annotationToQuantity (codec : StatusCodec) (used free : List MigDeviceResource) :
    List (String × Nat) :=
  let usedMigToQuantity := countFullNames codec used
  let freeMigToQuantity := countFullNames codec free
  let m : List (String × Nat) :=
    used.foldl
      (fun m u =>
        GoMap.set m (codec.usedKey u.GpuIndex u.MigProfileName)
          (GoMap.get usedMigToQuantity (codec.FullResourceName u)))
      []
  free.foldl
    (fun m u =>
      GoMap.set m (codec.freeKey u.GpuIndex u.MigProfileName)
        (GoMap.get freeMigToQuantity (codec.FullResourceName u)))
    m

/-- One iteration of the last loop of `ComputeStatusAnnotations`. -/
def appendDecoded (codec : StatusCodec) (res : List GPUStatusAnnotation) (e : String × Nat) :
    List GPUStatusAnnotation :=
  match codec.NewGPUStatusAnnotation e.1 e.2 with
  | .ok a => res ++ [a]
  | .error _ => res

def ComputeStatusAnnotations (codec : StatusCodec) (used free : List MigDeviceResource) :
    List GPUStatusAnnotation :=
  let annotationToQuantity := annotationToQuantity codec used free
  let res := List.replicate annotationToQuantity.length GPUStatusAnnotation.zero
  annotationToQuantity.foldl (appendDecoded codec) res

/-! ## Further notions used to state the properties -/

/-- The free counts of the GPU cover every profile and quantity of the request of the
pod. -/
def covers (g : GPU) (pod : Pod) : Prop :=
  ∀ q, GoMap.get pod.requestedProfiles q ≤ GoMap.get g.freeMigDevices q

/-- The GPU after a debit: index and model kept, free decremented and used incremented by
the requested quantities. -/
def debited (g g' : GPU) (pod : Pod) : Prop :=
  g'.index = g.index ∧ g'.model = g.model ∧
    ∀ q, GoMap.get g'.freeMigDevices q =
        GoMap.get g.freeMigDevices q - GoMap.get pod.requestedProfiles q ∧
      GoMap.get g'.usedMigDevices q =
        GoMap.get g.usedMigDevices q + GoMap.get pod.requestedProfiles q

/-- The value of a derived count mapping at a key: the sum of the quantities of the
annotations with that key. -/
def keySum {α : Type} (key : α → String) (quantity : α → Int) (l : List α) (k : String) : Int :=
  ((l.filter (fun a => decide (key a = k))).map quantity).sum

/-- A table with four geometries of a 40 GB device, whatever the model. -/
def exampleTable : GeometryTable :=
  fun _ =>
    [[("7g.40gb", 1)], [("3g.20gb", 2)], [("3g.20gb", 1), ("1g.5gb", 3)], [("1g.5gb", 7)]]

/-- An environment for examples: the product label of the GPU operator, a decoder that
finds seven free "1g.5gb" devices on GPU 0 on every node, and a constructor that accepts
every GPU whose counts are not negative. -/
def exampleEnv : NodeEnv :=
  { LabelNvidiaProduct := "nvidia.com/gpu.product"
    GetGPUAnnotationsFromNode := fun _ => [⟨0, "1g.5gb", false, 7⟩]
    NewGPU := fun model index used free =>
      if used.all (fun e => decide (0 ≤ e.2)) && free.all (fun e => decide (0 ≤ e.2)) then
        (⟨index, model, used.map (fun e => (e.1, e.2.toNat)),
          free.map (fun e => (e.1, e.2.toNat))⟩, none)
      else (⟨index, model, [], []⟩, some "invalid MIG device count") }

/-- A key for examples: GPU index and profile of a spec annotation, joined by a dash. -/
def exampleSpecKey (a : GPUSpecAnnotation) : String :=
  toString a.GpuIndex ++ "-" ++ a.MigProfileName

/-- A key for examples: GPU index and profile of a status annotation, joined by a dash;
the used/free flag is not part of it. -/
def exampleStatusKey (a : GPUStatusAnnotation) : String :=
  toString a.GpuIndex ++ "-" ++ a.MigProfileName

/-! ## Lemmas on grouping -/

section Grouping

variable {κ α : Type} [DecidableEq κ]

theorem getList_map_of_mem (f : κ → List α) (ks : List κ) (k : κ) (h : k ∈ ks) :
    GoMap.getList (ks.map (fun k => (k, f k))) k = f k := by
  induction ks with
  | nil => cases h
  | cons k' ks ih =>
    by_cases hk : k' = k
    · simp [GoMap.getList, hk]
    · have hmem : k ∈ ks := by
        rcases List.mem_cons.mp h with h | h
        · exact absurd h.symm hk
        · exact h
      simp [GoMap.getList, hk, ih hmem]

theorem getList_map_of_not_mem (f : κ → List α) (ks : List κ) (k : κ) (h : k ∉ ks) :
    GoMap.getList (ks.map (fun k => (k, f k))) k = [] := by
  induction ks with
  | nil => rfl
  | cons k' ks ih =>
    have hk : k' ≠ k := fun e => h (by simp [e])
    have hmem : k ∉ ks := fun e => h (List.mem_cons_of_mem _ e)
    simp [GoMap.getList, hk, ih hmem]

/-- Reading a group back gives the elements with that key. -/
theorem getList_groupByKey (key : α → κ) (xs : List α) (k : κ) :
    GoMap.getList (groupByKey key xs) k = xs.filter (fun x => decide (key x = k)) := by
  unfold groupByKey
  by_cases h : k ∈ (xs.map key).dedup
  · exact getList_map_of_mem _ _ _ h
  · rw [getList_map_of_not_mem _ _ _ h]
    symm
    rw [List.filter_eq_nil_iff]
    intro x hx hkx
    apply h
    rw [List.mem_dedup]
    exact List.mem_map.mpr ⟨x, hx, by simpa using hkx⟩

theorem groupByKey_keys (key : α → κ) (xs : List α) :
    (groupByKey key xs).map Prod.fst = (xs.map key).dedup := by
  unfold groupByKey
  rw [List.map_map]
  exact List.map_id _

theorem mem_groupByKey (key : α → κ) (xs : List α) (e : κ × List α) :
    e ∈ groupByKey key xs ↔
      (∃ x ∈ xs, key x = e.1) ∧ e.2 = xs.filter (fun x => decide (key x = e.1)) := by
  unfold groupByKey
  constructor
  · intro h
    obtain ⟨k, hk, rfl⟩ := List.mem_map.mp h
    rw [List.mem_dedup] at hk
    obtain ⟨x, hx, hxk⟩ := List.mem_map.mp hk
    exact ⟨⟨x, hx, hxk⟩, rfl⟩
  · rintro ⟨⟨x, hx, hxk⟩, h2⟩
    refine List.mem_map.mpr ⟨e.1, ?_, ?_⟩
    · rw [List.mem_dedup]
      exact List.mem_map.mpr ⟨x, hx, hxk⟩
    · exact Prod.ext rfl h2.symm

/-- Among the groups, the ones with key `k` are: the single group of `k` when some element
has key `k`, none otherwise. -/
theorem filter_groupByKey (key : α → κ) (xs : List α) (k : κ) :
    (groupByKey key xs).filter (fun e => decide (e.1 = k)) =
      if k ∈ xs.map key then [(k, xs.filter (fun x => decide (key x = k)))] else [] := by
  unfold groupByKey
  rw [List.filter_map]
  have hfun : ((fun e : κ × List α => decide (e.1 = k)) ∘
      fun k => (k, xs.filter (fun x => decide (key x = k)))) = fun k' => decide (k' = k) := by
    funext k'
    rfl
  rw [hfun]
  have hnd : ((xs.map key).dedup).Nodup := List.nodup_dedup _
  have hfil : ∀ (l : List κ), l.Nodup →
      l.filter (fun k' => decide (k' = k)) = if k ∈ l then [k] else [] := by
    intro l
    induction l with
    | nil => intro _; rfl
    | cons a l ih =>
      intro hl
      rw [List.nodup_cons] at hl
      by_cases ha : a = k
      · subst ha
        have : a ∉ l := hl.1
        simp [List.filter_cons, ih hl.2, this]
      · have hne : k ≠ a := fun e => ha e.symm
        simp [List.filter_cons, ha, ih hl.2, hne]
  rw [hfil _ hnd]
  by_cases hk : k ∈ xs.map key
  · have : k ∈ (xs.map key).dedup := List.mem_dedup.mpr hk
    simp only [this, hk, if_true, List.map_cons, List.map_nil]
  · have : k ∉ (xs.map key).dedup := fun e => hk (List.mem_dedup.mp e)
    simp only [this, hk, if_false, List.map_nil]

end Grouping

/-! ## Lemmas on 64-bit arithmetic -/

theorem wrapInt64_of_range (x : Int) (h0 : -9223372036854775808 ≤ x)
    (h1 : x < 9223372036854775808) : wrapInt64 x = x := by
  unfold wrapInt64
  omega

theorem wrapInt64_range (x : Int) :
    -9223372036854775808 ≤ wrapInt64 x ∧ wrapInt64 x < 9223372036854775808 := by
  unfold wrapInt64
  omega

theorem wrapInt64_add_left (a b : Int) : wrapInt64 (wrapInt64 a + b) = wrapInt64 (a + b) := by
  unfold wrapInt64
  omega

theorem wrapInt64_sub_left (a b : Int) : wrapInt64 (wrapInt64 a - b) = wrapInt64 (a - b) := by
  unfold wrapInt64
  omega

/-! ## Lemmas on the plan generator -/

theorem foldl_orphanStep (l : List (MigProfile × MigDeviceResourceList)) (plan : MigConfigPlan) :
    l.foldl orphanStep plan =
      { DeleteOperations := plan.DeleteOperations ++ l.map orphanOp,
        CreateOperations := plan.CreateOperations } := by
  induction l generalizing plan with
  | nil => simp
  | cons e l ih =>
    rw [List.foldl_cons, ih]
    simp [orphanStep, MigConfigPlan.addDeleteOp, orphanOp]

theorem reconcileStep_eq (sr : List (MigProfile × MigDeviceResourceList)) (plan : MigConfigPlan)
    (entry : MigProfile × GPUSpecAnnotationList) :
    reconcileStep sr plan entry =
      { DeleteOperations := plan.DeleteOperations ++ entryDeletes sr entry,
        CreateOperations := plan.CreateOperations ++ entryCreates sr entry } := by
  unfold reconcileStep entryDeletes entryCreates entryDiff
  by_cases h1 : wrapInt64
      (totalDesiredQuantity entry.2 - ((GoMap.getList sr entry.1).length : Int)) > 0
  · have h2 : ¬ wrapInt64
        (totalDesiredQuantity entry.2 - ((GoMap.getList sr entry.1).length : Int)) < 0 := by
      omega
    simp [h1, h2, MigConfigPlan.addCreateOp]
  · by_cases h2 : wrapInt64
        (totalDesiredQuantity entry.2 - ((GoMap.getList sr entry.1).length : Int)) < 0
    · simp [h1, h2, MigConfigPlan.addDeleteOp]
    · simp [h1, h2]

theorem foldl_reconcileStep (sr : List (MigProfile × MigDeviceResourceList))
    (l : List (MigProfile × GPUSpecAnnotationList)) (plan : MigConfigPlan) :
    l.foldl (reconcileStep sr) plan =
      { DeleteOperations := plan.DeleteOperations ++ l.flatMap (entryDeletes sr),
        CreateOperations := plan.CreateOperations ++ l.flatMap (entryCreates sr) } := by
  induction l generalizing plan with
  | nil => simp
  | cons e l ih =>
    rw [List.foldl_cons, ih, reconcileStep_eq]
    simp [List.flatMap_cons, List.append_assoc]

/-- The total that the code accumulates is the exact sum of the quantities, reduced to the
64-bit range. -/
theorem totalDesiredQuantity_eq_sum (l : GPUSpecAnnotationList) :
    totalDesiredQuantity l = wrapInt64 (l.map (fun a => a.Quantity)).sum := by
  unfold totalDesiredQuantity
  have h : ∀ (l : GPUSpecAnnotationList) (acc : Int),
      wrapInt64 (l.foldl (fun acc a => wrapInt64 (acc + a.Quantity)) acc) =
        wrapInt64 (acc + (l.map (fun a => a.Quantity)).sum) := by
    intro l
    induction l with
    | nil => intro acc; simp
    | cons a l ih =>
      intro acc
      rw [List.foldl_cons, ih, List.map_cons, List.sum_cons, wrapInt64_add_left, add_assoc]
  have hr : ∀ (l : GPUSpecAnnotationList) (acc : Int),
      (-9223372036854775808 ≤ acc ∧ acc < 9223372036854775808) →
      (-9223372036854775808 ≤ l.foldl (fun acc a => wrapInt64 (acc + a.Quantity)) acc ∧
        l.foldl (fun acc a => wrapInt64 (acc + a.Quantity)) acc < 9223372036854775808) := by
    intro l
    induction l with
    | nil => intro acc hacc; exact hacc
    | cons a l ih =>
      intro acc _
      rw [List.foldl_cons]
      exact ih _ (wrapInt64_range _)
  have hrange := hr l 0 (by decide)
  rw [← wrapInt64_of_range _ hrange.1 hrange.2, h, zero_add]

/-- The resources that the spec does not include are the orphans, in the order of the
state. -/
theorem getResourcesNotIncludedInSpec_eq (state : MigState) (desired : GPUSpecAnnotationList) :
    getResourcesNotIncludedInSpec state desired = state.resources.filter (isOrphan desired) := by
  unfold getResourcesNotIncludedInSpec
  have hfold : ∀ (l : List (Int × GPUSpecAnnotationList)) (s : MigState),
      (l.foldl withoutSpecOfGpu s).Flatten =
        s.resources.filter (fun r => l.all (fun e =>
          !(decide (r.GpuIndex = e.1) &&
            decide (r.MigProfileName ∈ e.2.map (fun a => a.MigProfileName))))) := by
    intro l
    induction l with
    | nil => intro s; simp [MigState.Flatten]
    | cons e l ih =>
      intro s
      rw [List.foldl_cons, ih]
      simp only [withoutSpecOfGpu, MigState.WithoutMigProfiles, List.filter_filter, List.all_cons]
      apply List.filter_congr
      intro r _
      rw [Bool.and_comm]
  simp only []
  rw [hfold]
  apply List.filter_congr
  intro r _
  rw [Bool.eq_iff_iff]
  simp only [List.all_eq_true, isOrphan, Bool.not_eq_true', List.any_eq_false, Bool.and_eq_true,
    decide_eq_true_eq, Bool.and_eq_false_imp, decide_eq_false_iff_not, List.mem_map, not_exists,
    not_and, Bool.not_eq_true]
  constructor
  · intro h a ha hg hp
    have hmem : (a.GpuIndex, desired.filter (fun x => decide (x.GpuIndex = a.GpuIndex))) ∈
        GPUSpecAnnotationList.GroupByGpuIndex desired := by
      unfold GPUSpecAnnotationList.GroupByGpuIndex
      rw [mem_groupByKey]
      exact ⟨⟨a, ha, rfl⟩, rfl⟩
    exact h _ hmem hg.symm a (by simp [ha]) hp
  · intro h e he hg a ha hp
    unfold GPUSpecAnnotationList.GroupByGpuIndex at he
    rw [mem_groupByKey] at he
    rw [he.2] at ha
    simp only [List.mem_filter, decide_eq_true_eq] at ha
    exact h a ha.1 (by rw [ha.2, hg]) hp

/-- The plan, phase by phase. -/
theorem NewMigConfigPlan_eq (state : MigState) (desired : GPUSpecAnnotationList) :
    NewMigConfigPlan state desired =
      { DeleteOperations :=
          (MigDeviceResourceList.GroupByMigProfile
              (state.resources.filter (isOrphan desired))).map orphanOp ++
            (GPUSpecAnnotationList.GroupByMigProfile desired).flatMap
              (entryDeletes (MigDeviceResourceList.GroupByMigProfile state.resources)),
        CreateOperations :=
          (GPUSpecAnnotationList.GroupByMigProfile desired).flatMap
            (entryCreates (MigDeviceResourceList.GroupByMigProfile state.resources)) } := by
  unfold NewMigConfigPlan reconcilePhase orphanPhase
  simp only [foldl_reconcileStep, foldl_orphanStep, getResourcesNotIncludedInSpec_eq,
    MigState.Flatten, List.nil_append]

/-- The difference that the code computes for a profile of the desired list: the exact
difference between the total desired quantity and the number of observed resources of the
profile, reduced to the 64-bit range. -/
theorem entryDiff_group (state : MigState) (desired : GPUSpecAnnotationList) (p : MigProfile) :
    entryDiff (MigDeviceResourceList.GroupByMigProfile state.resources)
        (p, desired.filter (fun a => decide (a.GetMigProfile = p))) =
      wrapInt64 (desiredTotal desired p - (observedCount state p : Int)) := by
  unfold entryDiff MigDeviceResourceList.GroupByMigProfile desiredTotal observedCount
  rw [getList_groupByKey, totalDesiredQuantity_eq_sum, wrapInt64_sub_left]

/-- The entries of the grouped annotations are the profiles occurring in `desired`, each
with its annotations. -/
theorem mem_groupDesired (desired : GPUSpecAnnotationList)
    (e : MigProfile × GPUSpecAnnotationList) :
    e ∈ GPUSpecAnnotationList.GroupByMigProfile desired ↔
      e.1 ∈ desired.map (fun a => a.GetMigProfile) ∧
        e.2 = desired.filter (fun a => decide (a.GetMigProfile = e.1)) := by
  unfold GPUSpecAnnotationList.GroupByMigProfile
  rw [mem_groupByKey]
  simp only [List.mem_map]

theorem entryCreates_profile (sr : List (MigProfile × MigDeviceResourceList))
    (e : MigProfile × GPUSpecAnnotationList) (c : CreateOperation) (h : c ∈ entryCreates sr e) :
    c.MigProfile = e.1 ∧ entryDiff sr e > 0 := by
  unfold entryCreates at h
  by_cases hd : entryDiff sr e > 0
  · rw [if_pos hd] at h
    rw [List.mem_singleton] at h
    subst h
    exact ⟨rfl, hd⟩
  · rw [if_neg hd] at h
    cases h

theorem entryDeletes_profile (sr : List (MigProfile × MigDeviceResourceList))
    (e : MigProfile × GPUSpecAnnotationList) (d : DeleteOperation) (h : d ∈ entryDeletes sr e) :
    d.MigProfile = e.1 ∧ entryDiff sr e < 0 := by
  unfold entryDeletes at h
  by_cases hd : entryDiff sr e < 0
  · rw [if_pos hd] at h
    rw [List.mem_singleton] at h
    subst h
    exact ⟨rfl, hd⟩
  · rw [if_neg hd] at h
    cases h

/-- The create operations for one profile: those of its single group of annotations. -/
theorem filter_creates (state : MigState) (desired : GPUSpecAnnotationList) (p : MigProfile) :
    (NewMigConfigPlan state desired).CreateOperations.filter (fun c => decide (c.MigProfile = p)) =
      if p ∈ desired.map (fun a => a.GetMigProfile) then
        entryCreates (MigDeviceResourceList.GroupByMigProfile state.resources)
          (p, desired.filter (fun a => decide (a.GetMigProfile = p)))
      else [] := by
  rw [NewMigConfigPlan_eq]
  simp only []
  rw [List.filter_flatMap]
  have hstep : ∀ e : MigProfile × GPUSpecAnnotationList,
      (entryCreates (MigDeviceResourceList.GroupByMigProfile state.resources) e).filter
          (fun c => decide (c.MigProfile = p)) =
        if e.1 = p then entryCreates (MigDeviceResourceList.GroupByMigProfile state.resources) e
        else [] := by
    intro e
    by_cases hep : e.1 = p
    · rw [if_pos hep, List.filter_eq_self]
      intro c hc
      simp [(entryCreates_profile _ _ _ hc).1, hep]
    · rw [if_neg hep, List.filter_eq_nil_iff]
      intro c hc
      simp [(entryCreates_profile _ _ _ hc).1, hep]
  have hflat : ∀ (l : List (MigProfile × GPUSpecAnnotationList)),
      (l.flatMap fun e =>
          (entryCreates (MigDeviceResourceList.GroupByMigProfile state.resources) e).filter
            (fun c => decide (c.MigProfile = p))) =
        (l.filter (fun e => decide (e.1 = p))).flatMap
          (entryCreates (MigDeviceResourceList.GroupByMigProfile state.resources)) := by
    intro l
    induction l with
    | nil => rfl
    | cons e l ih =>
      rw [List.flatMap_cons, ih, hstep, List.filter_cons]
      by_cases hep : e.1 = p
      · simp [hep, List.flatMap_cons]
      · simp [hep]
  rw [hflat]
  unfold GPUSpecAnnotationList.GroupByMigProfile
  rw [filter_groupByKey]
  by_cases hp : p ∈ desired.map (fun a => a.GetMigProfile)
  · rw [if_pos hp, if_pos hp]
    simp [List.flatMap_cons]
  · rw [if_neg hp, if_neg hp]
    rfl

/-- The delete operations that the second loop emits for one profile: those of its single
group of annotations. -/
theorem filter_reconcile_deletes (state : MigState) (desired : GPUSpecAnnotationList)
    (p : MigProfile) :
    ((GPUSpecAnnotationList.GroupByMigProfile desired).flatMap
        (entryDeletes (MigDeviceResourceList.GroupByMigProfile state.resources))).filter
        (fun d => decide (d.MigProfile = p)) =
      if p ∈ desired.map (fun a => a.GetMigProfile) then
        entryDeletes (MigDeviceResourceList.GroupByMigProfile state.resources)
          (p, desired.filter (fun a => decide (a.GetMigProfile = p)))
      else [] := by
  rw [List.filter_flatMap]
  have hstep : ∀ e : MigProfile × GPUSpecAnnotationList,
      (entryDeletes (MigDeviceResourceList.GroupByMigProfile state.resources) e).filter
          (fun d => decide (d.MigProfile = p)) =
        if e.1 = p then entryDeletes (MigDeviceResourceList.GroupByMigProfile state.resources) e
        else [] := by
    intro e
    by_cases hep : e.1 = p
    · rw [if_pos hep, List.filter_eq_self]
      intro d hd
      simp [(entryDeletes_profile _ _ _ hd).1, hep]
    · rw [if_neg hep, List.filter_eq_nil_iff]
      intro d hd
      simp [(entryDeletes_profile _ _ _ hd).1, hep]
  have hflat : ∀ (l : List (MigProfile × GPUSpecAnnotationList)),
      (l.flatMap fun e =>
          (entryDeletes (MigDeviceResourceList.GroupByMigProfile state.resources) e).filter
            (fun d => decide (d.MigProfile = p))) =
        (l.filter (fun e => decide (e.1 = p))).flatMap
          (entryDeletes (MigDeviceResourceList.GroupByMigProfile state.resources)) := by
    intro l
    induction l with
    | nil => rfl
    | cons e l ih =>
      rw [List.flatMap_cons, ih, hstep, List.filter_cons]
      by_cases hep : e.1 = p
      · simp [hep, List.flatMap_cons]
      · simp [hep]
  rw [hflat]
  unfold GPUSpecAnnotationList.GroupByMigProfile
  rw [filter_groupByKey]
  by_cases hp : p ∈ desired.map (fun a => a.GetMigProfile)
  · rw [if_pos hp, if_pos hp]
    simp [List.flatMap_cons]
  · rw [if_neg hp, if_neg hp]
    rfl

/-- The delete operations that the first loop emits for one profile: the single operation
naming all orphans of the profile when there is one, none otherwise. -/
theorem filter_orphan_deletes (state : MigState) (desired : GPUSpecAnnotationList)
    (p : MigProfile) :
    ((MigDeviceResourceList.GroupByMigProfile
        (state.resources.filter (isOrphan desired))).map orphanOp).filter
        (fun d => decide (d.MigProfile = p)) =
      if p ∈ (state.resources.filter (isOrphan desired)).map (fun r => r.GetMigProfile) then
        [orphanOp (p, (state.resources.filter (isOrphan desired)).filter
          (fun r => decide (r.GetMigProfile = p)))]
      else [] := by
  rw [List.filter_map]
  have hfun : ((fun d : DeleteOperation => decide (d.MigProfile = p)) ∘ orphanOp) =
      fun e => decide (e.1 = p) := by
    funext e
    rfl
  rw [hfun]
  unfold MigDeviceResourceList.GroupByMigProfile
  rw [filter_groupByKey]
  by_cases hp : p ∈ (state.resources.filter (isOrphan desired)).map (fun r => r.GetMigProfile)
  · rw [if_pos hp, if_pos hp]
    rfl
  · rw [if_neg hp, if_neg hp]
    rfl

/-- A resource whose key is the key of a desired annotation is not an orphan. -/
theorem not_orphan_of_key_mem (desired : GPUSpecAnnotationList) (r : MigDeviceResource)
    (h : r.GetMigProfile ∈ desired.map (fun a => a.GetMigProfile)) : isOrphan desired r = false := by
  obtain ⟨a, ha, hkey⟩ := List.mem_map.mp h
  unfold isOrphan
  rw [Bool.not_eq_false', List.any_eq_true]
  refine ⟨a, ha, ?_⟩
  have h1 : a.GpuIndex = r.GpuIndex := congrArg MigProfile.GpuIndex hkey
  have h2 : a.MigProfileName = r.MigProfileName := congrArg MigProfile.Name hkey
  simp [h1, h2]

/-- An orphan has a key that no desired annotation has. -/
theorem key_not_mem_of_orphan (desired : GPUSpecAnnotationList) (r : MigDeviceResource)
    (h : isOrphan desired r = true) : r.GetMigProfile ∉ desired.map (fun a => a.GetMigProfile) := by
  intro hmem
  rw [not_orphan_of_key_mem desired r hmem] at h
  cases h

/-- A resource whose key no desired annotation has is an orphan. -/
theorem orphan_of_key_not_mem (desired : GPUSpecAnnotationList) (r : MigDeviceResource)
    (h : r.GetMigProfile ∉ desired.map (fun a => a.GetMigProfile)) : isOrphan desired r = true := by
  unfold isOrphan
  rw [Bool.not_eq_true', List.any_eq_false]
  intro a ha hmatch
  apply h
  simp only [Bool.and_eq_true, decide_eq_true_eq] at hmatch
  refine List.mem_map.mpr ⟨a, ha, ?_⟩
  unfold GPUSpecAnnotation.GetMigProfile MigDeviceResource.GetMigProfile
  rw [hmatch.1, hmatch.2]

/-! ## The plan: create and delete for one profile -/

/-- C1: for every observed state and every list of desired spec annotations, the plan
returned by `NewMigConfigPlan` contains no profile that appears both in a create operation
and in a delete operation. -/
theorem plan_single_signed (state : MigState) (desired : GPUSpecAnnotationList) :
    ¬ ∃ c ∈ (NewMigConfigPlan state desired).CreateOperations,
        ∃ d ∈ (NewMigConfigPlan state desired).DeleteOperations, c.MigProfile = d.MigProfile := by
  rintro ⟨c, hc, d, hd, hcd⟩
  have hc' : c ∈ (NewMigConfigPlan state desired).CreateOperations.filter
      (fun x => decide (x.MigProfile = d.MigProfile)) := by
    rw [List.mem_filter]
    exact ⟨hc, by simpa using hcd⟩
  rw [filter_creates] at hc'
  by_cases hp : d.MigProfile ∈ desired.map (fun a => a.GetMigProfile)
  · rw [if_pos hp] at hc'
    have hpos := (entryCreates_profile _ _ _ hc').2
    rw [NewMigConfigPlan_eq] at hd
    simp only [] at hd
    rcases List.mem_append.mp hd with hd | hd
    · have hd' : d ∈ ((MigDeviceResourceList.GroupByMigProfile
          (state.resources.filter (isOrphan desired))).map orphanOp).filter
          (fun x => decide (x.MigProfile = d.MigProfile)) := by
        rw [List.mem_filter]
        exact ⟨hd, by simp⟩
      rw [filter_orphan_deletes] at hd'
      by_cases ho : d.MigProfile ∈
          (state.resources.filter (isOrphan desired)).map (fun r => r.GetMigProfile)
      · obtain ⟨r, hr, hrp⟩ := List.mem_map.mp ho
        rw [List.mem_filter] at hr
        apply key_not_mem_of_orphan desired r hr.2
        rw [hrp]
        exact hp
      · rw [if_neg ho] at hd'
        cases hd'
    · have hd' : d ∈ ((GPUSpecAnnotationList.GroupByMigProfile desired).flatMap
          (entryDeletes (MigDeviceResourceList.GroupByMigProfile state.resources))).filter
          (fun x => decide (x.MigProfile = d.MigProfile)) := by
        rw [List.mem_filter]
        exact ⟨hd, by simp⟩
      rw [filter_reconcile_deletes, if_pos hp] at hd'
      have hneg := (entryDeletes_profile _ _ _ hd').2
      omega
  · rw [if_neg hp] at hc'
    cases hc'

/-- The plan for one observed "1g.5gb" device on GPU 1 and a desired quantity of two
"1g.5gb" on GPU 0: the device of GPU 1 is deleted and two devices are created on GPU 0;
the two operations have different profiles. -/
theorem plan_single_signed_example :
    NewMigConfigPlan ⟨[⟨1, "1g.5gb", "nvidia.com/mig-1g.5gb"⟩]⟩ [⟨0, "1g.5gb", 2⟩] =
      { DeleteOperations :=
          [{ MigProfile := ⟨1, "1g.5gb"⟩,
             Resources := [⟨1, "1g.5gb", "nvidia.com/mig-1g.5gb"⟩],
             Quantity := 1 }],
        CreateOperations := [{ MigProfile := ⟨0, "1g.5gb"⟩, Quantity := 2 }] } := by
  decide

/-! ## The plan: emptiness -/

/-- The plan is empty exactly when there is no orphan and the code computes a zero
difference for every profile of the desired list. -/
theorem isEmpty_iff (state : MigState) (desired : GPUSpecAnnotationList) :
    (NewMigConfigPlan state desired).IsEmpty = true ↔
      state.resources.filter (isOrphan desired) = [] ∧
        ∀ p ∈ desired.map (fun a => a.GetMigProfile),
          wrapInt64 (desiredTotal desired p - (observedCount state p : Int)) = 0 := by
  constructor
  · intro h
    unfold MigConfigPlan.IsEmpty at h
    simp only [Bool.and_eq_true, beq_iff_eq, List.length_eq_zero] at h
    obtain ⟨hdel, hcre⟩ := h
    refine ⟨?_, ?_⟩
    · by_contra hne
      obtain ⟨r, hr⟩ := List.exists_mem_of_ne_nil _ hne
      have hmem : orphanOp (r.GetMigProfile, (state.resources.filter (isOrphan desired)).filter
          (fun x => decide (x.GetMigProfile = r.GetMigProfile))) ∈
          (NewMigConfigPlan state desired).DeleteOperations := by
        rw [NewMigConfigPlan_eq]
        apply List.mem_append_left
        apply List.mem_map_of_mem
        unfold MigDeviceResourceList.GroupByMigProfile
        rw [mem_groupByKey]
        exact ⟨⟨r, hr, rfl⟩, rfl⟩
      rw [hdel] at hmem
      cases hmem
    · intro p hp
      have hc := filter_creates state desired p
      rw [hcre, if_pos hp] at hc
      have hd := filter_reconcile_deletes state desired p
      rw [if_pos hp] at hd
      have hdel' : (GPUSpecAnnotationList.GroupByMigProfile desired).flatMap
          (entryDeletes (MigDeviceResourceList.GroupByMigProfile state.resources)) = [] := by
        rw [NewMigConfigPlan_eq] at hdel
        exact (List.append_eq_nil.mp hdel).2
      rw [hdel'] at hd
      rw [← entryDiff_group]
      unfold entryCreates at hc
      unfold entryDeletes at hd
      by_cases h1 : entryDiff (MigDeviceResourceList.GroupByMigProfile state.resources)
          (p, desired.filter (fun a => decide (a.GetMigProfile = p))) > 0
      · rw [if_pos h1] at hc
        cases hc
      · by_cases h2 : entryDiff (MigDeviceResourceList.GroupByMigProfile state.resources)
            (p, desired.filter (fun a => decide (a.GetMigProfile = p))) < 0
        · rw [if_pos h2] at hd
          cases hd
        · omega
  · rintro ⟨hno, htot⟩
    rw [NewMigConfigPlan_eq]
    unfold MigConfigPlan.IsEmpty
    simp only [Bool.and_eq_true, beq_iff_eq, List.length_eq_zero]
    have hzero : ∀ e ∈ GPUSpecAnnotationList.GroupByMigProfile desired,
        entryDiff (MigDeviceResourceList.GroupByMigProfile state.resources) e = 0 := by
      intro e he
      rw [mem_groupDesired] at he
      have := entryDiff_group state desired e.1
      rw [← he.2] at this
      rw [this, htot e.1 he.1]
    refine ⟨?_, ?_⟩
    · rw [hno]
      rw [List.append_eq_nil]
      refine ⟨rfl, ?_⟩
      rw [List.flatMap_eq_nil_iff]
      intro e he
      unfold entryDeletes
      rw [if_neg (by rw [hzero e he]; decide)]
    · rw [List.flatMap_eq_nil_iff]
      intro e he
      unfold entryCreates
      rw [if_neg (by rw [hzero e he]; decide)]

/-- The total desired quantity of a profile that no annotation has is zero. -/
theorem desiredTotal_of_not_mem (desired : GPUSpecAnnotationList) (p : MigProfile)
    (h : p ∉ desired.map (fun a => a.GetMigProfile)) : desiredTotal desired p = 0 := by
  unfold desiredTotal
  have hnil : desired.filter (fun a => decide (a.GetMigProfile = p)) = [] := by
    rw [List.filter_eq_nil_iff]
    intro a ha hkey
    apply h
    exact List.mem_map.mpr ⟨a, ha, by simpa using hkey⟩
  rw [hnil]
  rfl

/-- C2, as stated, fails: with one observed "1g.5gb" device on GPU 0 and three annotations
for "1g.5gb" on GPU 0 of quantities `maxInt64`, `maxInt64` and 3, the total that the code
accumulates wraps to 1, the difference is 0 and the plan is empty, although the total
desired quantity `2^64 + 1` is not the observed count 1. -/
theorem plan_isEmpty_overflow :
    ¬ ((NewMigConfigPlan ⟨[⟨0, "1g.5gb", "nvidia.com/mig-1g.5gb"⟩]⟩
          [⟨0, "1g.5gb", maxInt64⟩, ⟨0, "1g.5gb", maxInt64⟩, ⟨0, "1g.5gb", 3⟩]).IsEmpty = true ↔
        ∀ g p,
          (observedCount ⟨[⟨0, "1g.5gb", "nvidia.com/mig-1g.5gb"⟩]⟩ ⟨g, p⟩ : Int) =
            desiredTotal
              [⟨0, "1g.5gb", maxInt64⟩, ⟨0, "1g.5gb", maxInt64⟩, ⟨0, "1g.5gb", 3⟩] ⟨g, p⟩) := by
  intro h
  have hcount := h.mp (by decide) 0 "1g.5gb"
  revert hcount
  decide

/-- C2, amended: for every observed state and every list of desired spec annotations such
that, for the GPU index and profile of every desired annotation, the total desired quantity
minus the observed count lies in the range of a 64-bit `int`, the plan built by
`NewMigConfigPlan` satisfies `IsEmpty` if and only if, for every (GPU index, profile) pair,
the number of observed resources with that GPU index and profile equals the total desired
quantity for that pair. -/
theorem plan_isEmpty_iff_pair_match (state : MigState) (desired : GPUSpecAnnotationList)
    (hrange : ∀ a ∈ desired,
      -9223372036854775808 ≤
          desiredTotal desired a.GetMigProfile - (observedCount state a.GetMigProfile : Int) ∧
        desiredTotal desired a.GetMigProfile - (observedCount state a.GetMigProfile : Int) <
          9223372036854775808) :
    (NewMigConfigPlan state desired).IsEmpty = true ↔
      ∀ g p, (observedCount state ⟨g, p⟩ : Int) = desiredTotal desired ⟨g, p⟩ := by
  rw [isEmpty_iff]
  constructor
  · rintro ⟨hno, hz⟩ g p
    by_cases hk : (⟨g, p⟩ : MigProfile) ∈ desired.map (fun a => a.GetMigProfile)
    · obtain ⟨a, ha, hkey⟩ := List.mem_map.mp hk
      have hr := hrange a ha
      rw [hkey] at hr
      have h0 := hz _ hk
      rw [wrapInt64_of_range _ hr.1 hr.2] at h0
      omega
    · rw [desiredTotal_of_not_mem desired _ hk]
      have hnil : state.resources.filter (fun r => decide (r.GetMigProfile = ⟨g, p⟩)) = [] := by
        rw [List.filter_eq_nil_iff]
        intro r hr hkey
        have hkey' : r.GetMigProfile = ⟨g, p⟩ := by simpa using hkey
        have horphan : isOrphan desired r = true :=
          orphan_of_key_not_mem desired r (by rw [hkey']; exact hk)
        have : r ∈ state.resources.filter (isOrphan desired) :=
          List.mem_filter.mpr ⟨hr, horphan⟩
        rw [hno] at this
        cases this
      unfold observedCount
      rw [hnil]
      rfl
  · intro h
    refine ⟨?_, ?_⟩
    · rw [List.filter_eq_nil_iff]
      intro r hr horphan
      have hk := key_not_mem_of_orphan desired r horphan
      have hcount : 0 < observedCount state r.GetMigProfile := by
        unfold observedCount
        apply List.length_pos_of_mem (a := r)
        rw [List.mem_filter]
        exact ⟨hr, by simp⟩
      have h2 : (observedCount state r.GetMigProfile : Int) =
          desiredTotal desired r.GetMigProfile := h r.GpuIndex r.MigProfileName
      rw [desiredTotal_of_not_mem desired _ hk] at h2
      omega
    · intro p _
      have := h p.GpuIndex p.Name
      rw [← this]
      simp only [sub_self]
      decide

/-- The amended C2 at two concrete plans.  Two observed "1g.5gb" devices on GPU 0 and a
desired quantity of two there: the differences are in range and the plan is empty.  The
same devices with the two desired on GPU 1 instead: the plan is not empty. -/
theorem plan_isEmpty_iff_pair_match_witness :
    (∀ a ∈ ([⟨0, "1g.5gb", 2⟩] : GPUSpecAnnotationList),
      -9223372036854775808 ≤
          desiredTotal [⟨0, "1g.5gb", 2⟩] a.GetMigProfile -
            (observedCount ⟨[⟨0, "1g.5gb", "a"⟩, ⟨0, "1g.5gb", "b"⟩]⟩ a.GetMigProfile : Int) ∧
        desiredTotal [⟨0, "1g.5gb", 2⟩] a.GetMigProfile -
            (observedCount ⟨[⟨0, "1g.5gb", "a"⟩, ⟨0, "1g.5gb", "b"⟩]⟩ a.GetMigProfile : Int) <
          9223372036854775808) ∧
      ((NewMigConfigPlan ⟨[⟨0, "1g.5gb", "a"⟩, ⟨0, "1g.5gb", "b"⟩]⟩
            [⟨0, "1g.5gb", 2⟩]).IsEmpty = true ↔
        ∀ g p, (observedCount ⟨[⟨0, "1g.5gb", "a"⟩, ⟨0, "1g.5gb", "b"⟩]⟩ ⟨g, p⟩ : Int) =
          desiredTotal [⟨0, "1g.5gb", 2⟩] ⟨g, p⟩) ∧
      (NewMigConfigPlan ⟨[⟨0, "1g.5gb", "a"⟩, ⟨0, "1g.5gb", "b"⟩]⟩
          [⟨0, "1g.5gb", 2⟩]).IsEmpty = true ∧
      (NewMigConfigPlan ⟨[⟨0, "1g.5gb", "a"⟩, ⟨0, "1g.5gb", "b"⟩]⟩
          [⟨1, "1g.5gb", 2⟩]).IsEmpty = false :=
  ⟨by decide,
    plan_isEmpty_iff_pair_match ⟨[⟨0, "1g.5gb", "a"⟩, ⟨0, "1g.5gb", "b"⟩]⟩ [⟨0, "1g.5gb", 2⟩]
      (by decide),
    by decide, by decide⟩

/-! ## The plan: orphans -/

theorem orphanPhase_deletes (state : MigState) (desired : GPUSpecAnnotationList) :
    (orphanPhase state desired).DeleteOperations =
      (MigDeviceResourceList.GroupByMigProfile
        (state.resources.filter (isOrphan desired))).map orphanOp := by
  unfold orphanPhase
  rw [foldl_orphanStep, getResourcesNotIncludedInSpec_eq]
  rfl

/-- What the first loop does, for quantities as stored: every orphan is named by a delete
operation of the plan for its profile, and for each profile with an orphan the first loop
emits exactly one delete operation; it names exactly the orphans of the profile and its
quantity is `uint8` of their number. -/
theorem orphan_phase_spec (state : MigState) (desired : GPUSpecAnnotationList) :
    (∀ r ∈ state.resources, isOrphan desired r = true →
        ∃ d ∈ (NewMigConfigPlan state desired).DeleteOperations,
          d.MigProfile = r.GetMigProfile ∧ r ∈ d.Resources) ∧
      ∀ p, (∃ r ∈ state.resources, isOrphan desired r = true ∧ r.GetMigProfile = p) →
        (orphanPhase state desired).DeleteOperations.filter (fun d => decide (d.MigProfile = p)) =
          [{ MigProfile := p,
             Resources := state.resources.filter
               (fun r => isOrphan desired r && decide (r.GetMigProfile = p)),
             Quantity := uint8 ((state.resources.filter
               (fun r => isOrphan desired r && decide (r.GetMigProfile = p))).length : Int) }] := by
  have hfil : ∀ p, (state.resources.filter (isOrphan desired)).filter
      (fun r => decide (r.GetMigProfile = p)) =
      state.resources.filter (fun r => isOrphan desired r && decide (r.GetMigProfile = p)) := by
    intro p
    rw [List.filter_filter]
    apply List.filter_congr
    intro r _
    rw [Bool.and_comm]
  refine ⟨?_, ?_⟩
  · intro r hr hor
    refine ⟨orphanOp (r.GetMigProfile, (state.resources.filter (isOrphan desired)).filter
      (fun x => decide (x.GetMigProfile = r.GetMigProfile))), ?_, rfl, ?_⟩
    · rw [NewMigConfigPlan_eq]
      apply List.mem_append_left
      apply List.mem_map_of_mem
      unfold MigDeviceResourceList.GroupByMigProfile
      rw [mem_groupByKey]
      exact ⟨⟨r, List.mem_filter.mpr ⟨hr, hor⟩, rfl⟩, rfl⟩
    · show r ∈ (state.resources.filter (isOrphan desired)).filter
        (fun x => decide (x.GetMigProfile = r.GetMigProfile))
      rw [List.mem_filter, List.mem_filter]
      exact ⟨⟨hr, hor⟩, by simp⟩
  · rintro p ⟨r, hr, hor, hrp⟩
    rw [orphanPhase_deletes, filter_orphan_deletes]
    have hp : p ∈ (state.resources.filter (isOrphan desired)).map (fun r => r.GetMigProfile) :=
      List.mem_map.mpr ⟨r, List.mem_filter.mpr ⟨hr, hor⟩, hrp⟩
    rw [if_pos hp, hfil]
    rfl

theorem dedup_replicate_succ {κ : Type} [DecidableEq κ] (k : κ) (n : Nat) :
    (List.replicate (n + 1) k).dedup = [k] := by
  induction n with
  | zero => rfl
  | succ n ih =>
    rw [List.replicate_succ, List.dedup_cons_of_mem (by simp), ih]

theorem groupByKey_replicate_succ {κ α : Type} [DecidableEq κ] (key : α → κ) (x : α) (n : Nat) :
    groupByKey key (List.replicate (n + 1) x) = [(key x, List.replicate (n + 1) x)] := by
  unfold groupByKey
  rw [List.map_replicate, dedup_replicate_succ]
  simp [List.filter_replicate]

/-- C3 at a failing input: 256 observed "1g.5gb" devices on GPU 0 and no desired
annotation.  All 256 devices are orphans, and the only delete operation names all of them
with the stored quantity `uint8(256) = 0`. -/
theorem orphan_delete_quantity_wraps :
    getResourcesNotIncludedInSpec
        ⟨List.replicate 256 ⟨0, "1g.5gb", "nvidia.com/mig-1g.5gb"⟩⟩ [] =
        List.replicate 256 ⟨0, "1g.5gb", "nvidia.com/mig-1g.5gb"⟩ ∧
      NewMigConfigPlan ⟨List.replicate 256 ⟨0, "1g.5gb", "nvidia.com/mig-1g.5gb"⟩⟩ [] =
        { DeleteOperations :=
            [{ MigProfile := ⟨0, "1g.5gb"⟩,
               Resources := List.replicate 256 ⟨0, "1g.5gb", "nvidia.com/mig-1g.5gb"⟩,
               Quantity := 0 }],
          CreateOperations := [] } := by
  have horph : (List.replicate 256 (⟨0, "1g.5gb", "nvidia.com/mig-1g.5gb"⟩ : MigDeviceResource)).filter
      (isOrphan []) = List.replicate 256 ⟨0, "1g.5gb", "nvidia.com/mig-1g.5gb"⟩ := by
    rw [List.filter_replicate]
    rfl
  refine ⟨?_, ?_⟩
  · rw [getResourcesNotIncludedInSpec_eq]
    exact horph
  · rw [NewMigConfigPlan_eq]
    simp only []
    rw [horph]
    unfold MigDeviceResourceList.GroupByMigProfile GPUSpecAnnotationList.GroupByMigProfile
    rw [groupByKey_replicate_succ]
    have hnil : groupByKey (fun a : GPUSpecAnnotation => a.GetMigProfile) [] = [] := rfl
    have hq : uint8 ((256 : Nat) : Int) = 0 := by decide
    rw [hnil, List.flatMap_nil, List.flatMap_nil, List.append_nil, List.map_cons, List.map_nil]
    unfold orphanOp
    rw [List.length_replicate, hq]
    rfl

/-! ## The plan: quantity reconciliation -/

theorem uint8_of_lt (x : Int) (h0 : 0 ≤ x) (h1 : x < 256) : uint8 x = x.toNat := by
  unfold uint8
  rw [Int.emod_eq_of_lt h0 h1]

theorem reconcilePhase_deletes (state : MigState) (desired : GPUSpecAnnotationList) :
    (reconcilePhase state desired { DeleteOperations := [], CreateOperations := [] }).DeleteOperations =
      (GPUSpecAnnotationList.GroupByMigProfile desired).flatMap
        (entryDeletes (MigDeviceResourceList.GroupByMigProfile state.resources)) := by
  unfold reconcilePhase
  simp only [foldl_reconcileStep, MigState.Flatten, List.nil_append]

/-- For a profile of the desired list, every observed resource of the profile is a
non-orphan. -/
theorem nonOrphanCount_eq (state : MigState) (desired : GPUSpecAnnotationList) (p : MigProfile)
    (hp : p ∈ desired.map (fun a => a.GetMigProfile)) :
    nonOrphanCount state desired p = observedCount state p := by
  unfold nonOrphanCount observedCount
  congr 1
  apply List.filter_congr
  intro r _
  by_cases hkey : r.GetMigProfile = p
  · have := not_orphan_of_key_mem desired r (by rw [hkey]; exact hp)
    simp [hkey, this]
  · simp [hkey]

/-- C4, as stated, fails: with no observed device and three annotations for "1g.5gb" on
GPU 0 of quantities `maxInt64`, `maxInt64` and 2, the difference of the claim is `2^64`,
which is positive, but the total that the code accumulates wraps to 0 and the plan contains
no create operation for the profile. -/
theorem reconcile_total_overflow :
    (⟨0, "1g.5gb"⟩ : MigProfile) ∈
        ([⟨0, "1g.5gb", maxInt64⟩, ⟨0, "1g.5gb", maxInt64⟩, ⟨0, "1g.5gb", 2⟩] :
          GPUSpecAnnotationList).map (fun a => a.GetMigProfile) ∧
      desiredTotal [⟨0, "1g.5gb", maxInt64⟩, ⟨0, "1g.5gb", maxInt64⟩, ⟨0, "1g.5gb", 2⟩]
            ⟨0, "1g.5gb"⟩ -
          (nonOrphanCount ⟨[]⟩
            [⟨0, "1g.5gb", maxInt64⟩, ⟨0, "1g.5gb", maxInt64⟩, ⟨0, "1g.5gb", 2⟩]
            ⟨0, "1g.5gb"⟩ : Int) = 18446744073709551616 ∧
      (NewMigConfigPlan ⟨[]⟩
          [⟨0, "1g.5gb", maxInt64⟩, ⟨0, "1g.5gb", maxInt64⟩, ⟨0, "1g.5gb", 2⟩]).CreateOperations
        = [] := by
  decide

/-- C4, amended: for every state, desired list and profile `p` (a GPU index with a profile
name) occurring in the desired list, let `diff` be the total desired quantity of `p` minus
the number of non-orphan observed resources of `p`, which are all the observed resources of
`p`.  The delete operations of the plan are those of the orphan phase followed by those of
the reconciliation phase.  If `0 < diff < 256` the plan contains exactly one create
operation for `p`, of quantity `diff`; if `-256 < diff < 0` the reconciliation phase emits
exactly one delete operation for `p`, naming all observed resources of `p`, of quantity
`|diff|`; if `diff = 0` the phase emits no operation for `p`. -/
theorem reconcile_phase_spec (state : MigState) (desired : GPUSpecAnnotationList)
    (p : MigProfile) (hp : p ∈ desired.map (fun a => a.GetMigProfile)) :
    (NewMigConfigPlan state desired).DeleteOperations =
        (orphanPhase state desired).DeleteOperations ++
          (reconcilePhase state desired
            { DeleteOperations := [], CreateOperations := [] }).DeleteOperations ∧
      nonOrphanCount state desired p = observedCount state p ∧
      (0 < desiredTotal desired p - (nonOrphanCount state desired p : Int) →
        desiredTotal desired p - (nonOrphanCount state desired p : Int) < 256 →
        (NewMigConfigPlan state desired).CreateOperations.filter
            (fun c => decide (c.MigProfile = p)) =
          [{ MigProfile := p,
             Quantity := (desiredTotal desired p - (nonOrphanCount state desired p : Int)).toNat }]) ∧
      (desiredTotal desired p - (nonOrphanCount state desired p : Int) < 0 →
        -256 < desiredTotal desired p - (nonOrphanCount state desired p : Int) →
        (reconcilePhase state desired
            { DeleteOperations := [], CreateOperations := [] }).DeleteOperations.filter
            (fun d => decide (d.MigProfile = p)) =
          [{ MigProfile := p,
             Resources := state.resources.filter (fun r => decide (r.GetMigProfile = p)),
             Quantity :=
               (desiredTotal desired p - (nonOrphanCount state desired p : Int)).natAbs }]) ∧
      (desiredTotal desired p - (nonOrphanCount state desired p : Int) = 0 →
        (NewMigConfigPlan state desired).CreateOperations.filter
            (fun c => decide (c.MigProfile = p)) = [] ∧
          (reconcilePhase state desired
            { DeleteOperations := [], CreateOperations := [] }).DeleteOperations.filter
            (fun d => decide (d.MigProfile = p)) = []) := by
  have hcount := nonOrphanCount_eq state desired p hp
  rw [hcount]
  have hdiff := entryDiff_group state desired p
  have hc := filter_creates state desired p
  rw [if_pos hp] at hc
  have hd := filter_reconcile_deletes state desired p
  rw [if_pos hp, ← reconcilePhase_deletes] at hd
  refine ⟨?_, rfl, ?_, ?_, ?_⟩
  · rw [reconcilePhase_deletes, orphanPhase_deletes, NewMigConfigPlan_eq]
  · intro h0 h1
    rw [wrapInt64_of_range _ (by omega) (by omega)] at hdiff
    rw [hc]
    unfold entryCreates
    rw [hdiff, if_pos h0, uint8_of_lt _ (le_of_lt h0) h1]
  · intro h0 h1
    rw [wrapInt64_of_range _ (by omega) (by omega)] at hdiff
    rw [hd]
    unfold entryDeletes
    rw [hdiff, if_pos h0]
    have habs : absInt64 (desiredTotal desired p - (observedCount state p : Int)) =
        ((desiredTotal desired p - (observedCount state p : Int)).natAbs : Int) := by
      unfold absInt64
      rw [if_pos h0, wrapInt64_of_range _ (by omega) (by omega)]
      omega
    rw [habs, uint8_of_lt _ (by omega) (by omega)]
    unfold MigDeviceResourceList.GroupByMigProfile
    rw [getList_groupByKey]
    rfl
  · intro h0
    rw [h0] at hdiff
    rw [hc, hd]
    unfold entryCreates entryDeletes
    rw [hdiff]
    exact ⟨rfl, rfl⟩

/-- The amended C4 at scenario A: two observed "1g.5gb" devices on GPU 0 and a desired
quantity of three there give exactly one create operation, of quantity one. -/
theorem reconcile_phase_spec_witness :
    (⟨0, "1g.5gb"⟩ : MigProfile) ∈
        ([⟨0, "1g.5gb", 3⟩] : GPUSpecAnnotationList).map (fun a => a.GetMigProfile) ∧
      (0 < desiredTotal [⟨0, "1g.5gb", 3⟩] ⟨0, "1g.5gb"⟩ -
            (nonOrphanCount ⟨[⟨0, "1g.5gb", "a"⟩, ⟨0, "1g.5gb", "b"⟩]⟩ [⟨0, "1g.5gb", 3⟩]
              ⟨0, "1g.5gb"⟩ : Int) ∧
        desiredTotal [⟨0, "1g.5gb", 3⟩] ⟨0, "1g.5gb"⟩ -
            (nonOrphanCount ⟨[⟨0, "1g.5gb", "a"⟩, ⟨0, "1g.5gb", "b"⟩]⟩ [⟨0, "1g.5gb", 3⟩]
              ⟨0, "1g.5gb"⟩ : Int) < 256) ∧
      (NewMigConfigPlan ⟨[⟨0, "1g.5gb", "a"⟩, ⟨0, "1g.5gb", "b"⟩]⟩
          [⟨0, "1g.5gb", 3⟩]).CreateOperations.filter
            (fun c => decide (c.MigProfile = ⟨0, "1g.5gb"⟩)) =
        [{ MigProfile := ⟨0, "1g.5gb"⟩,
           Quantity := (desiredTotal [⟨0, "1g.5gb", 3⟩] ⟨0, "1g.5gb"⟩ -
            (nonOrphanCount ⟨[⟨0, "1g.5gb", "a"⟩, ⟨0, "1g.5gb", "b"⟩]⟩ [⟨0, "1g.5gb", 3⟩]
              ⟨0, "1g.5gb"⟩ : Int)).toNat }] ∧
      NewMigConfigPlan ⟨[⟨0, "1g.5gb", "a"⟩, ⟨0, "1g.5gb", "b"⟩]⟩ [⟨0, "1g.5gb", 3⟩] =
        { DeleteOperations := [],
          CreateOperations := [{ MigProfile := ⟨0, "1g.5gb"⟩, Quantity := 1 }] } :=
  ⟨by decide, ⟨by decide, by decide⟩,
    (reconcile_phase_spec ⟨[⟨0, "1g.5gb", "a"⟩, ⟨0, "1g.5gb", "b"⟩]⟩ [⟨0, "1g.5gb", 3⟩]
      ⟨0, "1g.5gb"⟩ (by decide)).2.2.1 (by decide) (by decide),
    by decide⟩

/-! ## Lemmas on Go maps -/

section GoMapLemmas

variable {κ : Type} [DecidableEq κ]

theorem get_eq_zero_of_not_mem (m : List (κ × Nat)) (k : κ) (h : k ∉ m.map Prod.fst) :
    GoMap.get m k = 0 := by
  induction m with
  | nil => rfl
  | cons e m ih =>
    obtain ⟨k', v⟩ := e
    have hk : k' ≠ k := fun heq => h (by simp [heq])
    have hm : k ∉ m.map Prod.fst := fun hmem => h (by simp [hmem])
    simp [GoMap.get, hk, ih hm]

/-- Reading from a map whose values are recomputed from the keys. -/
theorem get_map_keys (m : List (κ × Nat)) (f : κ → Nat) (k : κ) :
    GoMap.get (m.map (fun e => (e.1, f e.1))) k = if k ∈ m.map Prod.fst then f k else 0 := by
  induction m with
  | nil => rfl
  | cons e m ih =>
    obtain ⟨k', v⟩ := e
    by_cases hk : k' = k
    · subst hk
      simp [GoMap.get]
    · have hne : k ≠ k' := fun heq => hk heq.symm
      have hmem : k ∈ List.map Prod.fst m ↔ k ∈ k' :: List.map Prod.fst m := by
        simp [hne]
      simp only [List.map_cons, GoMap.get, if_neg hk, ih]
      exact if_congr hmem rfl rfl

theorem get_set (m : List (κ × Nat)) (k : κ) (v : Nat) (k' : κ) :
    GoMap.get (GoMap.set m k v) k' = if k = k' then v else GoMap.get m k' := by
  induction m with
  | nil => simp [GoMap.set, GoMap.get]
  | cons e m ih =>
    obtain ⟨a, b⟩ := e
    by_cases ha : a = k
    · subst ha
      by_cases hk : a = k'
      · simp [GoMap.set, GoMap.get, hk]
      · simp [GoMap.set, GoMap.get, hk]
    · by_cases hk : a = k'
      · subst hk
        simp [GoMap.set, GoMap.get, ha, Ne.symm ha]
      · simp [GoMap.set, GoMap.get, ha, hk, ih]

/-- A positive count is held by an entry of the map. -/
theorem ne_nil_of_get_pos (m : List (κ × Nat)) (k : κ) (h : 0 < GoMap.get m k) : m ≠ [] := by
  intro hm
  subst hm
  simp [GoMap.get] at h

end GoMapLemmas

/-! ## Lemmas on `ApplyGeometry` and the geometry search -/

/-- The check of `ApplyGeometry` passes exactly when no profile has fewer slices in the
geometry than are in use. -/
theorem applyGeometry_check (g : GPU) (geometry : Geometry) :
    (g.usedMigDevices.any
        (fun e => decide (GoMap.get geometry e.1 < GoMap.get g.usedMigDevices e.1))) = false ↔
      ∀ q, GoMap.get g.usedMigDevices q ≤ GoMap.get geometry q := by
  rw [List.any_eq_false]
  constructor
  · intro h q
    by_cases hq : q ∈ g.usedMigDevices.map Prod.fst
    · obtain ⟨e, he, heq⟩ := List.mem_map.mp hq
      have := h e he
      rw [heq] at this
      simpa using this
    · rw [get_eq_zero_of_not_mem _ _ hq]
      exact Nat.zero_le _
  · intro h e _
    simpa using h e.1

theorem applyGeometry_ok_iff (g : GPU) (geometry : Geometry) :
    (g.ApplyGeometry geometry).2 = none ↔
      ∀ q, GoMap.get g.usedMigDevices q ≤ GoMap.get geometry q := by
  rw [← applyGeometry_check]
  unfold GPU.ApplyGeometry
  by_cases h : (g.usedMigDevices.any
      (fun e => decide (GoMap.get geometry e.1 < GoMap.get g.usedMigDevices e.1))) = true
  · rw [if_pos h]
    simp [h]
  · rw [if_neg h]
    simp [h]

/-- A failing `ApplyGeometry` changes nothing. -/
theorem applyGeometry_error (g : GPU) (geometry : Geometry)
    (h : (g.ApplyGeometry geometry).2 ≠ none) : (g.ApplyGeometry geometry).1 = g := by
  unfold GPU.ApplyGeometry at h ⊢
  by_cases hc : (g.usedMigDevices.any
      (fun e => decide (GoMap.get geometry e.1 < GoMap.get g.usedMigDevices e.1))) = true
  · rw [if_pos hc]
  · rw [if_neg hc] at h
    exact absurd rfl h

/-- A successful `ApplyGeometry` keeps index, model and used map, and makes the free count
of every profile the count of the geometry minus the used count. -/
theorem applyGeometry_ok (g : GPU) (geometry : Geometry)
    (h : (g.ApplyGeometry geometry).2 = none) :
    (g.ApplyGeometry geometry).1.usedMigDevices = g.usedMigDevices ∧
      (g.ApplyGeometry geometry).1.model = g.model ∧
      (g.ApplyGeometry geometry).1.index = g.index ∧
      ∀ q, GoMap.get (g.ApplyGeometry geometry).1.freeMigDevices q =
        GoMap.get geometry q - GoMap.get g.usedMigDevices q := by
  unfold GPU.ApplyGeometry at h ⊢
  by_cases hc : (g.usedMigDevices.any
      (fun e => decide (GoMap.get geometry e.1 < GoMap.get g.usedMigDevices e.1))) = true
  · rw [if_pos hc] at h
    cases h
  · rw [if_neg hc]
    refine ⟨rfl, rfl, rfl, ?_⟩
    intro q
    simp only []
    rw [get_map_keys geometry (fun k => GoMap.get geometry k - GoMap.get g.usedMigDevices k) q]
    by_cases hq : q ∈ geometry.map Prod.fst
    · rw [if_pos hq]
    · rw [if_neg hq, get_eq_zero_of_not_mem _ _ hq]
      exact (Nat.zero_sub _).symm

/-- After a successful `ApplyGeometry`, a profile absent from the geometry has zero used
and zero free count. -/
theorem applyGeometry_absent_zero (g : GPU) (geometry : Geometry)
    (h : (g.ApplyGeometry geometry).2 = none) (q : ProfileName)
    (hq : q ∉ geometry.map Prod.fst) :
    GoMap.get (g.ApplyGeometry geometry).1.usedMigDevices q = 0 ∧
      GoMap.get (g.ApplyGeometry geometry).1.freeMigDevices q = 0 := by
  obtain ⟨hused, _, _, hfree⟩ := applyGeometry_ok g geometry h
  have hle := (applyGeometry_ok_iff g geometry).mp h q
  rw [get_eq_zero_of_not_mem _ _ hq] at hle
  refine ⟨?_, ?_⟩
  · rw [hused]
    omega
  · rw [hfree q, get_eq_zero_of_not_mem _ _ hq]
    exact Nat.zero_sub _

/-- The inner loop applies nothing exactly when no candidate admits the profile, and then
it leaves the GPU as it was. -/
theorem applyCandidates_false (profile : ProfileName) (l : List Geometry) (gpu : GPU) :
    ((applyCandidates profile l gpu).2 = false ↔ ∀ geometry ∈ l, ¬ admits gpu profile geometry) ∧
      ((applyCandidates profile l gpu).2 = false → (applyCandidates profile l gpu).1 = gpu) := by
  induction l with
  | nil => simp [applyCandidates]
  | cons geometry rest ih =>
    unfold applyCandidates
    simp only []
    by_cases hpos : (GoMap.get geometry profile : Int) -
        (GoMap.get gpu.usedMigDevices profile : Int) > 0
    · rw [if_pos hpos]
      have hgt : GoMap.get geometry profile > GoMap.get gpu.usedMigDevices profile := by omega
      by_cases hok : (gpu.ApplyGeometry geometry).2 = none
      · have hadm : admits gpu profile geometry :=
          ⟨hgt, (applyGeometry_ok_iff gpu geometry).mp hok⟩
        have hsplit : gpu.ApplyGeometry geometry = ((gpu.ApplyGeometry geometry).1, none) :=
          Prod.ext rfl hok
        rw [hsplit]
        simp only [Bool.true_eq_false, false_iff, false_imp_iff, and_true]
        intro hall
        exact hall geometry (List.mem_cons_self _ _) hadm
      · obtain ⟨msg, hmsg⟩ := Option.ne_none_iff_exists'.mp hok
        have hsame := applyGeometry_error gpu geometry hok
        have hsplit : gpu.ApplyGeometry geometry = (gpu, some msg) :=
          Prod.ext hsame hmsg
        rw [hsplit]
        simp only []
        have hnot : ¬ admits gpu profile geometry := by
          intro hadm
          exact hok ((applyGeometry_ok_iff gpu geometry).mpr hadm.2)
        refine ⟨?_, ih.2⟩
        rw [ih.1]
        constructor
        · intro h geo hgeo
          rcases List.mem_cons.mp hgeo with rfl | hmem
          · exact hnot
          · exact h geo hmem
        · intro h geo hgeo
          exact h geo (List.mem_cons_of_mem _ hgeo)
    · rw [if_neg hpos]
      have hnot : ¬ admits gpu profile geometry := by
        intro hadm
        have := hadm.1
        omega
      refine ⟨?_, ih.2⟩
      rw [ih.1]
      constructor
      · intro h geo hgeo
        rcases List.mem_cons.mp hgeo with rfl | hmem
        · exact hnot
        · exact h geo hmem
      · intro h geo hgeo
        exact h geo (List.mem_cons_of_mem _ hgeo)

/-- When the inner loop applies a geometry, it is a candidate admitting the profile; the
GPU keeps index, model and used map, and its free counts are those of the geometry minus
the used counts. -/
theorem applyCandidates_true (profile : ProfileName) (l : List Geometry) (gpu : GPU)
    (h : (applyCandidates profile l gpu).2 = true) :
    ∃ geometry ∈ l, admits gpu profile geometry ∧
      (applyCandidates profile l gpu).1 = (gpu.ApplyGeometry geometry).1 ∧
      (gpu.ApplyGeometry geometry).2 = none := by
  induction l with
  | nil => simp [applyCandidates] at h
  | cons geometry rest ih =>
    unfold applyCandidates at h ⊢
    simp only [] at h ⊢
    by_cases hpos : (GoMap.get geometry profile : Int) -
        (GoMap.get gpu.usedMigDevices profile : Int) > 0
    · rw [if_pos hpos] at h ⊢
      have hgt : GoMap.get geometry profile > GoMap.get gpu.usedMigDevices profile := by omega
      by_cases hok : (gpu.ApplyGeometry geometry).2 = none
      · have hsplit : gpu.ApplyGeometry geometry = ((gpu.ApplyGeometry geometry).1, none) :=
          Prod.ext rfl hok
        refine ⟨geometry, List.mem_cons_self _ _,
          ⟨hgt, (applyGeometry_ok_iff gpu geometry).mp hok⟩, ?_, hok⟩
        rw [hsplit]
      · obtain ⟨msg, hmsg⟩ := Option.ne_none_iff_exists'.mp hok
        have hsame := applyGeometry_error gpu geometry hok
        have hsplit : gpu.ApplyGeometry geometry = (gpu, some msg) :=
          Prod.ext hsame hmsg
        rw [hsplit] at h ⊢
        simp only [] at h ⊢
        obtain ⟨geo, hgeo, hrest⟩ := ih h
        exact ⟨geo, List.mem_cons_of_mem _ hgeo, hrest⟩
    · rw [if_neg hpos] at h ⊢
      obtain ⟨geo, hgeo, hrest⟩ := ih h
      exact ⟨geo, List.mem_cons_of_mem _ hgeo, hrest⟩

/-- One iteration of the outer loop, by cases. -/
theorem updateGPUs_cons (table : GeometryTable) (profile : ProfileName) (gpu : GPU)
    (rest : List GPU) :
    updateGPUs table profile (gpu :: rest) =
      if GoMap.get gpu.freeMigDevices profile > 0 then (gpu :: rest, true)
      else if (applyCandidates profile (gpu.GetAllowedGeometries table) gpu).2 = true then
        ((applyCandidates profile (gpu.GetAllowedGeometries table) gpu).1 :: rest, true)
      else (gpu :: (updateGPUs table profile rest).1, (updateGPUs table profile rest).2) := by
  rw [updateGPUs]
  by_cases hfree : GoMap.get gpu.freeMigDevices profile > 0
  · rw [if_pos hfree, if_pos hfree]
  · rw [if_neg hfree, if_neg hfree]
    by_cases happ : (applyCandidates profile (gpu.GetAllowedGeometries table) gpu).2 = true
    · rw [if_pos happ]
      have hsplit : applyCandidates profile (gpu.GetAllowedGeometries table) gpu =
          ((applyCandidates profile (gpu.GetAllowedGeometries table) gpu).1, true) :=
        Prod.ext rfl happ
      rw [hsplit]
    · rw [if_neg happ]
      have hfalse : (applyCandidates profile (gpu.GetAllowedGeometries table) gpu).2 = false :=
        Bool.eq_false_iff.mpr happ
      have hsame := (applyCandidates_false profile (gpu.GetAllowedGeometries table) gpu).2 hfalse
      have hsplit : applyCandidates profile (gpu.GetAllowedGeometries table) gpu = (gpu, false) :=
        Prod.ext hsame hfalse
      rw [hsplit]

/-- The outer loop falls through exactly when every GPU has no free slice of the profile
and no allowed geometry admitting it; the GPUs are then as they were. -/
theorem updateGPUs_false (table : GeometryTable) (profile : ProfileName) (gpus : List GPU) :
    ((updateGPUs table profile gpus).2 = false ↔
        ∀ gpu ∈ gpus, GoMap.get gpu.freeMigDevices profile = 0 ∧
          ∀ geometry ∈ gpu.GetAllowedGeometries table, ¬ admits gpu profile geometry) ∧
      ((updateGPUs table profile gpus).2 = false → (updateGPUs table profile gpus).1 = gpus) := by
  induction gpus with
  | nil => simp [updateGPUs]
  | cons gpu rest ih =>
    rw [updateGPUs_cons]
    by_cases hfree : GoMap.get gpu.freeMigDevices profile > 0
    · rw [if_pos hfree]
      simp only [Bool.true_eq_false, false_iff, false_imp_iff, and_true]
      intro hall
      have := (hall gpu (List.mem_cons_self _ _)).1
      omega
    · rw [if_neg hfree]
      by_cases happ : (applyCandidates profile (gpu.GetAllowedGeometries table) gpu).2 = true
      · rw [if_pos happ]
        simp only [Bool.true_eq_false, false_iff, false_imp_iff, and_true]
        intro hall
        have hnone := (applyCandidates_false profile (gpu.GetAllowedGeometries table) gpu).1.mpr
          (hall gpu (List.mem_cons_self _ _)).2
        rw [happ] at hnone
        cases hnone
      · rw [if_neg happ]
        simp only []
        have hfalse : (applyCandidates profile (gpu.GetAllowedGeometries table) gpu).2 = false :=
          Bool.eq_false_iff.mpr happ
        have hnone := (applyCandidates_false profile (gpu.GetAllowedGeometries table) gpu).1.mp
          hfalse
        refine ⟨?_, ?_⟩
        · rw [ih.1]
          constructor
          · intro h g hg
            rcases List.mem_cons.mp hg with rfl | hmem
            · exact ⟨by omega, hnone⟩
            · exact h g hmem
          · intro h g hg
            exact h g (List.mem_cons_of_mem _ hg)
        · intro h
          rw [ih.2 h]

/-- When the outer loop returns `nil`, some GPU has a free slice of the profile. -/
theorem updateGPUs_true (table : GeometryTable) (profile : ProfileName) (gpus : List GPU)
    (h : (updateGPUs table profile gpus).2 = true) :
    ∃ gpu ∈ (updateGPUs table profile gpus).1, 0 < GoMap.get gpu.freeMigDevices profile := by
  induction gpus with
  | nil => simp [updateGPUs] at h
  | cons gpu rest ih =>
    rw [updateGPUs_cons] at h ⊢
    by_cases hfree : GoMap.get gpu.freeMigDevices profile > 0
    · rw [if_pos hfree]
      exact ⟨gpu, List.mem_cons_self _ _, hfree⟩
    · rw [if_neg hfree] at h ⊢
      by_cases happ : (applyCandidates profile (gpu.GetAllowedGeometries table) gpu).2 = true
      · rw [if_pos happ]
        obtain ⟨geo, _, hadm, heq, hok⟩ :=
          applyCandidates_true profile (gpu.GetAllowedGeometries table) gpu happ
        refine ⟨_, List.mem_cons_self _ _, ?_⟩
        rw [heq, (applyGeometry_ok gpu geo hok).2.2.2 profile]
        have := hadm.1
        omega
      · rw [if_neg happ] at h ⊢
        obtain ⟨g, hg, hpos⟩ := ih h
        exact ⟨g, List.mem_cons_of_mem _ hg, hpos⟩

/-- The outer loop never changes a used map. -/
theorem updateGPUs_used (table : GeometryTable) (profile : ProfileName) (gpus : List GPU) :
    (updateGPUs table profile gpus).1.map (fun gpu => gpu.usedMigDevices) =
      gpus.map (fun gpu => gpu.usedMigDevices) := by
  induction gpus with
  | nil => rfl
  | cons gpu rest ih =>
    rw [updateGPUs_cons]
    by_cases hfree : GoMap.get gpu.freeMigDevices profile > 0
    · rw [if_pos hfree]
    · rw [if_neg hfree]
      by_cases happ : (applyCandidates profile (gpu.GetAllowedGeometries table) gpu).2 = true
      · rw [if_pos happ]
        obtain ⟨geo, _, _, heq, hok⟩ :=
          applyCandidates_true profile (gpu.GetAllowedGeometries table) gpu happ
        simp only [List.map_cons]
        rw [heq, (applyGeometry_ok gpu geo hok).1]
      · rw [if_neg happ]
        simp only [List.map_cons]
        rw [ih]

/-- The outer loop preserves the invariant of every GPU. -/
theorem updateGPUs_invariant (table : GeometryTable) (profile : ProfileName) (gpus : List GPU)
    (hinv : ∀ gpu ∈ gpus, gpu.GeometryAllowed table) :
    ∀ gpu ∈ (updateGPUs table profile gpus).1, gpu.GeometryAllowed table := by
  induction gpus with
  | nil => intro gpu hgpu; simp [updateGPUs] at hgpu
  | cons gpu rest ih =>
    have hrest : ∀ g ∈ rest, g.GeometryAllowed table :=
      fun g hg => hinv g (List.mem_cons_of_mem _ hg)
    rw [updateGPUs_cons]
    by_cases hfree : GoMap.get gpu.freeMigDevices profile > 0
    · rw [if_pos hfree]
      exact hinv
    · rw [if_neg hfree]
      by_cases happ : (applyCandidates profile (gpu.GetAllowedGeometries table) gpu).2 = true
      · rw [if_pos happ]
        obtain ⟨geo, hgeo, hadm, heq, hok⟩ :=
          applyCandidates_true profile (gpu.GetAllowedGeometries table) gpu happ
        obtain ⟨hused, hmodel, _, hfreeq⟩ := applyGeometry_ok gpu geo hok
        intro g hg
        rcases List.mem_cons.mp hg with rfl | hmem
        · rw [heq]
          refine ⟨geo, ?_, ?_⟩
          · unfold GPU.GetAllowedGeometries at hgeo ⊢
            rw [hmodel]
            exact hgeo
          · intro q
            rw [hused, hfreeq q]
            have := hadm.2 q
            omega
        · exact hrest g hmem
      · rw [if_neg happ]
        intro g hg
        rcases List.mem_cons.mp hg with rfl | hmem
        · exact hinv _ (List.mem_cons_self _ _)
        · exact ih hrest g hmem

/-! ## `Node.UpdateGeometryFor` -/

theorem updateGeometryFor_gpus (table : GeometryTable) (n : Node) (profile : ProfileName) :
    (Node.UpdateGeometryFor table n profile).1.GPUs = (updateGPUs table profile n.GPUs).1 ∧
      (Node.UpdateGeometryFor table n profile).1.Name = n.Name ∧
      ((Node.UpdateGeometryFor table n profile).2 = none ↔
        (updateGPUs table profile n.GPUs).2 = true) := by
  unfold Node.UpdateGeometryFor
  by_cases hlen : n.GPUs.length = 0
  · rw [if_pos hlen]
    have hnil : n.GPUs = [] := List.length_eq_zero.mp hlen
    rw [hnil]
    simp [updateGPUs]
  · rw [if_neg hlen]
    by_cases hres : (updateGPUs table profile n.GPUs).2 = true
    · have hsplit : updateGPUs table profile n.GPUs =
          ((updateGPUs table profile n.GPUs).1, true) := Prod.ext rfl hres
      rw [hsplit]
      simp
    · have hfalse : (updateGPUs table profile n.GPUs).2 = false := Bool.eq_false_iff.mpr hres
      have hsplit : updateGPUs table profile n.GPUs =
          ((updateGPUs table profile n.GPUs).1, false) := Prod.ext rfl hfalse
      rw [hsplit]
      simp

/-- C5: for every node and profile, if `Node.UpdateGeometryFor` returns an error, the node
is as it was before the call: every GPU has exactly the same used and free maps
(`ApplyGeometry` changing nothing when it fails). -/
theorem updateGeometryFor_error_unchanged (table : GeometryTable) (n : Node)
    (profile : ProfileName) (h : (Node.UpdateGeometryFor table n profile).2 ≠ none) :
    (Node.UpdateGeometryFor table n profile).1 = n := by
  obtain ⟨hgpus, hname, hok⟩ := updateGeometryFor_gpus table n profile
  have hfalse : (updateGPUs table profile n.GPUs).2 = false := by
    rw [Bool.eq_false_iff]
    intro htrue
    exact h (hok.mpr htrue)
  have hsame := (updateGPUs_false table profile n.GPUs).2 hfalse
  rw [hsame] at hgpus
  cases hres : (Node.UpdateGeometryFor table n profile).1 with
  | mk name gpus =>
    rw [hres] at hgpus hname
    cases n
    simp only [] at hgpus hname
    rw [hgpus, hname]

/-- C5 at a concrete node: both "3g.20gb" slices of the only GPU are in use and no allowed
geometry keeps them, so the call for "1g.5gb" fails and the node is unchanged. -/
theorem updateGeometryFor_error_unchanged_witness :
    (Node.UpdateGeometryFor scenarioTable ⟨"node", [⟨0, "A100", [("3g.20gb", 2)], []⟩]⟩
        "1g.5gb").2 ≠ none ∧
      (Node.UpdateGeometryFor scenarioTable ⟨"node", [⟨0, "A100", [("3g.20gb", 2)], []⟩]⟩
        "1g.5gb").1 = ⟨"node", [⟨0, "A100", [("3g.20gb", 2)], []⟩]⟩ :=
  ⟨by decide,
    updateGeometryFor_error_unchanged scenarioTable
      ⟨"node", [⟨0, "A100", [("3g.20gb", 2)], []⟩]⟩ "1g.5gb" (by decide)⟩

/-- C6: for every node and profile, if `Node.UpdateGeometryFor` succeeds, then afterwards
some GPU of the node has a free count greater than zero for the requested profile. -/
theorem updateGeometryFor_ok_free (table : GeometryTable) (n : Node) (profile : ProfileName)
    (h : (Node.UpdateGeometryFor table n profile).2 = none) :
    ∃ gpu ∈ (Node.UpdateGeometryFor table n profile).1.GPUs,
      0 < GoMap.get gpu.freeMigDevices profile := by
  obtain ⟨hgpus, _, hok⟩ := updateGeometryFor_gpus table n profile
  rw [hgpus]
  exact updateGPUs_true table profile n.GPUs (hok.mp h)

/-- C6 at scenario C: one "3g.20gb" slice in use, request for "1g.5gb"; the call succeeds
and the GPU then has a free "1g.5gb" slice. -/
theorem updateGeometryFor_ok_free_witness :
    (Node.UpdateGeometryFor scenarioTable ⟨"node", [⟨0, "A100", [("3g.20gb", 1)], []⟩]⟩
        "1g.5gb").2 = none ∧
      ∃ gpu ∈ (Node.UpdateGeometryFor scenarioTable
          ⟨"node", [⟨0, "A100", [("3g.20gb", 1)], []⟩]⟩ "1g.5gb").1.GPUs,
        0 < GoMap.get gpu.freeMigDevices "1g.5gb" :=
  ⟨by decide,
    updateGeometryFor_ok_free scenarioTable ⟨"node", [⟨0, "A100", [("3g.20gb", 1)], []⟩]⟩
      "1g.5gb" (by decide)⟩

/-- C7: for every node and profile, `Node.UpdateGeometryFor` fails if and only if every
GPU of the node has a zero free count for the profile and no geometry in its allowed set
has more slices of the profile than are in use and at least as many slices of every
profile as are in use; in particular it fails for every profile on a node without
GPUs. -/
theorem updateGeometryFor_error_iff (table : GeometryTable) (n : Node) (profile : ProfileName) :
    ((Node.UpdateGeometryFor table n profile).2 ≠ none ↔
        ∀ gpu ∈ n.GPUs, GoMap.get gpu.freeMigDevices profile = 0 ∧
          ¬ ∃ geometry ∈ gpu.GetAllowedGeometries table,
            GoMap.get geometry profile > GoMap.get gpu.usedMigDevices profile ∧
              ∀ q, GoMap.get geometry q ≥ GoMap.get gpu.usedMigDevices q) ∧
      (n.GPUs = [] → (Node.UpdateGeometryFor table n profile).2 ≠ none) := by
  obtain ⟨_, _, hok⟩ := updateGeometryFor_gpus table n profile
  have hiff : (Node.UpdateGeometryFor table n profile).2 ≠ none ↔
      ∀ gpu ∈ n.GPUs, GoMap.get gpu.freeMigDevices profile = 0 ∧
        ¬ ∃ geometry ∈ gpu.GetAllowedGeometries table,
          GoMap.get geometry profile > GoMap.get gpu.usedMigDevices profile ∧
            ∀ q, GoMap.get geometry q ≥ GoMap.get gpu.usedMigDevices q := by
    rw [Ne, hok, Bool.not_eq_true, (updateGPUs_false table profile n.GPUs).1]
    constructor
    · intro h gpu hgpu
      refine ⟨(h gpu hgpu).1, ?_⟩
      rintro ⟨geo, hgeo, hadm⟩
      exact (h gpu hgpu).2 geo hgeo hadm
    · intro h gpu hgpu
      refine ⟨(h gpu hgpu).1, ?_⟩
      intro geo hgeo hadm
      exact (h gpu hgpu).2 ⟨geo, hgeo, hadm⟩
  refine ⟨hiff, ?_⟩
  intro hnil
  rw [hiff, hnil]
  intro gpu hgpu
  cases hgpu

/-- C8: for every node and profile, whether `Node.UpdateGeometryFor` succeeds or fails,
the used maps of the GPUs, taken in the order of the node, are the same after the call as
before it; so is the used count of every profile on every GPU. -/
theorem updateGeometryFor_used_unchanged (table : GeometryTable) (n : Node)
    (profile : ProfileName) :
    (Node.UpdateGeometryFor table n profile).1.GPUs.map (fun gpu => gpu.usedMigDevices) =
        n.GPUs.map (fun gpu => gpu.usedMigDevices) ∧
      (Node.UpdateGeometryFor table n profile).1.GPUs.map
          (fun gpu => fun q => GoMap.get gpu.usedMigDevices q) =
        n.GPUs.map (fun gpu => fun q => GoMap.get gpu.usedMigDevices q) := by
  obtain ⟨hgpus, _, _⟩ := updateGeometryFor_gpus table n profile
  have hused := updateGPUs_used table profile n.GPUs
  rw [hgpus]
  refine ⟨hused, ?_⟩
  have := congrArg (List.map (fun (m : List (ProfileName × Nat)) => fun q => GoMap.get m q)) hused
  simpa [List.map_map] using this

/-! ## `Node.AddPod` and the invariant of the GPUs -/

/-- The check of `GPU.AddPod` passes exactly when the free count covers the requested
quantity of every profile. -/
theorem addPod_check (g : GPU) (pod : Pod) :
    (pod.requestedProfiles.all
        (fun e => decide (GoMap.get pod.requestedProfiles e.1 ≤ GoMap.get g.freeMigDevices e.1))) =
        true ↔
      ∀ q, GoMap.get pod.requestedProfiles q ≤ GoMap.get g.freeMigDevices q := by
  rw [List.all_eq_true]
  constructor
  · intro h q
    by_cases hq : q ∈ pod.requestedProfiles.map Prod.fst
    · obtain ⟨e, he, heq⟩ := List.mem_map.mp hq
      have := h e he
      rw [heq] at this
      simpa using this
    · rw [get_eq_zero_of_not_mem _ _ hq]
      exact Nat.zero_le _
  · intro h e _
    simpa using h e.1

/-- Reading the used map after the debit of `GPU.AddPod`. -/
theorem get_debit_used (used req : List (ProfileName × Nat)) (q : ProfileName) :
    GoMap.get
        (req.foldl (fun acc e => GoMap.set acc e.1 (GoMap.get used e.1 + GoMap.get req e.1)) used)
        q =
      GoMap.get used q + GoMap.get req q := by
  have hgen : ∀ (l : List (ProfileName × Nat)) (acc : List (ProfileName × Nat)),
      GoMap.get
          (l.foldl (fun acc e => GoMap.set acc e.1 (GoMap.get used e.1 + GoMap.get req e.1)) acc)
          q =
        if q ∈ l.map Prod.fst then GoMap.get used q + GoMap.get req q else GoMap.get acc q := by
    intro l
    induction l with
    | nil => intro acc; rfl
    | cons e l ih =>
      intro acc
      rw [List.foldl_cons, ih]
      by_cases hl : q ∈ l.map Prod.fst
      · have hmem : q ∈ (e :: l).map Prod.fst := by
          rw [List.map_cons]
          exact List.mem_cons_of_mem _ hl
        rw [if_pos hl, if_pos hmem]
      · rw [if_neg hl, get_set]
        by_cases he : e.1 = q
        · have hmem : q ∈ (e :: l).map Prod.fst := by
            rw [List.map_cons, ← he]
            exact List.mem_cons_self _ _
          rw [if_pos he, if_pos hmem, he]
        · have hmem : q ∉ (e :: l).map Prod.fst := by
            rw [List.map_cons]
            intro hin
            rcases List.mem_cons.mp hin with h1 | h1
            · exact he h1.symm
            · exact hl h1
          rw [if_neg he, if_neg hmem]
  rw [hgen]
  by_cases hq : q ∈ req.map Prod.fst
  · rw [if_pos hq]
  · rw [if_neg hq, get_eq_zero_of_not_mem _ _ hq]
    rfl

/-- A failing `GPU.AddPod` changes nothing. -/
theorem gpuAddPod_error (g : GPU) (pod : Pod) (h : (g.AddPod pod).2 ≠ none) :
    (g.AddPod pod).1 = g := by
  unfold GPU.AddPod at h ⊢
  simp only [] at h ⊢
  by_cases hc : (pod.requestedProfiles.all
      (fun e => decide (GoMap.get pod.requestedProfiles e.1 ≤ GoMap.get g.freeMigDevices e.1))) =
      true
  · rw [if_pos hc] at h
    exact absurd rfl h
  · rw [if_neg hc]

/-- A successful `GPU.AddPod` keeps index and model, decrements the free count and
increments the used count of every profile by the requested quantity, which the free count
covered. -/
theorem gpuAddPod_ok (g : GPU) (pod : Pod) (h : (g.AddPod pod).2 = none) :
    (g.AddPod pod).1.model = g.model ∧
      (g.AddPod pod).1.index = g.index ∧
      ∀ q, GoMap.get pod.requestedProfiles q ≤ GoMap.get g.freeMigDevices q ∧
        GoMap.get (g.AddPod pod).1.freeMigDevices q =
          GoMap.get g.freeMigDevices q - GoMap.get pod.requestedProfiles q ∧
        GoMap.get (g.AddPod pod).1.usedMigDevices q =
          GoMap.get g.usedMigDevices q + GoMap.get pod.requestedProfiles q := by
  unfold GPU.AddPod at h ⊢
  simp only [] at h ⊢
  by_cases hc : (pod.requestedProfiles.all
      (fun e => decide (GoMap.get pod.requestedProfiles e.1 ≤ GoMap.get g.freeMigDevices e.1))) =
      true
  · rw [if_pos hc]
    refine ⟨rfl, rfl, ?_⟩
    intro q
    refine ⟨(addPod_check g pod).mp hc q, ?_, ?_⟩
    · simp only []
      rw [get_map_keys g.freeMigDevices
        (fun k => GoMap.get g.freeMigDevices k - GoMap.get pod.requestedProfiles k) q]
      by_cases hq : q ∈ g.freeMigDevices.map Prod.fst
      · rw [if_pos hq]
      · rw [if_neg hq, get_eq_zero_of_not_mem _ _ hq]
        exact (Nat.zero_sub _).symm
    · exact get_debit_used g.usedMigDevices pod.requestedProfiles q
  · rw [if_neg hc] at h
    cases h

/-- `GPU.AddPod` preserves the invariant of the GPU. -/
theorem gpuAddPod_invariant (table : GeometryTable) (g : GPU) (pod : Pod)
    (hinv : g.GeometryAllowed table) : (g.AddPod pod).1.GeometryAllowed table := by
  by_cases hok : (g.AddPod pod).2 = none
  · obtain ⟨hmodel, _, hq⟩ := gpuAddPod_ok g pod hok
    obtain ⟨geo, hgeo, hsum⟩ := hinv
    refine ⟨geo, ?_, ?_⟩
    · unfold GPU.GetAllowedGeometries at hgeo ⊢
      rw [hmodel]
      exact hgeo
    · intro q
      obtain ⟨hle, hfree, hused⟩ := hq q
      rw [hfree, hused, ← hsum q]
      omega
  · rw [gpuAddPod_error g pod hok]
    exact hinv

/-- One iteration of the loop of `Node.AddPod`, by cases. -/
theorem addPodGPUs_cons (pod : Pod) (g : GPU) (rest : List GPU) :
    addPodGPUs pod (g :: rest) =
      if (g.AddPod pod).2 = none then ((g.AddPod pod).1 :: rest, true)
      else (g :: (addPodGPUs pod rest).1, (addPodGPUs pod rest).2) := by
  rw [addPodGPUs]
  by_cases hok : (g.AddPod pod).2 = none
  · rw [if_pos hok]
    have hsplit : g.AddPod pod = ((g.AddPod pod).1, none) := Prod.ext rfl hok
    rw [hsplit]
  · rw [if_neg hok]
    obtain ⟨msg, hmsg⟩ := Option.ne_none_iff_exists'.mp hok
    have hsplit : g.AddPod pod = (g, some msg) := Prod.ext (gpuAddPod_error g pod hok) hmsg
    rw [hsplit]

/-- The loop of `Node.AddPod` preserves the invariant of every GPU. -/
theorem addPodGPUs_invariant (table : GeometryTable) (pod : Pod) (gpus : List GPU)
    (hinv : ∀ gpu ∈ gpus, gpu.GeometryAllowed table) :
    ∀ gpu ∈ (addPodGPUs pod gpus).1, gpu.GeometryAllowed table := by
  induction gpus with
  | nil => intro gpu hgpu; simp [addPodGPUs] at hgpu
  | cons g rest ih =>
    have hrest : ∀ x ∈ rest, x.GeometryAllowed table :=
      fun x hx => hinv x (List.mem_cons_of_mem _ hx)
    rw [addPodGPUs_cons]
    by_cases hok : (g.AddPod pod).2 = none
    · rw [if_pos hok]
      intro x hx
      rcases List.mem_cons.mp hx with rfl | hmem
      · exact gpuAddPod_invariant table g pod (hinv g (List.mem_cons_self _ _))
      · exact hrest x hmem
    · rw [if_neg hok]
      intro x hx
      rcases List.mem_cons.mp hx with rfl | hmem
      · exact hinv _ (List.mem_cons_self _ _)
      · exact ih hrest x hmem

theorem addPod_gpus (n : Node) (pod : Pod) :
    (n.AddPod pod).1.GPUs = (addPodGPUs pod n.GPUs).1 ∧
      ((n.AddPod pod).2 = none ↔ (addPodGPUs pod n.GPUs).2 = true) := by
  unfold Node.AddPod
  by_cases hres : (addPodGPUs pod n.GPUs).2 = true
  · have hsplit : addPodGPUs pod n.GPUs = ((addPodGPUs pod n.GPUs).1, true) := Prod.ext rfl hres
    rw [hsplit]
    simp
  · have hfalse : (addPodGPUs pod n.GPUs).2 = false := Bool.eq_false_iff.mpr hres
    have hsplit : addPodGPUs pod n.GPUs = ((addPodGPUs pod n.GPUs).1, false) :=
      Prod.ext rfl hfalse
    rw [hsplit]
    simp

/-- C9: if every GPU of a node satisfies the invariant that `used + free`, per profile,
equals some geometry of its allowed set, then every GPU of the node satisfies it after
`Node.UpdateGeometryFor` and after `Node.AddPod`, whether the call succeeds or fails. -/
theorem node_operations_preserve_invariant (table : GeometryTable) (n : Node)
    (profile : ProfileName) (pod : Pod) (hinv : ∀ gpu ∈ n.GPUs, gpu.GeometryAllowed table) :
    (∀ gpu ∈ (Node.UpdateGeometryFor table n profile).1.GPUs, gpu.GeometryAllowed table) ∧
      (∀ gpu ∈ (n.AddPod pod).1.GPUs, gpu.GeometryAllowed table) := by
  refine ⟨?_, ?_⟩
  · rw [(updateGeometryFor_gpus table n profile).1]
    exact updateGPUs_invariant table profile n.GPUs hinv
  · rw [(addPod_gpus n pod).1]
    exact addPodGPUs_invariant table pod n.GPUs hinv

theorem scenarioGPU_allowed :
    ∀ gpu ∈ (⟨"node", [⟨0, "A100", [("3g.20gb", 1)], [("3g.20gb", 0), ("1g.5gb", 1)]⟩]⟩ : Node).GPUs,
      gpu.GeometryAllowed scenarioTable := by
  intro gpu hgpu
  rw [List.mem_singleton] at hgpu
  subst hgpu
  refine ⟨[("3g.20gb", 1), ("1g.5gb", 1)], by decide, ?_⟩
  intro p
  simp only [GoMap.get]
  by_cases h1 : "3g.20gb" = p <;> by_cases h2 : "1g.5gb" = p <;> simp [h1, h2]

/-- C9 at a concrete node: one GPU with one "3g.20gb" slice in use and one "1g.5gb" slice
free, which is the second geometry of the table; a request for "1g.5gb" and a pod asking
for one "1g.5gb" slice. -/
theorem node_operations_preserve_invariant_witness :
    (∀ gpu ∈ (⟨"node", [⟨0, "A100", [("3g.20gb", 1)], [("3g.20gb", 0), ("1g.5gb", 1)]⟩]⟩ :
          Node).GPUs, gpu.GeometryAllowed scenarioTable) ∧
      (∀ gpu ∈ (Node.UpdateGeometryFor scenarioTable
            ⟨"node", [⟨0, "A100", [("3g.20gb", 1)], [("3g.20gb", 0), ("1g.5gb", 1)]⟩]⟩
            "1g.5gb").1.GPUs, gpu.GeometryAllowed scenarioTable) ∧
      (∀ gpu ∈ (Node.AddPod
            ⟨"node", [⟨0, "A100", [("3g.20gb", 1)], [("3g.20gb", 0), ("1g.5gb", 1)]⟩]⟩
            ⟨[("1g.5gb", 1)]⟩).1.GPUs, gpu.GeometryAllowed scenarioTable) :=
  ⟨scenarioGPU_allowed,
    node_operations_preserve_invariant scenarioTable
      ⟨"node", [⟨0, "A100", [("3g.20gb", 1)], [("3g.20gb", 0), ("1g.5gb", 1)]⟩]⟩ "1g.5gb"
      ⟨[("1g.5gb", 1)]⟩ scenarioGPU_allowed⟩

/-! ## `Node.HasFreeMigResources` -/

/-- `Node.HasFreeMigResources` is true exactly when the free map of some GPU has an
entry. -/
theorem hasFreeMigResources_iff_entry (n : Node) :
    n.HasFreeMigResources = true ↔ ∃ gpu ∈ n.GPUs, gpu.freeMigDevices ≠ [] := by
  unfold Node.HasFreeMigResources
  by_cases hlen : n.GPUs.length = 0
  · rw [if_pos hlen]
    have hnil : n.GPUs = [] := List.length_eq_zero.mp hlen
    rw [hnil]
    simp
  · rw [if_neg hlen, List.any_eq_true]
    constructor
    · rintro ⟨gpu, hgpu, h⟩
      refine ⟨gpu, hgpu, ?_⟩
      intro hempty
      rw [hempty] at h
      simp at h
    · rintro ⟨gpu, hgpu, h⟩
      refine ⟨gpu, hgpu, ?_⟩
      have : 0 < gpu.freeMigDevices.length := List.length_pos.mpr h
      simpa using this

/-- When some GPU has a free count greater than zero for some profile,
`Node.HasFreeMigResources` is true. -/
theorem hasFreeMigResources_of_free (n : Node)
    (h : ∃ gpu ∈ n.GPUs, ∃ p, 0 < GoMap.get gpu.freeMigDevices p) :
    n.HasFreeMigResources = true := by
  rw [hasFreeMigResources_iff_entry]
  obtain ⟨gpu, hgpu, p, hp⟩ := h
  exact ⟨gpu, hgpu, ne_nil_of_get_pos _ p hp⟩

/-- C10 at a failing input: a node whose only GPU has its single "7g.40gb" slice in use,
in the state that `ApplyGeometry` leaves for the geometry with one "7g.40gb" slice: the
free map holds the entry "7g.40gb" with count zero.  `HasFreeMigResources` returns true
although no GPU has a free count greater than zero for any profile. -/
theorem hasFreeMigResources_zero_entry :
    (GPU.ApplyGeometry ⟨0, "A100", [("7g.40gb", 1)], []⟩ [("7g.40gb", 1)]).1 =
        ⟨0, "A100", [("7g.40gb", 1)], [("7g.40gb", 0)]⟩ ∧
      Node.HasFreeMigResources ⟨"node", [⟨0, "A100", [("7g.40gb", 1)], [("7g.40gb", 0)]⟩]⟩ =
        true ∧
      ¬ ∃ gpu ∈ (⟨"node", [⟨0, "A100", [("7g.40gb", 1)], [("7g.40gb", 0)]⟩]⟩ : Node).GPUs,
          ∃ p, 0 < GoMap.get gpu.freeMigDevices p := by
  refine ⟨by decide, by decide, ?_⟩
  rintro ⟨gpu, hgpu, p, hp⟩
  rw [List.mem_singleton] at hgpu
  subst hgpu
  simp only [GoMap.get] at hp
  by_cases h : "7g.40gb" = p
  · simp [h] at hp
  · simp [h] at hp

/-! ## `NewNode` on a node without the product label -/

/-- C13: for every Kubernetes node that lacks the NVIDIA product label, whatever its
annotations, the decoder and the GPU constructor, `NewNode` returns no error and a node
with the same name and zero GPUs; on that node `UpdateGeometryFor` fails for every profile
and `HasFreeMigResources` is false. -/
theorem newNode_without_label (env : NodeEnv) (table : GeometryTable) (n : K8sNode)
    (h : GoMap.lookupStr n.Labels env.LabelNvidiaProduct = none) :
    (NewNode env n).2 = none ∧
      (NewNode env n).1.Name = n.Name ∧
      (NewNode env n).1.GPUs = [] ∧
      (∀ profile, (Node.UpdateGeometryFor table (NewNode env n).1 profile).2 ≠ none) ∧
      (NewNode env n).1.HasFreeMigResources = false := by
  have hnew : NewNode env n = ({ Name := n.Name, GPUs := [] }, none) := by
    unfold NewNode getGPUsModel
    rw [h]
  rw [hnew]
  refine ⟨rfl, rfl, rfl, ?_, rfl⟩
  intro profile
  simp [Node.UpdateGeometryFor]

/-- C13 at a concrete node: it carries a hostname label and a status annotation but not
the product label, and the decoder does find GPU annotations. -/
theorem newNode_without_label_witness :
    GoMap.lookupStr
        (⟨"node-1", [("kubernetes.io/hostname", "node-1")],
          [("n8s.nebuly.ai/status-gpu-0-1g.5gb-free", "7")]⟩ : K8sNode).Labels
        exampleEnv.LabelNvidiaProduct = none ∧
      ((NewNode exampleEnv ⟨"node-1", [("kubernetes.io/hostname", "node-1")],
          [("n8s.nebuly.ai/status-gpu-0-1g.5gb-free", "7")]⟩).2 = none ∧
        (NewNode exampleEnv ⟨"node-1", [("kubernetes.io/hostname", "node-1")],
          [("n8s.nebuly.ai/status-gpu-0-1g.5gb-free", "7")]⟩).1.Name = "node-1" ∧
        (NewNode exampleEnv ⟨"node-1", [("kubernetes.io/hostname", "node-1")],
          [("n8s.nebuly.ai/status-gpu-0-1g.5gb-free", "7")]⟩).1.GPUs = [] ∧
        (∀ profile, (Node.UpdateGeometryFor scenarioTable
          (NewNode exampleEnv ⟨"node-1", [("kubernetes.io/hostname", "node-1")],
            [("n8s.nebuly.ai/status-gpu-0-1g.5gb-free", "7")]⟩).1 profile).2 ≠ none) ∧
        (NewNode exampleEnv ⟨"node-1", [("kubernetes.io/hostname", "node-1")],
          [("n8s.nebuly.ai/status-gpu-0-1g.5gb-free", "7")]⟩).1.HasFreeMigResources = false) :=
  ⟨by decide,
    newNode_without_label exampleEnv scenarioTable
      ⟨"node-1", [("kubernetes.io/hostname", "node-1")],
        [("n8s.nebuly.ai/status-gpu-0-1g.5gb-free", "7")]⟩ (by decide)⟩

/-- With the product label present, the same environment builds the GPU from the
annotations: the node is not empty. -/
theorem newNode_with_label_example :
    NewNode exampleEnv ⟨"node-1", [("nvidia.com/gpu.product", "A100")], []⟩ =
      (⟨"node-1", [⟨0, "A100", [], [("1g.5gb", 7)]⟩]⟩, none) := by
  decide

/-! ## `SpecMatchesResources` -/

/-- C18: `SpecMatchesResources` returns false for every list of spec annotations and every
list of resources. -/
theorem specMatchesResources_false (specAnnotations : List GPUSpecAnnotation)
    (resources : List MigDeviceResource) :
    SpecMatchesResources specAnnotations resources = false := by
  unfold SpecMatchesResources
  rfl

/-- The cases that C18 names: two empty lists, and resources that exactly realise the
spec. -/
theorem specMatchesResources_false_examples :
    SpecMatchesResources [] [] = false ∧
      SpecMatchesResources [⟨0, "1g.5gb", 1⟩] [⟨0, "1g.5gb", "nvidia.com/mig-1g.5gb"⟩] = false := by
  decide

/-! ## The plan: the delete operations and the stored quantities -/

theorem uint8_le (x : Int) (h : 0 ≤ x) : uint8 x ≤ x.toNat := by
  unfold uint8
  omega

theorem sum_quantities_nonneg (l : GPUSpecAnnotationList) (h : ∀ a ∈ l, 0 ≤ a.Quantity) :
    0 ≤ (l.map (fun a => a.Quantity)).sum := by
  induction l with
  | nil => simp
  | cons a l ih =>
    rw [List.map_cons, List.sum_cons]
    have h1 := h a (List.mem_cons_self _ _)
    have h2 := ih (fun b hb => h b (List.mem_cons_of_mem _ hb))
    omega

theorem uint8_lt (x : Int) : uint8 x < 256 := by
  unfold uint8
  omega

/-- C19, as stated, fails: with no observed device and two annotations for "1g.5gb" on
GPU 0 of the non-negative quantities `maxInt64` and 1, the total that the code accumulates
wraps to the least `int`, the difference is negative and the plan holds a delete operation
that names no resource. -/
theorem plan_delete_without_resources :
    (∀ a ∈ ([⟨0, "1g.5gb", maxInt64⟩, ⟨0, "1g.5gb", 1⟩] : GPUSpecAnnotationList),
        0 ≤ a.Quantity) ∧
      NewMigConfigPlan ⟨[]⟩ [⟨0, "1g.5gb", maxInt64⟩, ⟨0, "1g.5gb", 1⟩] =
        { DeleteOperations :=
            [{ MigProfile := ⟨0, "1g.5gb"⟩, Resources := [], Quantity := 0 }],
          CreateOperations := [] } ∧
      ∃ d ∈ (NewMigConfigPlan ⟨[]⟩
          [⟨0, "1g.5gb", maxInt64⟩, ⟨0, "1g.5gb", 1⟩]).DeleteOperations, d.Resources = [] := by
  decide

/-- C19, amended: for every state and every desired list whose quantities are non-negative
and whose total desired quantity, for the GPU index and profile of every annotation, is
below `2^63` (it fits a 64-bit `int`), every delete operation of the plan of
`NewMigConfigPlan` names at least one resource, names only resources of its own profile,
and has a quantity that is at most the number of resources it names. -/
theorem plan_delete_ops_wellformed (state : MigState) (desired : GPUSpecAnnotationList)
    (hq : ∀ a ∈ desired, 0 ≤ a.Quantity)
    (hsum : ∀ a ∈ desired, desiredTotal desired a.GetMigProfile < 9223372036854775808) :
    ∀ d ∈ (NewMigConfigPlan state desired).DeleteOperations,
      d.Resources ≠ [] ∧ (∀ r ∈ d.Resources, r.GetMigProfile = d.MigProfile) ∧
        d.Quantity ≤ d.Resources.length := by
  intro d hd
  rw [NewMigConfigPlan_eq] at hd
  simp only [] at hd
  rcases List.mem_append.mp hd with hd | hd
  · obtain ⟨e, he, rfl⟩ := List.mem_map.mp hd
    unfold MigDeviceResourceList.GroupByMigProfile at he
    rw [mem_groupByKey] at he
    obtain ⟨⟨x, hx, hxe⟩, he2⟩ := he
    unfold orphanOp
    simp only []
    refine ⟨?_, ?_, ?_⟩
    · rw [he2]
      apply List.ne_nil_of_mem (a := x)
      rw [List.mem_filter]
      exact ⟨hx, by simpa using hxe⟩
    · intro r hr
      rw [he2, List.mem_filter] at hr
      simpa using hr.2
    · have := uint8_le (e.2.length : Int) (Int.ofNat_nonneg _)
      simpa using this
  · obtain ⟨e, he, hde⟩ := List.mem_flatMap.mp hd
    rw [mem_groupDesired] at he
    obtain ⟨he1, he2⟩ := he
    have hneg := (entryDeletes_profile _ _ _ hde).2
    unfold entryDeletes at hde
    rw [if_pos hneg, List.mem_singleton] at hde
    subst hde
    simp only []
    have hlist : GoMap.getList (MigDeviceResourceList.GroupByMigProfile state.resources) e.1 =
        state.resources.filter (fun r => decide (r.GetMigProfile = e.1)) := by
      unfold MigDeviceResourceList.GroupByMigProfile
      rw [getList_groupByKey]
    have hdiff := entryDiff_group state desired e.1
    rw [← he2] at hdiff
    have htotal0 : 0 ≤ desiredTotal desired e.1 := by
      unfold desiredTotal
      apply sum_quantities_nonneg
      intro a ha
      exact hq a (List.mem_filter.mp ha).1
    have htotal1 : desiredTotal desired e.1 < 9223372036854775808 := by
      obtain ⟨a, ha, hkey⟩ := List.mem_map.mp he1
      have := hsum a ha
      rw [hkey] at this
      exact this
    have hlen : (GoMap.getList (MigDeviceResourceList.GroupByMigProfile state.resources)
        e.1).length = observedCount state e.1 := by
      rw [hlist]
      rfl
    rw [hdiff] at hneg ⊢
    rw [hlen]
    refine ⟨?_, ?_, ?_⟩
    · intro hnil
      rw [hnil] at hlen
      rw [← hlen] at hneg
      rw [wrapInt64_of_range _ (by simpa using by omega) (by simpa using htotal1)] at hneg
      simp only [List.length_nil, Int.ofNat_zero, sub_zero] at hneg
      omega
    · intro r hr
      rw [hlist, List.mem_filter] at hr
      simpa using hr.2
    · by_cases hbig : 256 ≤ observedCount state e.1
      · have := uint8_lt (absInt64
          (wrapInt64 (desiredTotal desired e.1 - (observedCount state e.1 : Int))))
        omega
      · have hw : wrapInt64 (desiredTotal desired e.1 - (observedCount state e.1 : Int)) =
            desiredTotal desired e.1 - (observedCount state e.1 : Int) :=
          wrapInt64_of_range _ (by omega) (by omega)
        rw [hw] at hneg ⊢
        have habs : absInt64 (desiredTotal desired e.1 - (observedCount state e.1 : Int)) =
            (observedCount state e.1 : Int) - desiredTotal desired e.1 := by
          unfold absInt64
          rw [if_pos hneg, wrapInt64_of_range _ (by omega) (by omega)]
          omega
        rw [habs]
        have hle := uint8_le ((observedCount state e.1 : Int) - desiredTotal desired e.1)
          (by omega)
        omega

/-- The amended C19 at a concrete plan: three observed "1g.5gb" devices on GPU 0 and one
desired there; the plan deletes two of the three devices it names. -/
theorem plan_delete_ops_wellformed_witness :
    (∀ a ∈ ([⟨0, "1g.5gb", 1⟩] : GPUSpecAnnotationList), 0 ≤ a.Quantity) ∧
      (∀ a ∈ ([⟨0, "1g.5gb", 1⟩] : GPUSpecAnnotationList),
        desiredTotal [⟨0, "1g.5gb", 1⟩] a.GetMigProfile < 9223372036854775808) ∧
      NewMigConfigPlan ⟨[⟨0, "1g.5gb", "a"⟩, ⟨0, "1g.5gb", "b"⟩, ⟨0, "1g.5gb", "c"⟩]⟩
          [⟨0, "1g.5gb", 1⟩] =
        { DeleteOperations :=
            [{ MigProfile := ⟨0, "1g.5gb"⟩,
               Resources := [⟨0, "1g.5gb", "a"⟩, ⟨0, "1g.5gb", "b"⟩, ⟨0, "1g.5gb", "c"⟩],
               Quantity := 2 }],
          CreateOperations := [] } ∧
      ∀ d ∈ (NewMigConfigPlan ⟨[⟨0, "1g.5gb", "a"⟩, ⟨0, "1g.5gb", "b"⟩, ⟨0, "1g.5gb", "c"⟩]⟩
          [⟨0, "1g.5gb", 1⟩]).DeleteOperations,
        d.Resources ≠ [] ∧ (∀ r ∈ d.Resources, r.GetMigProfile = d.MigProfile) ∧
          d.Quantity ≤ d.Resources.length :=
  ⟨by decide, by decide, by decide,
    plan_delete_ops_wellformed ⟨[⟨0, "1g.5gb", "a"⟩, ⟨0, "1g.5gb", "b"⟩, ⟨0, "1g.5gb", "c"⟩]⟩
      [⟨0, "1g.5gb", 1⟩] (by decide) (by decide)⟩

/-- C20 at a failing input: no observed device and a desired quantity of 256 "1g.5gb" on
GPU 0.  The difference is 256 and the plan holds the single create operation of stored
quantity `uint8(256) = 0`. -/
theorem create_quantity_wraps :
    NewMigConfigPlan ⟨[]⟩ [⟨0, "1g.5gb", 256⟩] =
        { DeleteOperations := [],
          CreateOperations := [{ MigProfile := ⟨0, "1g.5gb"⟩, Quantity := 0 }] } ∧
      ¬ ∀ c ∈ (NewMigConfigPlan ⟨[]⟩ [⟨0, "1g.5gb", 256⟩]).CreateOperations, 1 ≤ c.Quantity := by
  decide

/-! ## The geometry search: which GPU and which geometry -/

/-- When the inner loop applies a geometry, it is the first candidate, in the order of the
list, that admits the profile. -/
theorem applyCandidates_first (profile : ProfileName) (l : List Geometry) (gpu : GPU)
    (h : (applyCandidates profile l gpu).2 = true) :
    ∃ pre geometry post, l = pre ++ geometry :: post ∧
      (∀ c ∈ pre, ¬ admits gpu profile c) ∧ admits gpu profile geometry ∧
      (applyCandidates profile l gpu).1 = (gpu.ApplyGeometry geometry).1 ∧
      (gpu.ApplyGeometry geometry).2 = none := by
  induction l with
  | nil => simp [applyCandidates] at h
  | cons geometry rest ih =>
    by_cases hadm : admits gpu profile geometry
    · have hpos : (GoMap.get geometry profile : Int) -
          (GoMap.get gpu.usedMigDevices profile : Int) > 0 := by
        have := hadm.1
        omega
      have hok : (gpu.ApplyGeometry geometry).2 = none :=
        (applyGeometry_ok_iff gpu geometry).mpr hadm.2
      have hsplit : gpu.ApplyGeometry geometry = ((gpu.ApplyGeometry geometry).1, none) :=
        Prod.ext rfl hok
      refine ⟨[], geometry, rest, rfl, ?_, hadm, ?_, hok⟩
      · intro c hc
        cases hc
      · unfold applyCandidates
        simp only []
        rw [if_pos hpos, hsplit]
    · have hrest : applyCandidates profile (geometry :: rest) gpu =
          applyCandidates profile rest gpu := by
        conv_lhs => rw [applyCandidates]
        by_cases hpos : (GoMap.get geometry profile : Int) -
            (GoMap.get gpu.usedMigDevices profile : Int) > 0
        · rw [if_pos hpos]
          have hgt : GoMap.get geometry profile > GoMap.get gpu.usedMigDevices profile := by
            omega
          have hnok : (gpu.ApplyGeometry geometry).2 ≠ none := by
            intro hok
            exact hadm ⟨hgt, (applyGeometry_ok_iff gpu geometry).mp hok⟩
          obtain ⟨msg, hmsg⟩ := Option.ne_none_iff_exists'.mp hnok
          have hsplit : gpu.ApplyGeometry geometry = (gpu, some msg) :=
            Prod.ext (applyGeometry_error gpu geometry hnok) hmsg
          rw [hsplit]
        · rw [if_neg hpos]
      rw [hrest] at h ⊢
      obtain ⟨pre, geo, post, hl, hpre, hgeo, heq, hok⟩ := ih h
      refine ⟨geometry :: pre, geo, post, by rw [hl]; rfl, ?_, hgeo, heq, hok⟩
      intro c hc
      rcases List.mem_cons.mp hc with rfl | hmem
      · exact hadm
      · exact hpre c hmem

/-- When the outer loop returns `nil`, it stopped at the first GPU that has a free slice of
the profile or an allowed geometry admitting it: either that GPU has a free slice and
nothing changed, or it has none and the inner loop applied a geometry to it alone. -/
theorem updateGPUs_true_cases (table : GeometryTable) (profile : ProfileName)
    (gpus : List GPU) (h : (updateGPUs table profile gpus).2 = true) :
    ∃ pre g post, gpus = pre ++ g :: post ∧
      (∀ x ∈ pre, GoMap.get x.freeMigDevices profile = 0 ∧
        ∀ c ∈ x.GetAllowedGeometries table, ¬ admits x profile c) ∧
      ((0 < GoMap.get g.freeMigDevices profile ∧ (updateGPUs table profile gpus).1 = gpus) ∨
        (GoMap.get g.freeMigDevices profile = 0 ∧
          (applyCandidates profile (g.GetAllowedGeometries table) g).2 = true ∧
          (updateGPUs table profile gpus).1 =
            pre ++ (applyCandidates profile (g.GetAllowedGeometries table) g).1 :: post)) := by
  induction gpus with
  | nil => simp [updateGPUs] at h
  | cons gpu rest ih =>
    rw [updateGPUs_cons] at h ⊢
    by_cases hfree : GoMap.get gpu.freeMigDevices profile > 0
    · rw [if_pos hfree]
      refine ⟨[], gpu, rest, rfl, ?_, Or.inl ⟨hfree, rfl⟩⟩
      intro x hx
      cases hx
    · rw [if_neg hfree] at h ⊢
      have hzero : GoMap.get gpu.freeMigDevices profile = 0 := by omega
      by_cases happ : (applyCandidates profile (gpu.GetAllowedGeometries table) gpu).2 = true
      · rw [if_pos happ]
        refine ⟨[], gpu, rest, rfl, ?_, Or.inr ⟨hzero, happ, rfl⟩⟩
        intro x hx
        cases hx
      · rw [if_neg happ] at h ⊢
        simp only [] at h ⊢
        have hfalse : (applyCandidates profile (gpu.GetAllowedGeometries table) gpu).2 = false :=
          Bool.eq_false_iff.mpr happ
        have hnone := (applyCandidates_false profile (gpu.GetAllowedGeometries table) gpu).1.mp
          hfalse
        obtain ⟨pre, g, post, hl, hpre, hcases⟩ := ih h
        refine ⟨gpu :: pre, g, post, by rw [hl]; rfl, ?_, ?_⟩
        · intro x hx
          rcases List.mem_cons.mp hx with rfl | hmem
          · exact ⟨hzero, hnone⟩
          · exact hpre x hmem
        · rcases hcases with ⟨hpos, heq⟩ | ⟨hz, happ', heq⟩
          · exact Or.inl ⟨hpos, by rw [heq]⟩
          · exact Or.inr ⟨hz, happ', by rw [heq]; rfl⟩

/-- C17: when `Node.UpdateGeometryFor` succeeds and the node is not as it was, exactly one
GPU has changed.  It is the first GPU in node order with an allowed geometry that admits
the profile (more slices of the profile than in use, no profile below its used count); the
geometry applied to it is the first such geometry of its allowed list; its used map is
kept and its free counts are the counts of the geometry minus the used counts.  All other
GPUs are unchanged. -/
theorem updateGeometryFor_changes_first (table : GeometryTable) (n : Node)
    (profile : ProfileName) (hok : (Node.UpdateGeometryFor table n profile).2 = none)
    (hch : (Node.UpdateGeometryFor table n profile).1 ≠ n) :
    ∃ pre g post gpre geometry gpost,
      n.GPUs = pre ++ g :: post ∧
      (∀ x ∈ pre, ∀ c ∈ x.GetAllowedGeometries table, ¬ admits x profile c) ∧
      g.GetAllowedGeometries table = gpre ++ geometry :: gpost ∧
      (∀ c ∈ gpre, ¬ admits g profile c) ∧
      admits g profile geometry ∧
      (Node.UpdateGeometryFor table n profile).1.GPUs =
        pre ++ (g.ApplyGeometry geometry).1 :: post ∧
      (g.ApplyGeometry geometry).1 ≠ g ∧
      (g.ApplyGeometry geometry).1.usedMigDevices = g.usedMigDevices ∧
      ∀ q, GoMap.get (g.ApplyGeometry geometry).1.freeMigDevices q =
        GoMap.get geometry q - GoMap.get g.usedMigDevices q := by
  obtain ⟨hgpus, hname, hiff⟩ := updateGeometryFor_gpus table n profile
  obtain ⟨pre, g, post, hl, hpre, hcases⟩ :=
    updateGPUs_true_cases table profile n.GPUs (hiff.mp hok)
  rcases hcases with ⟨_, heq⟩ | ⟨hzero, happ, heq⟩
  · exfalso
    apply hch
    rw [heq] at hgpus
    cases hres : (Node.UpdateGeometryFor table n profile).1 with
    | mk name gpus =>
      rw [hres] at hgpus hname
      cases n
      simp only [] at hgpus hname
      rw [hgpus, hname]
  · obtain ⟨gpre, geo, gpost, hgl, hgpre, hadm, hfirst, hgok⟩ :=
      applyCandidates_first profile (g.GetAllowedGeometries table) g happ
    obtain ⟨hused, _, _, hfreeq⟩ := applyGeometry_ok g geo hgok
    refine ⟨pre, g, post, gpre, geo, gpost, hl, fun x hx => (hpre x hx).2, hgl, hgpre, hadm,
      ?_, ?_, hused, hfreeq⟩
    · rw [hgpus, heq, hfirst]
    · intro hsame
      have hq := hfreeq profile
      rw [hsame, hzero] at hq
      have := hadm.1
      omega

/-- C17 at scenario C: allowed geometries `{"1g.5gb": 7}` and `{"3g.20gb": 1, "1g.5gb": 1}`,
one "3g.20gb" slice in use, request for "1g.5gb".  The first geometry does not admit the
profile, since it has no "3g.20gb" slice; the second is applied and the free count of
"1g.5gb" becomes 1. -/
theorem updateGeometryFor_changes_first_witness :
    ((Node.UpdateGeometryFor scenarioTable ⟨"node", [⟨0, "A100", [("3g.20gb", 1)], []⟩]⟩
          "1g.5gb").2 = none ∧
      (Node.UpdateGeometryFor scenarioTable ⟨"node", [⟨0, "A100", [("3g.20gb", 1)], []⟩]⟩
          "1g.5gb").1 ≠ ⟨"node", [⟨0, "A100", [("3g.20gb", 1)], []⟩]⟩) ∧
      (∃ pre g post gpre geometry gpost,
        (⟨"node", [⟨0, "A100", [("3g.20gb", 1)], []⟩]⟩ : Node).GPUs = pre ++ g :: post ∧
        (∀ x ∈ pre, ∀ c ∈ x.GetAllowedGeometries scenarioTable, ¬ admits x "1g.5gb" c) ∧
        g.GetAllowedGeometries scenarioTable = gpre ++ geometry :: gpost ∧
        (∀ c ∈ gpre, ¬ admits g "1g.5gb" c) ∧
        admits g "1g.5gb" geometry ∧
        (Node.UpdateGeometryFor scenarioTable ⟨"node", [⟨0, "A100", [("3g.20gb", 1)], []⟩]⟩
            "1g.5gb").1.GPUs = pre ++ (g.ApplyGeometry geometry).1 :: post ∧
        (g.ApplyGeometry geometry).1 ≠ g ∧
        (g.ApplyGeometry geometry).1.usedMigDevices = g.usedMigDevices ∧
        ∀ q, GoMap.get (g.ApplyGeometry geometry).1.freeMigDevices q =
          GoMap.get geometry q - GoMap.get g.usedMigDevices q) ∧
      ¬ admits ⟨0, "A100", [("3g.20gb", 1)], []⟩ "1g.5gb" [("1g.5gb", 7)] ∧
      (GPU.ApplyGeometry ⟨0, "A100", [("3g.20gb", 1)], []⟩ [("1g.5gb", 7)]).2 ≠ none ∧
      Node.UpdateGeometryFor scenarioTable ⟨"node", [⟨0, "A100", [("3g.20gb", 1)], []⟩]⟩
          "1g.5gb" =
        (⟨"node", [⟨0, "A100", [("3g.20gb", 1)], [("3g.20gb", 0), ("1g.5gb", 1)]⟩]⟩, none) ∧
      GoMap.get ([("3g.20gb", 0), ("1g.5gb", 1)] : List (ProfileName × Nat)) "1g.5gb" = 1 :=
  ⟨⟨by decide, by decide⟩,
    updateGeometryFor_changes_first scenarioTable
      ⟨"node", [⟨0, "A100", [("3g.20gb", 1)], []⟩]⟩ "1g.5gb" (by decide) (by decide),
    fun h => absurd (h.2 "3g.20gb") (by decide),
    by decide, by decide, by decide⟩

/-! ## The geometry search on a node that already provides the profile -/

/-- When some GPU of the node has a free slice of the profile, `Node.UpdateGeometryFor`
succeeds. -/
theorem updateGeometryFor_ok_of_free (table : GeometryTable) (n : Node) (profile : ProfileName)
    (h : ∃ gpu ∈ n.GPUs, 0 < GoMap.get gpu.freeMigDevices profile) :
    (Node.UpdateGeometryFor table n profile).2 = none := by
  obtain ⟨gpu, hgpu, hpos⟩ := h
  rw [(updateGeometryFor_gpus table n profile).2.2]
  by_contra hne
  have hfalse : (updateGPUs table profile n.GPUs).2 = false := Bool.eq_false_iff.mpr hne
  have := ((updateGPUs_false table profile n.GPUs).1.mp hfalse gpu hgpu).1
  omega

/-- When the first GPU of the node has a free slice of the profile,
`Node.UpdateGeometryFor` succeeds and changes nothing. -/
theorem updateGeometryFor_noop_of_first_free (table : GeometryTable) (name : String) (gpu : GPU)
    (rest : List GPU) (profile : ProfileName) (h : 0 < GoMap.get gpu.freeMigDevices profile) :
    Node.UpdateGeometryFor table ⟨name, gpu :: rest⟩ profile = (⟨name, gpu :: rest⟩, none) := by
  unfold Node.UpdateGeometryFor
  simp only [List.length_cons, Nat.add_one_ne_zero, if_false]
  rw [updateGPUs_cons, if_pos h]

/-- C16 at a failing input: GPU 0 has one "3g.20gb" slice in use and one free, GPU 1 has
seven free "1g.5gb" slices; both satisfy the invariant for the table.  The node provides
"1g.5gb", yet the call for "1g.5gb" reaches GPU 0 first, finds no free "1g.5gb" slice there
and applies the geometry `{"3g.20gb": 1, "1g.5gb": 3}` to it: the call succeeds and the free
map of GPU 0 is changed. -/
theorem updateGeometryFor_changes_despite_free :
    (∃ gpu ∈ (⟨"node", [⟨0, "A100", [("3g.20gb", 1)], [("3g.20gb", 1)]⟩,
          ⟨1, "A100", [], [("1g.5gb", 7)]⟩]⟩ : Node).GPUs,
        0 < GoMap.get gpu.freeMigDevices "1g.5gb") ∧
      (∀ gpu ∈ (⟨"node", [⟨0, "A100", [("3g.20gb", 1)], [("3g.20gb", 1)]⟩,
          ⟨1, "A100", [], [("1g.5gb", 7)]⟩]⟩ : Node).GPUs, gpu.GeometryAllowed exampleTable) ∧
      Node.UpdateGeometryFor exampleTable
          ⟨"node", [⟨0, "A100", [("3g.20gb", 1)], [("3g.20gb", 1)]⟩,
            ⟨1, "A100", [], [("1g.5gb", 7)]⟩]⟩ "1g.5gb" =
        (⟨"node", [⟨0, "A100", [("3g.20gb", 1)], [("3g.20gb", 0), ("1g.5gb", 3)]⟩,
            ⟨1, "A100", [], [("1g.5gb", 7)]⟩]⟩, none) ∧
      (Node.UpdateGeometryFor exampleTable
          ⟨"node", [⟨0, "A100", [("3g.20gb", 1)], [("3g.20gb", 1)]⟩,
            ⟨1, "A100", [], [("1g.5gb", 7)]⟩]⟩ "1g.5gb").1 ≠
        ⟨"node", [⟨0, "A100", [("3g.20gb", 1)], [("3g.20gb", 1)]⟩,
          ⟨1, "A100", [], [("1g.5gb", 7)]⟩]⟩ := by
  refine ⟨⟨⟨1, "A100", [], [("1g.5gb", 7)]⟩, by decide, by decide⟩, ?_, by decide, by decide⟩
  intro gpu hgpu
  simp only [List.mem_cons, List.mem_singleton, List.not_mem_nil, or_false] at hgpu
  rcases hgpu with rfl | rfl
  · refine ⟨[("3g.20gb", 2)], by decide, ?_⟩
    intro p
    simp only [GoMap.get]
    by_cases h1 : "3g.20gb" = p <;> simp [h1]
  · refine ⟨[("1g.5gb", 7)], by decide, ?_⟩
    intro p
    simp only [GoMap.get]
    by_cases h1 : "1g.5gb" = p <;> simp [h1]

/-! ## `Node.AddPod`: first fit -/

/-- `GPU.AddPod` succeeds exactly when the free counts of the GPU cover the request. -/
theorem gpuAddPod_ok_iff (g : GPU) (pod : Pod) : (g.AddPod pod).2 = none ↔ covers g pod := by
  unfold covers
  rw [← addPod_check]
  unfold GPU.AddPod
  simp only []
  by_cases hc : (pod.requestedProfiles.all
      (fun e => decide (GoMap.get pod.requestedProfiles e.1 ≤ GoMap.get g.freeMigDevices e.1))) =
      true
  · rw [if_pos hc]
    simp [hc]
  · rw [if_neg hc]
    simp [hc]

/-- The loop of `Node.AddPod` falls through exactly when no GPU covers the request, and
then the GPUs are as they were. -/
theorem addPodGPUs_false (pod : Pod) (gpus : List GPU) :
    ((addPodGPUs pod gpus).2 = false ↔ ∀ g ∈ gpus, ¬ covers g pod) ∧
      ((addPodGPUs pod gpus).2 = false → (addPodGPUs pod gpus).1 = gpus) := by
  induction gpus with
  | nil => simp [addPodGPUs]
  | cons g rest ih =>
    rw [addPodGPUs_cons]
    by_cases hok : (g.AddPod pod).2 = none
    · rw [if_pos hok]
      simp only [Bool.true_eq_false, false_iff, false_imp_iff, and_true]
      intro hall
      exact hall g (List.mem_cons_self _ _) ((gpuAddPod_ok_iff g pod).mp hok)
    · rw [if_neg hok]
      simp only []
      have hnot : ¬ covers g pod := fun hc => hok ((gpuAddPod_ok_iff g pod).mpr hc)
      refine ⟨?_, ?_⟩
      · rw [ih.1]
        constructor
        · intro h x hx
          rcases List.mem_cons.mp hx with rfl | hmem
          · exact hnot
          · exact h x hmem
        · intro h x hx
          exact h x (List.mem_cons_of_mem _ hx)
      · intro h
        rw [ih.2 h]

/-- When the loop of `Node.AddPod` finds a GPU, it is the first GPU of the list that covers
the request; it alone is replaced, by the debited GPU. -/
theorem addPodGPUs_true (pod : Pod) (gpus : List GPU) (h : (addPodGPUs pod gpus).2 = true) :
    ∃ pre g post, gpus = pre ++ g :: post ∧ (∀ x ∈ pre, ¬ covers x pod) ∧ covers g pod ∧
      (addPodGPUs pod gpus).1 = pre ++ (g.AddPod pod).1 :: post ∧
      debited g (g.AddPod pod).1 pod := by
  induction gpus with
  | nil => simp [addPodGPUs] at h
  | cons g rest ih =>
    rw [addPodGPUs_cons] at h ⊢
    by_cases hok : (g.AddPod pod).2 = none
    · rw [if_pos hok]
      obtain ⟨hmodel, hindex, hq⟩ := gpuAddPod_ok g pod hok
      refine ⟨[], g, rest, rfl, ?_, (gpuAddPod_ok_iff g pod).mp hok, rfl, hindex, hmodel, ?_⟩
      · intro x hx
        cases hx
      · intro q
        exact ⟨(hq q).2.1, (hq q).2.2⟩
    · rw [if_neg hok] at h ⊢
      simp only [] at h ⊢
      have hnot : ¬ covers g pod := fun hc => hok ((gpuAddPod_ok_iff g pod).mpr hc)
      obtain ⟨pre, g', post, hl, hpre, hcov, heq, hdeb⟩ := ih h
      refine ⟨g :: pre, g', post, by rw [hl]; rfl, ?_, hcov, by rw [heq]; rfl, hdeb⟩
      intro x hx
      rcases List.mem_cons.mp hx with rfl | hmem
      · exact hnot
      · exact hpre x hmem

/-- C12: for every node and request, `Node.AddPod` succeeds if and only if some GPU has
free counts covering every profile and quantity of the request.  On success the first
such GPU in list order, and no other, is replaced by the debited GPU, whose free counts
are decremented and used counts incremented by the requested quantities; on failure the
node is unchanged. -/
theorem addPod_first_fit (n : Node) (pod : Pod) :
    ((n.AddPod pod).2 = none ↔ ∃ g ∈ n.GPUs, covers g pod) ∧
      ((n.AddPod pod).2 = none →
        (n.AddPod pod).1.Name = n.Name ∧
        ∃ pre g post, n.GPUs = pre ++ g :: post ∧ (∀ x ∈ pre, ¬ covers x pod) ∧ covers g pod ∧
          (n.AddPod pod).1.GPUs = pre ++ (g.AddPod pod).1 :: post ∧
          debited g (g.AddPod pod).1 pod) ∧
      ((n.AddPod pod).2 ≠ none → (n.AddPod pod).1 = n) := by
  obtain ⟨hgpus, hiff⟩ := addPod_gpus n pod
  have hname : (n.AddPod pod).1.Name = n.Name := by
    unfold Node.AddPod
    by_cases hres : (addPodGPUs pod n.GPUs).2 = true
    · have hsplit : addPodGPUs pod n.GPUs = ((addPodGPUs pod n.GPUs).1, true) :=
        Prod.ext rfl hres
      rw [hsplit]
    · have hsplit : addPodGPUs pod n.GPUs = ((addPodGPUs pod n.GPUs).1, false) :=
        Prod.ext rfl (Bool.eq_false_iff.mpr hres)
      rw [hsplit]
  refine ⟨?_, ?_, ?_⟩
  · rw [hiff]
    constructor
    · intro h
      obtain ⟨pre, g, post, hl, _, hcov, _, _⟩ := addPodGPUs_true pod n.GPUs h
      exact ⟨g, by rw [hl]; simp, hcov⟩
    · rintro ⟨g, hg, hcov⟩
      by_contra hne
      exact (addPodGPUs_false pod n.GPUs).1.mp (Bool.eq_false_iff.mpr hne) g hg hcov
  · intro h
    refine ⟨hname, ?_⟩
    rw [hgpus]
    exact addPodGPUs_true pod n.GPUs (hiff.mp h)
  · intro h
    have hfalse : (addPodGPUs pod n.GPUs).2 = false := by
      rw [Bool.eq_false_iff]
      intro htrue
      exact h (hiff.mpr htrue)
    rw [(addPodGPUs_false pod n.GPUs).2 hfalse] at hgpus
    cases hres : (n.AddPod pod).1 with
    | mk name gpus =>
      rw [hres] at hgpus hname
      cases n
      simp only [] at hgpus hname
      rw [hgpus, hname]

/-- The first fit of `Node.AddPod` on two GPUs: the first has no free "1g.5gb" slice, the
second has seven and is debited by the two requested. -/
theorem addPod_first_fit_example :
    Node.AddPod
        ⟨"node", [⟨0, "A100", [("3g.20gb", 2)], [("3g.20gb", 0)]⟩,
          ⟨1, "A100", [], [("1g.5gb", 7)]⟩]⟩ ⟨[("1g.5gb", 2)]⟩ =
      (⟨"node", [⟨0, "A100", [("3g.20gb", 2)], [("3g.20gb", 0)]⟩,
          ⟨1, "A100", [("1g.5gb", 2)], [("1g.5gb", 5)]⟩]⟩, none) ∧
      (Node.AddPod
        ⟨"node", [⟨0, "A100", [("3g.20gb", 2)], [("3g.20gb", 0)]⟩,
          ⟨1, "A100", [], [("1g.5gb", 7)]⟩]⟩ ⟨[("1g.5gb", 8)]⟩).2 ≠ none := by
  decide

/-! ## `Node.GetGeometry` -/

section SetLemmas

variable {κ : Type} [DecidableEq κ]

theorem mem_keys_set (m : List (κ × Nat)) (k : κ) (v : Nat) (k' : κ) :
    k' ∈ (GoMap.set m k v).map Prod.fst ↔ k' = k ∨ k' ∈ m.map Prod.fst := by
  induction m with
  | nil => simp [GoMap.set]
  | cons e m ih =>
    obtain ⟨a, b⟩ := e
    by_cases ha : a = k
    · subst ha
      simp [GoMap.set]
    · simp only [GoMap.set, if_neg ha, List.map_cons, List.mem_cons, ih]
      tauto

theorem nodup_keys_set (m : List (κ × Nat)) (k : κ) (v : Nat)
    (h : (m.map Prod.fst).Nodup) : ((GoMap.set m k v).map Prod.fst).Nodup := by
  induction m with
  | nil => simp [GoMap.set]
  | cons e m ih =>
    obtain ⟨a, b⟩ := e
    rw [List.map_cons, List.nodup_cons] at h
    by_cases ha : a = k
    · subst ha
      simp only [GoMap.set, if_true, List.map_cons, List.nodup_cons]
      exact h
    · simp only [GoMap.set, if_neg ha, List.map_cons, List.nodup_cons]
      refine ⟨?_, ih h.2⟩
      rw [mem_keys_set]
      rintro (hk | hmem)
      · exact ha hk
      · exact h.1 hmem

/-- In a map with distinct keys, the entries with a given key add up to the value read at
that key. -/
theorem sum_entries_eq_get (m : List (κ × Nat)) (k : κ) (h : (m.map Prod.fst).Nodup) :
    ((m.filter (fun e => decide (e.1 = k))).map Prod.snd).sum = GoMap.get m k := by
  induction m with
  | nil => rfl
  | cons e m ih =>
    obtain ⟨a, b⟩ := e
    rw [List.map_cons, List.nodup_cons] at h
    by_cases ha : a = k
    · subst ha
      have hnil : m.filter (fun e => decide (e.1 = a)) = [] := by
        rw [List.filter_eq_nil_iff]
        intro e he hea
        apply h.1
        exact List.mem_map.mpr ⟨e, he, by simpa using hea⟩
      simp [List.filter_cons, GoMap.get, hnil]
    · simp [List.filter_cons, GoMap.get, ha, ih h.2]

end SetLemmas

/-- Reading the accumulator after the inner loop of `Node.GetGeometry`. -/
theorem get_addGeometry_sum (geometry : Geometry) (res : Geometry) (p : ProfileName) :
    GoMap.get (addGeometry res geometry) p =
      GoMap.get res p + ((geometry.filter (fun e => decide (e.1 = p))).map Prod.snd).sum := by
  unfold addGeometry
  induction geometry generalizing res with
  | nil => simp
  | cons e geometry ih =>
    rw [List.foldl_cons, ih, get_set]
    by_cases he : e.1 = p
    · rw [if_pos he]
      simp only [List.filter_cons, he, decide_True, if_true, List.map_cons, List.sum_cons]
      omega
    · rw [if_neg he]
      simp [List.filter_cons, he]

theorem mem_keys_addGeometry (geometry : Geometry) (res : Geometry) (p : ProfileName) :
    p ∈ (addGeometry res geometry).map Prod.fst ↔
      p ∈ res.map Prod.fst ∨ p ∈ geometry.map Prod.fst := by
  unfold addGeometry
  induction geometry generalizing res with
  | nil => simp
  | cons e geometry ih =>
    rw [List.foldl_cons, ih, mem_keys_set, List.map_cons, List.mem_cons]
    tauto

theorem nodup_keys_addGeometry (geometry : Geometry) (res : Geometry)
    (h : (res.map Prod.fst).Nodup) : ((addGeometry res geometry).map Prod.fst).Nodup := by
  unfold addGeometry
  induction geometry generalizing res with
  | nil => exact h
  | cons e geometry ih =>
    rw [List.foldl_cons]
    exact ih _ (nodup_keys_set res e.1 _ h)

/-- The geometry of a GPU has distinct profiles. -/
theorem nodup_keys_gpuGetGeometry (g : GPU) : (g.GetGeometry.map Prod.fst).Nodup := by
  unfold GPU.GetGeometry
  rw [List.map_map]
  have hid : (Prod.fst ∘ fun p : ProfileName =>
      (p, GoMap.get g.usedMigDevices p + GoMap.get g.freeMigDevices p)) = id := by
    funext p
    rfl
  rw [hid, List.map_id]
  exact List.nodup_dedup _

theorem get_map_of_keys (ks : List ProfileName) (f : ProfileName → Nat) (k : ProfileName) :
    GoMap.get (ks.map (fun k => (k, f k))) k = if k ∈ ks then f k else 0 := by
  induction ks with
  | nil => rfl
  | cons a ks ih =>
    by_cases ha : a = k
    · subst ha
      simp [GoMap.get]
    · have hne : k ≠ a := fun heq => ha heq.symm
      have hmem : k ∈ ks ↔ k ∈ a :: ks := by simp [hne]
      simp only [List.map_cons, GoMap.get, if_neg ha, ih]
      exact if_congr hmem rfl rfl

/-- The geometry of a GPU holds, for every profile, the used count plus the free count. -/
theorem get_gpuGetGeometry (g : GPU) (p : ProfileName) :
    GoMap.get g.GetGeometry p = GoMap.get g.usedMigDevices p + GoMap.get g.freeMigDevices p := by
  unfold GPU.GetGeometry
  rw [get_map_of_keys]
  by_cases hp : p ∈ ((g.usedMigDevices ++ g.freeMigDevices).map Prod.fst).dedup
  · rw [if_pos hp]
  · rw [if_neg hp]
    rw [List.mem_dedup, List.map_append, List.mem_append, not_or] at hp
    rw [get_eq_zero_of_not_mem _ _ hp.1, get_eq_zero_of_not_mem _ _ hp.2]

theorem foldl_addGeometry (gpus : List GPU) (res : Geometry) (p : ProfileName) :
    GoMap.get (gpus.foldl (fun res g => addGeometry res g.GetGeometry) res) p =
        GoMap.get res p + (gpus.map (fun g => GoMap.get g.GetGeometry p)).sum ∧
      (p ∈ (gpus.foldl (fun res g => addGeometry res g.GetGeometry) res).map Prod.fst ↔
        p ∈ res.map Prod.fst ∨ ∃ g ∈ gpus, p ∈ g.GetGeometry.map Prod.fst) := by
  induction gpus generalizing res with
  | nil => simp
  | cons g gpus ih =>
    rw [List.foldl_cons]
    obtain ⟨hget, hmem⟩ := ih (addGeometry res g.GetGeometry)
    refine ⟨?_, ?_⟩
    · rw [hget, get_addGeometry_sum, sum_entries_eq_get _ _ (nodup_keys_gpuGetGeometry g),
        List.map_cons, List.sum_cons]
      omega
    · rw [hmem, mem_keys_addGeometry]
      constructor
      · rintro ((h | h) | ⟨x, hx, h⟩)
        · exact Or.inl h
        · exact Or.inr ⟨g, List.mem_cons_self _ _, h⟩
        · exact Or.inr ⟨x, List.mem_cons_of_mem _ hx, h⟩
      · rintro (h | ⟨x, hx, h⟩)
        · exact Or.inl (Or.inl h)
        · rcases List.mem_cons.mp hx with rfl | hmem'
          · exact Or.inl (Or.inr h)
          · exact Or.inr ⟨x, hmem', h⟩

theorem nodup_keys_foldl_addGeometry (gpus : List GPU) (res : Geometry)
    (h : (res.map Prod.fst).Nodup) :
    ((gpus.foldl (fun res g => addGeometry res g.GetGeometry) res).map Prod.fst).Nodup := by
  induction gpus generalizing res with
  | nil => exact h
  | cons g gpus ih =>
    rw [List.foldl_cons]
    exact ih _ (nodup_keys_addGeometry _ _ h)

/-- C11: for every node, `Node.GetGeometry` maps each profile to the sum over all GPUs of
the count of the profile in the geometry of that GPU, its profiles are distinct, and for
every permutation of the list of GPUs the result is the same map: the same profiles with
the same counts. -/
theorem node_getGeometry_sum (n : Node) (gpus : List GPU) (hperm : gpus.Perm n.GPUs) :
    (∀ p, GoMap.get n.GetGeometry p = (n.GPUs.map (fun g => GoMap.get g.GetGeometry p)).sum) ∧
      (n.GetGeometry.map Prod.fst).Nodup ∧
      (∀ p, GoMap.get (Node.GetGeometry ⟨n.Name, gpus⟩) p = GoMap.get n.GetGeometry p) ∧
      (∀ p, p ∈ (Node.GetGeometry ⟨n.Name, gpus⟩).map Prod.fst ↔
        p ∈ n.GetGeometry.map Prod.fst) := by
  unfold Node.GetGeometry
  refine ⟨?_, ?_, ?_, ?_⟩
  · intro p
    rw [(foldl_addGeometry n.GPUs [] p).1]
    simp [GoMap.get]
  · exact nodup_keys_foldl_addGeometry n.GPUs [] (by simp)
  · intro p
    rw [(foldl_addGeometry n.GPUs [] p).1, (foldl_addGeometry gpus [] p).1]
    rw [(hperm.map (fun g => GoMap.get g.GetGeometry p)).sum_eq]
  · intro p
    rw [(foldl_addGeometry n.GPUs [] p).2, (foldl_addGeometry gpus [] p).2]
    constructor
    · rintro (h | ⟨g, hg, h⟩)
      · exact Or.inl h
      · exact Or.inr ⟨g, hperm.mem_iff.mp hg, h⟩
    · rintro (h | ⟨g, hg, h⟩)
      · exact Or.inl h
      · exact Or.inr ⟨g, hperm.mem_iff.mpr hg, h⟩

/-- C11 at a node with two GPUs, taken in both orders: one "3g.20gb" slice in use and one
"1g.5gb" slice free on GPU 0, seven free "1g.5gb" slices on GPU 1. -/
theorem node_getGeometry_sum_witness :
    ([⟨1, "A100", [], [("1g.5gb", 7)]⟩,
        ⟨0, "A100", [("3g.20gb", 1)], [("3g.20gb", 0), ("1g.5gb", 1)]⟩] : List GPU).Perm
        (⟨"node", [⟨0, "A100", [("3g.20gb", 1)], [("3g.20gb", 0), ("1g.5gb", 1)]⟩,
          ⟨1, "A100", [], [("1g.5gb", 7)]⟩]⟩ : Node).GPUs ∧
      Node.GetGeometry ⟨"node", [⟨0, "A100", [("3g.20gb", 1)], [("3g.20gb", 0), ("1g.5gb", 1)]⟩,
          ⟨1, "A100", [], [("1g.5gb", 7)]⟩]⟩ = [("3g.20gb", 1), ("1g.5gb", 8)] ∧
      Node.GetGeometry ⟨"node", [⟨1, "A100", [], [("1g.5gb", 7)]⟩,
          ⟨0, "A100", [("3g.20gb", 1)], [("3g.20gb", 0), ("1g.5gb", 1)]⟩]⟩ =
        [("1g.5gb", 8), ("3g.20gb", 1)] ∧
      ∀ p, GoMap.get (Node.GetGeometry ⟨"node", [⟨1, "A100", [], [("1g.5gb", 7)]⟩,
          ⟨0, "A100", [("3g.20gb", 1)], [("3g.20gb", 0), ("1g.5gb", 1)]⟩]⟩) p =
        GoMap.get (Node.GetGeometry
          ⟨"node", [⟨0, "A100", [("3g.20gb", 1)], [("3g.20gb", 0), ("1g.5gb", 1)]⟩,
            ⟨1, "A100", [], [("1g.5gb", 7)]⟩]⟩) p :=
  ⟨List.Perm.swap _ _ _, by decide, by decide,
    (node_getGeometry_sum
      ⟨"node", [⟨0, "A100", [("3g.20gb", 1)], [("3g.20gb", 0), ("1g.5gb", 1)]⟩,
        ⟨1, "A100", [], [("1g.5gb", 7)]⟩]⟩
      [⟨1, "A100", [], [("1g.5gb", 7)]⟩,
        ⟨0, "A100", [("3g.20gb", 1)], [("3g.20gb", 0), ("1g.5gb", 1)]⟩]
      (List.Perm.swap _ _ _)).2.2.1⟩

/-! ## `ComputeStatusAnnotations` -/

/-- The last loop of `ComputeStatusAnnotations` appends to `res`, entry by entry, the
annotations that the decoder accepts. -/
theorem foldl_appendDecoded (codec : StatusCodec) (m : List (String × Nat))
    (res : List GPUStatusAnnotation) :
    m.foldl (appendDecoded codec) res =
      res ++ m.flatMap (fun e =>
        match codec.NewGPUStatusAnnotation e.1 e.2 with
        | .ok a => [a]
        | .error _ => []) := by
  induction m generalizing res with
  | nil => simp
  | cons e m ih =>
    rw [List.foldl_cons, ih, List.flatMap_cons]
    unfold appendDecoded
    cases codec.NewGPUStatusAnnotation e.1 e.2 with
    | ok a => simp
    | error err => simp

/-- The result of `ComputeStatusAnnotations` starts with as many zero-valued annotations as
`annotationToQuantity` has entries; the decoded annotations follow. -/
theorem computeStatusAnnotations_eq (codec : StatusCodec) (used free : List MigDeviceResource) :
    ComputeStatusAnnotations codec used free =
      List.replicate (annotationToQuantity codec used free).length GPUStatusAnnotation.zero ++
        (annotationToQuantity codec used free).flatMap (fun e =>
          match codec.NewGPUStatusAnnotation e.1 e.2 with
          | .ok a => [a]
          | .error _ => []) := by
  unfold ComputeStatusAnnotations
  simp only []
  rw [foldl_appendDecoded]

/-- C14 at a failing input: one used "1g.5gb" device on GPU 0 and no free device.  Whatever
the key formats and the decoder, the result starts with a zero-valued annotation (GPU 0,
empty profile, quantity 0), followed by the decoded annotation of the only key, of quantity
1, when the decoder accepts it: two elements for one triple.  For empty inputs the result
is empty. -/
theorem computeStatusAnnotations_zero_entry (codec : StatusCodec) :
    ComputeStatusAnnotations codec [⟨0, "1g.5gb", "nvidia.com/mig-1g.5gb"⟩] [] =
        GPUStatusAnnotation.zero ::
          (match codec.NewGPUStatusAnnotation (codec.usedKey 0 "1g.5gb") 1 with
            | .ok a => [a]
            | .error _ => []) ∧
      GPUStatusAnnotation.zero.Quantity = 0 ∧
      ComputeStatusAnnotations codec [] [] = [] := by
  refine ⟨?_, rfl, rfl⟩
  rw [computeStatusAnnotations_eq]
  have hmap : annotationToQuantity codec [⟨0, "1g.5gb", "nvidia.com/mig-1g.5gb"⟩] [] =
      [(codec.usedKey 0 "1g.5gb", 1)] := by
    simp [annotationToQuantity, countFullNames, GoMap.set, GoMap.get]
  rw [hmap]
  simp [List.replicate]

/-! ## `SpecMatchesStatus` -/

section IntMaps

variable {κ : Type} [DecidableEq κ]

theorem lookupInt_eq_none_of_not_mem (m : List (κ × Int)) (k : κ) (h : k ∉ m.map Prod.fst) :
    GoMap.lookupInt m k = none := by
  induction m with
  | nil => rfl
  | cons e m ih =>
    obtain ⟨a, b⟩ := e
    have ha : a ≠ k := fun heq => h (by simp [heq])
    have hm : k ∉ m.map Prod.fst := fun hmem => h (by simp [hmem])
    simp [GoMap.lookupInt, ha, ih hm]

theorem lookupInt_isSome_of_mem (m : List (κ × Int)) (k : κ) (h : k ∈ m.map Prod.fst) :
    ∃ v, GoMap.lookupInt m k = some v := by
  induction m with
  | nil => cases h
  | cons e m ih =>
    obtain ⟨a, b⟩ := e
    by_cases ha : a = k
    · exact ⟨b, by simp [GoMap.lookupInt, ha]⟩
    · have hm : k ∈ m.map Prod.fst := by
        rw [List.map_cons, List.mem_cons] at h
        rcases h with h | h
        · exact absurd h.symm ha
        · exact h
      obtain ⟨v, hv⟩ := ih hm
      exact ⟨v, by simp [GoMap.lookupInt, ha, hv]⟩

theorem mem_keys_of_lookupInt (m : List (κ × Int)) (k : κ) (v : Int)
    (h : GoMap.lookupInt m k = some v) : k ∈ m.map Prod.fst := by
  by_contra hk
  rw [lookupInt_eq_none_of_not_mem m k hk] at h
  cases h

/-- In a map with distinct keys, every entry is what reading its key gives. -/
theorem lookupInt_of_mem (m : List (κ × Int)) (e : κ × Int) (hnd : (m.map Prod.fst).Nodup)
    (he : e ∈ m) : GoMap.lookupInt m e.1 = some e.2 := by
  induction m with
  | nil => cases he
  | cons x m ih =>
    obtain ⟨a, b⟩ := x
    rw [List.map_cons, List.nodup_cons] at hnd
    rcases List.mem_cons.mp he with rfl | hmem
    · simp [GoMap.lookupInt]
    · have hne : a ≠ e.1 := by
        intro heq
        apply hnd.1
        rw [heq]
        exact List.mem_map.mpr ⟨e, hmem, rfl⟩
      simp [GoMap.lookupInt, hne, ih hnd.2 hmem]

/-- Every value read from a map is the value of one of its entries. -/
theorem mem_of_lookupInt (m : List (κ × Int)) (k : κ) (v : Int)
    (h : GoMap.lookupInt m k = some v) : (k, v) ∈ m := by
  induction m with
  | nil => cases h
  | cons x m ih =>
    obtain ⟨a, b⟩ := x
    by_cases ha : a = k
    · simp only [GoMap.lookupInt, if_pos ha, Option.some.injEq] at h
      rw [ha, h]
      exact List.mem_cons_self _ _
    · simp only [GoMap.lookupInt, if_neg ha] at h
      exact List.mem_cons_of_mem _ (ih h)

theorem mem_keys_addInt (m : List (κ × Int)) (k : κ) (q : Int) (k' : κ) :
    k' ∈ (GoMap.addInt m k q).map Prod.fst ↔ k' = k ∨ k' ∈ m.map Prod.fst := by
  induction m with
  | nil => simp [GoMap.addInt]
  | cons e m ih =>
    obtain ⟨a, b⟩ := e
    by_cases ha : a = k
    · subst ha
      simp [GoMap.addInt]
    · simp only [GoMap.addInt, if_neg ha, List.map_cons, List.mem_cons, ih]
      tauto

theorem nodup_keys_addInt (m : List (κ × Int)) (k : κ) (q : Int)
    (h : (m.map Prod.fst).Nodup) : ((GoMap.addInt m k q).map Prod.fst).Nodup := by
  induction m with
  | nil => simp [GoMap.addInt]
  | cons e m ih =>
    obtain ⟨a, b⟩ := e
    rw [List.map_cons, List.nodup_cons] at h
    by_cases ha : a = k
    · subst ha
      simp only [GoMap.addInt, if_true, List.map_cons, List.nodup_cons]
      exact h
    · simp only [GoMap.addInt, if_neg ha, List.map_cons, List.nodup_cons]
      refine ⟨?_, ih h.2⟩
      rw [mem_keys_addInt]
      rintro (hk | hmem)
      · exact ha hk
      · exact h.1 hmem

theorem lookupInt_addInt (m : List (κ × Int)) (k : κ) (q : Int) (k' : κ) :
    GoMap.lookupInt (GoMap.addInt m k q) k' =
      if k = k' then some (wrapInt64 ((GoMap.lookupInt m k).getD 0 + q))
      else GoMap.lookupInt m k' := by
  induction m with
  | nil => simp [GoMap.addInt, GoMap.lookupInt]
  | cons e m ih =>
    obtain ⟨a, b⟩ := e
    by_cases ha : a = k
    · subst ha
      by_cases hk : a = k'
      · simp [GoMap.addInt, GoMap.lookupInt, hk]
      · simp [GoMap.addInt, GoMap.lookupInt, hk]
    · by_cases hk : a = k'
      · subst hk
        simp [GoMap.addInt, GoMap.lookupInt, ha, Ne.symm ha]
      · simp [GoMap.addInt, GoMap.lookupInt, ha, hk, ih]

/-- On maps with distinct keys, `reflect.DeepEqual` holds exactly when the two maps have
the same keys and the same value at every key. -/
theorem reflectDeepEqual_iff (m1 m2 : List (κ × Int)) (h1 : (m1.map Prod.fst).Nodup)
    (h2 : (m2.map Prod.fst).Nodup) :
    reflectDeepEqual m1 m2 = true ↔
      (∀ k, k ∈ m1.map Prod.fst ↔ k ∈ m2.map Prod.fst) ∧
        ∀ k, GoMap.lookupInt m1 k = GoMap.lookupInt m2 k := by
  unfold reflectDeepEqual
  rw [Bool.and_eq_true, decide_eq_true_eq, List.all_eq_true]
  constructor
  · rintro ⟨hlen, hall⟩
    have hall' : ∀ e ∈ m1, GoMap.lookupInt m2 e.1 = some e.2 := by
      intro e he
      simpa using hall e he
    have hsub : m1.map Prod.fst ⊆ m2.map Prod.fst := by
      intro k hk
      obtain ⟨e, he, rfl⟩ := List.mem_map.mp hk
      exact mem_keys_of_lookupInt m2 e.1 e.2 (hall' e he)
    have hperm : (m1.map Prod.fst).Perm (m2.map Prod.fst) := by
      apply List.Subperm.perm_of_length_le (List.Nodup.subperm h1 hsub)
      rw [List.length_map, List.length_map, hlen]
    have hkeys : ∀ k, k ∈ m1.map Prod.fst ↔ k ∈ m2.map Prod.fst := fun k => hperm.mem_iff
    refine ⟨hkeys, ?_⟩
    intro k
    by_cases hk : k ∈ m1.map Prod.fst
    · obtain ⟨e, he, rfl⟩ := List.mem_map.mp hk
      rw [lookupInt_of_mem m1 e h1 he, hall' e he]
    · rw [lookupInt_eq_none_of_not_mem m1 k hk,
        lookupInt_eq_none_of_not_mem m2 k (fun h => hk ((hkeys k).mpr h))]
  · rintro ⟨hkeys, hval⟩
    refine ⟨?_, ?_⟩
    · have hperm : (m1.map Prod.fst).Perm (m2.map Prod.fst) :=
        (List.perm_ext_iff_of_nodup h1 h2).mpr hkeys
      have := hperm.length_eq
      rwa [List.length_map, List.length_map] at this
    · intro e he
      rw [decide_eq_true_eq, ← hval e.1]
      exact lookupInt_of_mem m1 e h1 he

end IntMaps

/-- The map that `SpecMatchesStatus` derives from a list of annotations: its keys are
distinct, they are the keys of the annotations, and the value at a key is the sum of the
quantities of the annotations with that key, reduced to the 64-bit range. -/
theorem countMap_spec {α : Type} (key : α → String) (quantity : α → Int) (l : List α) :
    ((l.foldl (fun m a => GoMap.addInt m (key a) (quantity a)) []).map Prod.fst).Nodup ∧
      (∀ k, k ∈ (l.foldl (fun m a => GoMap.addInt m (key a) (quantity a)) []).map Prod.fst ↔
        k ∈ l.map key) ∧
      ∀ k, GoMap.lookupInt (l.foldl (fun m a => GoMap.addInt m (key a) (quantity a)) []) k =
        if k ∈ l.map key then some (wrapInt64 (keySum key quantity l k)) else none := by
  have hgen : ∀ (l : List α) (acc : List (String × Int)), (acc.map Prod.fst).Nodup →
      ((l.foldl (fun m a => GoMap.addInt m (key a) (quantity a)) acc).map Prod.fst).Nodup ∧
      (∀ k, k ∈ (l.foldl (fun m a => GoMap.addInt m (key a) (quantity a)) acc).map Prod.fst ↔
        k ∈ acc.map Prod.fst ∨ k ∈ l.map key) ∧
      ∀ k, GoMap.lookupInt (l.foldl (fun m a => GoMap.addInt m (key a) (quantity a)) acc) k =
        if k ∈ l.map key then
          some (wrapInt64 ((GoMap.lookupInt acc k).getD 0 + keySum key quantity l k))
        else GoMap.lookupInt acc k := by
    intro l
    induction l with
    | nil =>
      intro acc hacc
      refine ⟨hacc, fun k => by simp, fun k => by simp⟩
    | cons a l ih =>
      intro acc hacc
      rw [List.foldl_cons]
      obtain ⟨hnd, hmem, hval⟩ := ih (GoMap.addInt acc (key a) (quantity a))
        (nodup_keys_addInt acc _ _ hacc)
      refine ⟨hnd, ?_, ?_⟩
      · intro k
        rw [hmem, mem_keys_addInt, List.map_cons, List.mem_cons]
        tauto
      · intro k
        rw [hval, lookupInt_addInt]
        by_cases hk : key a = k
        · have hmem' : k ∈ (a :: l).map key := by
            rw [List.map_cons, ← hk]
            exact List.mem_cons_self _ _
          have hsum : keySum key quantity (a :: l) k = quantity a + keySum key quantity l k := by
            unfold keySum
            simp [List.filter_cons, hk]
          rw [if_pos hk, if_pos hmem', hsum, hk]
          by_cases hl : k ∈ l.map key
          · rw [if_pos hl, Option.getD_some, wrapInt64_add_left, add_assoc]
          · have hzero : keySum key quantity l k = 0 := by
              unfold keySum
              have hnil : l.filter (fun x => decide (key x = k)) = [] := by
                rw [List.filter_eq_nil_iff]
                intro x hx hxk
                apply hl
                exact List.mem_map.mpr ⟨x, hx, by simpa using hxk⟩
              rw [hnil]
              rfl
            rw [if_neg hl, hzero, add_zero]
        · have hsum : keySum key quantity (a :: l) k = keySum key quantity l k := by
            unfold keySum
            simp [List.filter_cons, hk]
          have hiff : k ∈ l.map key ↔ k ∈ (a :: l).map key := by
            rw [List.map_cons, List.mem_cons]
            constructor
            · exact Or.inr
            · rintro (h | h)
              · exact absurd h.symm hk
              · exact h
          rw [if_neg hk, hsum]
          exact if_congr hiff rfl rfl
  obtain ⟨hnd, hmem, hval⟩ := hgen l [] (by simp)
  refine ⟨hnd, fun k => by rw [hmem]; simp, ?_⟩
  intro k
  rw [hval]
  simp [GoMap.lookupInt]

/-- The sum of the quantities at a key does not depend on the order of the list. -/
theorem keySum_perm {α : Type} (key : α → String) (quantity : α → Int) (l l' : List α)
    (h : l'.Perm l) (k : String) : keySum key quantity l' k = keySum key quantity l k := by
  unfold keySum
  exact ((h.filter _).map quantity).sum_eq

/-- `SpecMatchesStatus` is true exactly when the two derived count mappings have the same
keys and, at every key, the same sum of quantities after reduction to the 64-bit range. -/
theorem specMatchesStatus_iff (specKey : GPUSpecAnnotation → String)
    (statusKey : GPUStatusAnnotation → String) (spec : List GPUSpecAnnotation)
    (status : List GPUStatusAnnotation) :
    SpecMatchesStatus specKey statusKey spec status = true ↔
      (∀ k, k ∈ spec.map specKey ↔ k ∈ status.map statusKey) ∧
        ∀ k ∈ spec.map specKey,
          wrapInt64 (keySum specKey (fun a => a.Quantity) spec k) =
            wrapInt64 (keySum statusKey (fun a => a.Quantity) status k) := by
  obtain ⟨hnd1, hmem1, hval1⟩ := countMap_spec specKey (fun a => a.Quantity) spec
  obtain ⟨hnd2, hmem2, hval2⟩ := countMap_spec statusKey (fun a => a.Quantity) status
  unfold SpecMatchesStatus
  simp only []
  rw [reflectDeepEqual_iff _ _ hnd1 hnd2]
  constructor
  · rintro ⟨hkeys, hvals⟩
    have hkeys' : ∀ k, k ∈ spec.map specKey ↔ k ∈ status.map statusKey := by
      intro k
      rw [← hmem1, ← hmem2]
      exact hkeys k
    refine ⟨hkeys', ?_⟩
    intro k hk
    have := hvals k
    rw [hval1, hval2, if_pos hk, if_pos ((hkeys' k).mp hk)] at this
    exact Option.some.inj this
  · rintro ⟨hkeys, hvals⟩
    refine ⟨?_, ?_⟩
    · intro k
      rw [hmem1, hmem2]
      exact hkeys k
    · intro k
      rw [hval1, hval2]
      by_cases hk : k ∈ spec.map specKey
      · rw [if_pos hk, if_pos ((hkeys k).mp hk), hvals k hk]
      · rw [if_neg hk, if_neg (fun h => hk ((hkeys k).mpr h))]

/-- C15, as stated, fails: spec annotations of quantities `maxInt64`, `maxInt64` and 2 on
one key add up to `2^64`, which the code holds as 0; against one status annotation of
quantity 0 on that key `SpecMatchesStatus` returns true, although the sums of the
quantities differ. -/
theorem specMatchesStatus_overflow :
    ¬ (SpecMatchesStatus exampleSpecKey exampleStatusKey
          [⟨0, "1g.5gb", maxInt64⟩, ⟨0, "1g.5gb", maxInt64⟩, ⟨0, "1g.5gb", 2⟩]
          [⟨0, "1g.5gb", true, 0⟩] = true ↔
        (∀ k, k ∈ ([⟨0, "1g.5gb", maxInt64⟩, ⟨0, "1g.5gb", maxInt64⟩, ⟨0, "1g.5gb", 2⟩] :
              List GPUSpecAnnotation).map exampleSpecKey ↔
            k ∈ ([⟨0, "1g.5gb", true, 0⟩] : List GPUStatusAnnotation).map exampleStatusKey) ∧
          ∀ k ∈ ([⟨0, "1g.5gb", maxInt64⟩, ⟨0, "1g.5gb", maxInt64⟩, ⟨0, "1g.5gb", 2⟩] :
              List GPUSpecAnnotation).map exampleSpecKey,
            keySum exampleSpecKey (fun a => a.Quantity)
                [⟨0, "1g.5gb", maxInt64⟩, ⟨0, "1g.5gb", maxInt64⟩, ⟨0, "1g.5gb", 2⟩] k =
              keySum exampleStatusKey (fun a => a.Quantity) [⟨0, "1g.5gb", true, 0⟩] k) := by
  intro h
  have hsum := (h.mp (by decide)).2 "0-1g.5gb" (by decide)
  revert hsum
  decide

/-- C15, amended: for every list of spec annotations and every list of status annotations,
`SpecMatchesStatus` returns true if and only if the two derived count mappings (key: GPU
index with profile; value: the sum of the quantities of the annotations with that key,
used and free status annotations together, reduced to the range of a 64-bit `int`) have
the same keys and the same value at every key; and the result is the same for every
reordering of either list. -/
theorem specMatchesStatus_spec (specKey : GPUSpecAnnotation → String)
    (statusKey : GPUStatusAnnotation → String) (spec spec' : List GPUSpecAnnotation)
    (status status' : List GPUStatusAnnotation) (hspec : spec'.Perm spec)
    (hstatus : status'.Perm status) :
    (SpecMatchesStatus specKey statusKey spec status = true ↔
        (∀ k, k ∈ spec.map specKey ↔ k ∈ status.map statusKey) ∧
          ∀ k ∈ spec.map specKey,
            wrapInt64 (keySum specKey (fun a => a.Quantity) spec k) =
              wrapInt64 (keySum statusKey (fun a => a.Quantity) status k)) ∧
      SpecMatchesStatus specKey statusKey spec' status' =
        SpecMatchesStatus specKey statusKey spec status := by
  refine ⟨specMatchesStatus_iff specKey statusKey spec status, ?_⟩
  rw [Bool.eq_iff_iff, specMatchesStatus_iff, specMatchesStatus_iff]
  have hk1 : ∀ k, k ∈ spec'.map specKey ↔ k ∈ spec.map specKey :=
    fun k => (hspec.map specKey).mem_iff
  have hk2 : ∀ k, k ∈ status'.map statusKey ↔ k ∈ status.map statusKey :=
    fun k => (hstatus.map statusKey).mem_iff
  constructor
  · rintro ⟨hkeys, hvals⟩
    refine ⟨fun k => by rw [← hk1, ← hk2]; exact hkeys k, ?_⟩
    intro k hk
    rw [← keySum_perm specKey _ spec spec' hspec, ← keySum_perm statusKey _ status status' hstatus]
    exact hvals k ((hk1 k).mpr hk)
  · rintro ⟨hkeys, hvals⟩
    refine ⟨fun k => by rw [hk1, hk2]; exact hkeys k, ?_⟩
    intro k hk
    rw [keySum_perm specKey _ spec spec' hspec, keySum_perm statusKey _ status status' hstatus]
    exact hvals k ((hk1 k).mp hk)

/-- When the sums of the quantities at a key lie in the range of a 64-bit `int`, the
values of the two count mappings at that key are equal exactly when the sums are. -/
theorem wrapped_sums_eq_iff (x y : Int) (hx0 : -9223372036854775808 ≤ x)
    (hx1 : x < 9223372036854775808) (hy0 : -9223372036854775808 ≤ y)
    (hy1 : y < 9223372036854775808) : wrapInt64 x = wrapInt64 y ↔ x = y := by
  rw [wrapInt64_of_range x hx0 hx1, wrapInt64_of_range y hy0 hy1]

/-- The amended C15 at concrete lists, each taken in two orders: the spec asks for two "1g.5gb" on
GPU 0 and one on GPU 1; the status reports one used and one free "1g.5gb" on GPU 0 and one
free on GPU 1.  `SpecMatchesStatus` is true in both orders; with one device fewer in the
status it is false. -/
theorem specMatchesStatus_spec_witness :
    ([⟨1, "1g.5gb", 1⟩, ⟨0, "1g.5gb", 2⟩] : List GPUSpecAnnotation).Perm
        [⟨0, "1g.5gb", 2⟩, ⟨1, "1g.5gb", 1⟩] ∧
      ([⟨0, "1g.5gb", false, 1⟩, ⟨0, "1g.5gb", true, 1⟩, ⟨1, "1g.5gb", false, 1⟩] :
          List GPUStatusAnnotation).Perm
        [⟨0, "1g.5gb", true, 1⟩, ⟨0, "1g.5gb", false, 1⟩, ⟨1, "1g.5gb", false, 1⟩] ∧
      SpecMatchesStatus exampleSpecKey exampleStatusKey
          [⟨1, "1g.5gb", 1⟩, ⟨0, "1g.5gb", 2⟩]
          [⟨0, "1g.5gb", false, 1⟩, ⟨0, "1g.5gb", true, 1⟩, ⟨1, "1g.5gb", false, 1⟩] =
        SpecMatchesStatus exampleSpecKey exampleStatusKey
          [⟨0, "1g.5gb", 2⟩, ⟨1, "1g.5gb", 1⟩]
          [⟨0, "1g.5gb", true, 1⟩, ⟨0, "1g.5gb", false, 1⟩, ⟨1, "1g.5gb", false, 1⟩] ∧
      SpecMatchesStatus exampleSpecKey exampleStatusKey
          [⟨0, "1g.5gb", 2⟩, ⟨1, "1g.5gb", 1⟩]
          [⟨0, "1g.5gb", true, 1⟩, ⟨0, "1g.5gb", false, 1⟩, ⟨1, "1g.5gb", false, 1⟩] = true ∧
      SpecMatchesStatus exampleSpecKey exampleStatusKey
          [⟨0, "1g.5gb", 2⟩, ⟨1, "1g.5gb", 1⟩]
          [⟨0, "1g.5gb", true, 1⟩, ⟨1, "1g.5gb", false, 1⟩] = false :=
  ⟨List.Perm.swap _ _ _, List.Perm.swap _ _ _,
    (specMatchesStatus_spec exampleSpecKey exampleStatusKey
      [⟨0, "1g.5gb", 2⟩, ⟨1, "1g.5gb", 1⟩] [⟨1, "1g.5gb", 1⟩, ⟨0, "1g.5gb", 2⟩]
      [⟨0, "1g.5gb", true, 1⟩, ⟨0, "1g.5gb", false, 1⟩, ⟨1, "1g.5gb", false, 1⟩]
      [⟨0, "1g.5gb", false, 1⟩, ⟨0, "1g.5gb", true, 1⟩, ⟨1, "1g.5gb", false, 1⟩]
      (List.Perm.swap _ _ _) (List.Perm.swap _ _ _)).2,
    by decide, by decide⟩

/-! ## The stored quantities of the plan -/

/-- Every quantity stored in the plan is the `uint8` conversion of a non-zero integer (a
positive difference, the absolute value of a negative difference, or a positive number of
resources); it is at least 1 unless that integer is a multiple of 256. -/
theorem plan_quantities_uint8_of_pos (state : MigState) (desired : GPUSpecAnnotationList) :
    (∀ c ∈ (NewMigConfigPlan state desired).CreateOperations,
        ∃ x : Int, x ≠ 0 ∧ c.Quantity = uint8 x) ∧
      (∀ d ∈ (NewMigConfigPlan state desired).DeleteOperations,
        ∃ x : Int, x ≠ 0 ∧ d.Quantity = uint8 x) ∧
      ∀ x : Int, x % 256 ≠ 0 → 1 ≤ uint8 x := by
  refine ⟨?_, ?_, ?_⟩
  · intro c hc
    rw [NewMigConfigPlan_eq] at hc
    obtain ⟨e, _, hce⟩ := List.mem_flatMap.mp hc
    have hpos := (entryCreates_profile _ _ _ hce).2
    unfold entryCreates at hce
    rw [if_pos hpos, List.mem_singleton] at hce
    refine ⟨entryDiff (MigDeviceResourceList.GroupByMigProfile state.resources) e, by omega, ?_⟩
    rw [hce]
  · intro d hd
    rw [NewMigConfigPlan_eq] at hd
    simp only [] at hd
    rcases List.mem_append.mp hd with hd | hd
    · obtain ⟨e, he, rfl⟩ := List.mem_map.mp hd
      unfold MigDeviceResourceList.GroupByMigProfile at he
      rw [mem_groupByKey] at he
      obtain ⟨⟨x, hx, hxe⟩, he2⟩ := he
      have hmem : x ∈ e.2 := by
        rw [he2, List.mem_filter]
        exact ⟨hx, by simpa using hxe⟩
      have hlen : 0 < e.2.length := List.length_pos_of_mem hmem
      exact ⟨(e.2.length : Int), by omega, rfl⟩
    · obtain ⟨e, _, hde⟩ := List.mem_flatMap.mp hd
      have hneg := (entryDeletes_profile _ _ _ hde).2
      unfold entryDeletes at hde
      rw [if_pos hneg, List.mem_singleton] at hde
      refine ⟨absInt64 (entryDiff (MigDeviceResourceList.GroupByMigProfile state.resources) e),
        ?_, by rw [hde]⟩
      have hrange : -9223372036854775808 ≤
          entryDiff (MigDeviceResourceList.GroupByMigProfile state.resources) e := by
        unfold entryDiff
        exact (wrapInt64_range _).1
      unfold absInt64
      rw [if_pos hneg]
      unfold wrapInt64
      omega
  · intro x hmod
    unfold uint8
    omega

end Mig
